import Mathlib

/-!
Verification of the GeoImgr metadata codec (lib/comprehensive-metadata-utils.ts).

Buffers are embedded as `List ℕ` of byte values, JavaScript numbers as exact
rationals `ℚ`, and JavaScript strings as Lean `String`.  Every definition is
translated from the TypeScript source; the few places where the source calls
an external library (piexifjs, `JSON`, `Number` formatting) that is not part
of this repository are modelled from the specification and marked
`Modelled from the spec:` in their doc comments.
-/

set_option linter.unusedVariables false

/-! ## JavaScript numeric primitives -/

/-- JS `Math.round`: round half toward positive infinity. -/
def jsRound (q : ℚ) : ℤ := ⌊q + 1 / 2⌋

/-! ## Byte-buffer primitives (model of Node `Buffer` operations) -/

/-- Little-endian byte encoding of `n` on `k` bytes (`n % 256^k`). -/
def toLEBytes : ℕ → ℕ → List ℕ
  | 0, _ => []
  | k + 1, n => (n % 256) :: toLEBytes k (n / 256)

/-- Big-endian byte encoding of `n` on `k` bytes. -/
def toBEBytes (k n : ℕ) : List ℕ := (toLEBytes k n).reverse

/-- Little-endian byte decoding. -/
def fromLEBytes : List ℕ → ℕ
  | [] => 0
  | b :: rest => b + 256 * fromLEBytes rest

/-- Big-endian byte decoding. -/
def fromBEBytes (l : List ℕ) : ℕ := fromLEBytes l.reverse

theorem toLEBytes_length (k n : ℕ) : (toLEBytes k n).length = k := by
  induction k generalizing n with
  | zero => rfl
  | succ k ih => simp [toLEBytes, ih]

theorem toBEBytes_length (k n : ℕ) : (toBEBytes k n).length = k := by
  simp [toBEBytes, toLEBytes_length]

theorem fromLEBytes_toLEBytes {k n : ℕ} (h : n < 256 ^ k) :
    fromLEBytes (toLEBytes k n) = n := by
  induction k generalizing n with
  | zero => simp [pow_zero] at h; simp [toLEBytes, fromLEBytes, h]
  | succ k ih =>
      have hdiv : n / 256 < 256 ^ k := by
        rw [Nat.div_lt_iff_lt_mul (by norm_num)]
        calc n < 256 ^ (k + 1) := h
          _ = 256 ^ k * 256 := by ring
      simp [toLEBytes, fromLEBytes, ih hdiv]
      omega

theorem fromBEBytes_toBEBytes {k n : ℕ} (h : n < 256 ^ k) :
    fromBEBytes (toBEBytes k n) = n := by
  simp [fromBEBytes, toBEBytes, fromLEBytes_toLEBytes h]

theorem toLEBytes_lt (k n : ℕ) : ∀ b ∈ toLEBytes k n, b < 256 := by
  induction k generalizing n with
  | zero => simp [toLEBytes]
  | succ k ih =>
      intro b hb
      simp [toLEBytes] at hb
      rcases hb with h | h
      · omega
      · exact ih _ _ h

theorem toBEBytes_lt (k n : ℕ) : ∀ b ∈ toBEBytes k n, b < 256 := by
  intro b hb
  exact toLEBytes_lt k n b (List.mem_reverse.mp hb)

/-- Node `buf.readUInt32BE(off)`: `none` models the `RangeError` thrown on an
out-of-bounds read. -/
def readUInt32BE (buf : List ℕ) (off : ℕ) : Option ℕ :=
  if off + 4 ≤ buf.length then some (fromBEBytes ((buf.drop off).take 4)) else none

/-- Node `buf.readUInt32LE(off)`. -/
def readUInt32LE (buf : List ℕ) (off : ℕ) : Option ℕ :=
  if off + 4 ≤ buf.length then some (fromLEBytes ((buf.drop off).take 4)) else none

/-- JS `TypedArray` index normalization: negative indices count from the end,
then the result is clamped into `[0, len]`. -/
def jsNormIdx (len : ℕ) (i : Int) : ℕ :=
  if i < 0 then (max ((len : Int) + i) 0).toNat else min i.toNat len

/-- Node `buf.subarray(s, e)` (never throws; clamps both indices). -/
def jsSubarray (l : List ℕ) (s e : Int) : List ℕ :=
  (l.take (jsNormIdx l.length e)).drop (jsNormIdx l.length s)

/-- Node `buf.subarray(s)` with the end index defaulted to the length. -/
def jsSubarrayFrom (l : List ℕ) (s : Int) : List ℕ :=
  jsSubarray l s (l.length : Int)

/-- Node `buf.indexOf(v, start)`: `-1` when absent, as in JS. -/
def jsIndexOf (l : List ℕ) (v : ℕ) (start : Int := 0) : Int :=
  let s := jsNormIdx l.length start
  match List.findIdx? (fun b => b == v) (l.drop s) with
  | some i => ((s + i : ℕ) : Int)
  | none => -1

/-! ## JavaScript string primitives -/

/-- All UTF-16 units of the string are ASCII. -/
def asciiOnly (s : String) : Bool := s.data.all (fun c => c.toNat < 128)

/-- UTF-8 encoding of one scalar value (model of the encoder used by
`Buffer.from(s, "utf8")`). -/
def utf8EncodeCharM (c : Char) : List ℕ :=
  if c.toNat < 0x80 then [c.toNat]
  else if c.toNat < 0x800 then [0xC0 ||| (c.toNat >>> 6), 0x80 ||| (c.toNat &&& 0x3F)]
  else if c.toNat < 0x10000 then
    [0xE0 ||| (c.toNat >>> 12), 0x80 ||| ((c.toNat >>> 6) &&& 0x3F), 0x80 ||| (c.toNat &&& 0x3F)]
  else
    [0xF0 ||| (c.toNat >>> 18), 0x80 ||| ((c.toNat >>> 12) &&& 0x3F),
     0x80 ||| ((c.toNat >>> 6) &&& 0x3F), 0x80 ||| (c.toNat &&& 0x3F)]

/-- `Buffer.from(s, "utf8")`. -/
def utf8Bytes (s : String) : List ℕ := (s.data.map utf8EncodeCharM).flatten

/-- `Buffer.from(s, "latin1")`: low byte of each UTF-16 unit. -/
def latin1Bytes (s : String) : List ℕ := s.data.map (fun c => c.toNat &&& 255)

/-- `buf.toString("latin1")`: byte `b` decodes to the code point `b`. -/
def latin1Decode (l : List ℕ) : String := ⟨l.map (fun b => Char.ofNat (b % 256))⟩

/-- `buf.toString("utf8")`, modelled losslessly for ASCII bytes; non-ASCII
bytes are replaced by U+FFFD (Node substitutes replacement characters for
invalid sequences; multi-byte sequences are out of scope of the theorems,
which carry ASCII hypotheses). -/
def bytesToStringLossy (l : List ℕ) : String :=
  ⟨l.map (fun b => if b < 128 then Char.ofNat b else Char.ofNat 0xFFFD)⟩

/-- JS `String.prototype.toLowerCase`, on the ASCII range (all keywords the
codec compares are ASCII; `Char.toLower` lowers exactly `A`–`Z`). -/
def jsToLower (s : String) : String := ⟨s.data.map Char.toLower⟩

/-- JS `String.prototype.includes` (substring test). -/
def jsIncludes (s sub : String) : Bool :=
  (List.range (s.data.length + 1)).any (fun i => sub.data.isPrefixOf (s.data.drop i))

/-- JS whitespace for `trim` (the characters that occur in this codec's data). -/
def jsIsWS (c : Char) : Bool := c == ' ' || c == '\t' || c == '\n' || c == '\r'

/-- JS `String.prototype.trim`. -/
def jsTrim (s : String) : String :=
  ⟨((s.data.dropWhile jsIsWS).reverse.dropWhile jsIsWS).reverse⟩

/-- JS `String.prototype.split` with a single-character separator. -/
def jsSplit (s : String) (sep : Char) : List String :=
  (s.data.splitOn sep).map String.mk

theorem stringMk_data (s : String) : String.mk s.data = s := by cases s; rfl

theorem nat_and_255 (x : ℕ) : x &&& 255 = x % 256 := by
  have := Nat.and_pow_two_sub_one_eq_mod x 8
  norm_num at this
  exact this

theorem latin1Decode_latin1Bytes {s : String} (h : asciiOnly s = true) :
    latin1Decode (latin1Bytes s) = s := by
  unfold latin1Decode latin1Bytes
  simp only [asciiOnly, List.all_eq_true] at h
  conv_rhs => rw [← stringMk_data s]
  apply congrArg String.mk
  rw [List.map_map]
  conv_rhs => rw [← List.map_id s.data]
  apply List.map_congr_left
  intro c hc
  have hlt : c.toNat < 128 := by simpa using h c hc
  have hand : c.toNat &&& 255 = c.toNat := by
    rw [nat_and_255]; exact Nat.mod_eq_of_lt (by omega)
  simp only [Function.comp_apply, hand, id_eq]
  rw [Nat.mod_eq_of_lt (by omega)]
  exact Char.ofNat_toNat c

theorem utf8EncodeCharM_ascii {c : Char} (h : c.toNat < 128) :
    utf8EncodeCharM c = [c.toNat] := by
  unfold utf8EncodeCharM
  simp [h]

theorem utf8Bytes_ascii_list (l : List Char) (h : ∀ c ∈ l, c.toNat < 128) :
    (l.map utf8EncodeCharM).flatten = l.map Char.toNat := by
  induction l with
  | nil => rfl
  | cons c cs ih =>
      simp only [List.map_cons, List.flatten_cons]
      rw [utf8EncodeCharM_ascii (h c (by simp))]
      rw [ih (fun x hx => h x (by simp [hx]))]
      rfl

theorem utf8Bytes_ascii {s : String} (h : asciiOnly s = true) :
    utf8Bytes s = s.data.map Char.toNat := by
  simp only [asciiOnly, List.all_eq_true] at h
  exact utf8Bytes_ascii_list s.data (fun c hc => by simpa using h c hc)

theorem latin1Bytes_ascii {s : String} (h : asciiOnly s = true) :
    latin1Bytes s = s.data.map Char.toNat := by
  unfold latin1Bytes
  simp only [asciiOnly, List.all_eq_true] at h
  apply List.map_congr_left
  intro c hc
  have hlt : c.toNat < 128 := by simpa using h c hc
  rw [nat_and_255, Nat.mod_eq_of_lt (by omega)]

theorem bytesToStringLossy_ascii_map {s : String} (h : asciiOnly s = true) :
    bytesToStringLossy (s.data.map Char.toNat) = s := by
  unfold bytesToStringLossy
  simp only [asciiOnly, List.all_eq_true] at h
  conv_rhs => rw [← stringMk_data s]
  apply congrArg String.mk
  rw [List.map_map]
  conv_rhs => rw [← List.map_id s.data]
  apply List.map_congr_left
  intro c hc
  have hlt : c.toNat < 128 := by simpa using h c hc
  simp only [Function.comp_apply, if_pos hlt, id_eq]
  exact Char.ofNat_toNat c

/-! ## Coordinate Converter (source: `gpsToDecimal`, `decimalToGPS`) -/

/-- Source `gpsToDecimal(gpsArray, ref)`: `degrees + minutes/60 + seconds/3600`,
negated when `ref` is `"S"` or `"W"`; `0` when the array is missing or has
fewer than 3 components.  The JS parameter `gpsArray: number[]` (possibly
`undefined`) is embedded as `Option (List ℚ)`. -/
def gpsToDecimal (gpsArray : Option (List ℚ)) (ref : String) : ℚ :=
  match gpsArray with
  | none => 0
  | some (degrees :: minutes :: seconds :: _) =>
      let decimal := degrees + minutes / 60 + seconds / 3600
      if ref = "S" ∨ ref = "W" then -decimal else decimal
  | some _ => 0

/-- Source `decimalToGPS(decimal)`: absolute value split into whole degrees,
whole minutes, and residual seconds rounded to 2 decimal places. -/
def decimalToGPS (decimal : ℚ) : ℚ × ℚ × ℚ :=
  let absolute := |decimal|
  let degrees : ℚ := (⌊absolute⌋ : ℤ)
  let minutesFloat := (absolute - degrees) * 60
  let minutes : ℚ := (⌊minutesFloat⌋ : ℤ)
  let seconds := (minutesFloat - minutes) * 60
  (degrees, minutes, (jsRound (seconds * 100) : ℚ) / 100)

theorem jsRound_abs_sub_le (q : ℚ) : |(jsRound q : ℚ) - q| ≤ 1 / 2 := by
  unfold jsRound
  have h1 : ((⌊q + 1 / 2⌋ : ℤ) : ℚ) ≤ q + 1 / 2 := Int.floor_le _
  have h2 : q + 1 / 2 < (⌊q + 1 / 2⌋ : ℚ) + 1 := Int.lt_floor_add_one _
  rw [abs_le]
  constructor <;> linarith

theorem decimalToGPS_reconstruct (d : ℚ) :
    (decimalToGPS d).1 + (decimalToGPS d).2.1 / 60 + (decimalToGPS d).2.2 / 3600
      = |d| + ((jsRound (((|d| - (⌊|d|⌋ : ℤ)) * 60 - (⌊(|d| - (⌊|d|⌋ : ℤ)) * 60⌋ : ℤ)) * 60 * 100) : ℚ) / 100
          - ((|d| - (⌊|d|⌋ : ℤ)) * 60 - (⌊(|d| - (⌊|d|⌋ : ℤ)) * 60⌋ : ℤ)) * 60) / 3600 := by
  unfold decimalToGPS
  ring

/-- The rounded-seconds DMS triple reconstructs `|d|` within `1/720000` degrees. -/
theorem decimalToGPS_error_bound (d : ℚ) :
    abs (((decimalToGPS d).1 + (decimalToGPS d).2.1 / 60 + (decimalToGPS d).2.2 / 3600) - abs d)
      ≤ 1 / 720000 := by
  have h := decimalToGPS_reconstruct d
  set s : ℚ := (|d| - (⌊|d|⌋ : ℤ)) * 60 - (⌊(|d| - (⌊|d|⌋ : ℤ)) * 60⌋ : ℤ) with hs
  have hr : |(jsRound (s * 60 * 100) : ℚ) - s * 60 * 100| ≤ 1 / 2 := jsRound_abs_sub_le _
  have : ((decimalToGPS d).1 + (decimalToGPS d).2.1 / 60 + (decimalToGPS d).2.2 / 3600) - |d|
      = ((jsRound (s * 60 * 100) : ℚ) - s * 60 * 100) / 360000 := by
    rw [h]; ring
  rw [this, abs_div]
  have h360 : |(360000 : ℚ)| = 360000 := by norm_num
  rw [h360]
  rw [div_le_iff₀ (by norm_num : (0:ℚ) < 360000)]
  calc |(jsRound (s * 60 * 100) : ℚ) - s * 60 * 100| ≤ 1 / 2 := hr
    _ ≤ 1 / 720000 * 360000 := by norm_num

/-- C8: For every DMS triple `(degrees, minutes, seconds)` and hemisphere
reference `ref`, `gpsToDecimal` returns `degrees + minutes/60 + seconds/3600`,
negated exactly when `ref` is `"S"` or `"W"`; and for every array with fewer
than 3 components, or no array at all, it returns `0`. -/
theorem C8_gpsToDecimal_spec :
    (∀ (d m s : ℚ) (rest : List ℚ) (ref : String),
      gpsToDecimal (some (d :: m :: s :: rest)) ref =
        if ref = "S" ∨ ref = "W" then -(d + m / 60 + s / 3600) else d + m / 60 + s / 3600)
    ∧ (∀ (arr : List ℚ) (ref : String), arr.length < 3 → gpsToDecimal (some arr) ref = 0)
    ∧ (∀ ref : String, gpsToDecimal none ref = 0) := by
  refine ⟨fun d m s rest ref => rfl, fun arr ref h => ?_, fun ref => rfl⟩
  match arr with
  | [] => rfl
  | [a] => rfl
  | [a, b] => rfl
  | a :: b :: c :: rest => simp at h; omega

/-- Witness for C8 at concrete inputs. -/
theorem C8_gpsToDecimal_spec_witness :
    gpsToDecimal (some [(1 : ℚ), 2]) "N" = 0 :=
  C8_gpsToDecimal_spec.2.1 [(1 : ℚ), 2] "N" (by decide)

/-- Range facts about the DMS triple `decimalToGPS` computes: degrees are the
floor of `|d|`, minutes are an integer in `[0, 59]`, seconds are in `[0, 60]`. -/
theorem decimalToGPS_bounds (d : ℚ) :
    (decimalToGPS d).1 = ((⌊|d|⌋ : ℤ) : ℚ)
    ∧ 0 ≤ (decimalToGPS d).2.1 ∧ (decimalToGPS d).2.1 ≤ 59
    ∧ (∃ k : ℤ, (decimalToGPS d).2.1 = (k : ℚ))
    ∧ 0 ≤ (decimalToGPS d).2.2 ∧ (decimalToGPS d).2.2 ≤ 60 := by
  have habs : (0 : ℚ) ≤ |d| := abs_nonneg d
  have hfl : ((⌊|d|⌋ : ℤ) : ℚ) ≤ |d| := Int.floor_le _
  have hfu : |d| < ((⌊|d|⌋ : ℤ) : ℚ) + 1 := Int.lt_floor_add_one _
  set mf : ℚ := (|d| - (⌊|d|⌋ : ℤ)) * 60 with hmf
  have hmf0 : 0 ≤ mf := by rw [hmf]; nlinarith
  have hmf60 : mf < 60 := by rw [hmf]; nlinarith
  have hm0 : (0 : ℤ) ≤ ⌊mf⌋ := Int.floor_nonneg.mpr hmf0
  have hm59 : ⌊mf⌋ ≤ 59 := by
    have : ⌊mf⌋ < 60 := Int.floor_lt.mpr (by exact_mod_cast hmf60)
    omega
  have hsl : ((⌊mf⌋ : ℤ) : ℚ) ≤ mf := Int.floor_le _
  have hsu : mf < ((⌊mf⌋ : ℤ) : ℚ) + 1 := Int.lt_floor_add_one _
  set s : ℚ := (mf - (⌊mf⌋ : ℤ)) * 60 with hs
  have hs0 : 0 ≤ s := by rw [hs]; nlinarith
  have hs60 : s < 60 := by rw [hs]; nlinarith
  have hr0 : (0 : ℤ) ≤ jsRound (s * 100) := by
    unfold jsRound
    exact Int.floor_nonneg.mpr (by nlinarith)
  have hr60 : jsRound (s * 100) ≤ 6000 := by
    unfold jsRound
    have : ⌊s * 100 + 1 / 2⌋ < 6001 := Int.floor_lt.mpr (by push_cast; nlinarith)
    omega
  refine ⟨rfl, ?_, ?_, ⟨⌊mf⌋, rfl⟩, ?_, ?_⟩
  · show (0 : ℚ) ≤ ((⌊mf⌋ : ℤ) : ℚ)
    exact_mod_cast hm0
  · show ((⌊mf⌋ : ℤ) : ℚ) ≤ 59
    exact_mod_cast hm59
  · show (0 : ℚ) ≤ (jsRound (s * 100) : ℚ) / 100
    have : (0 : ℚ) ≤ (jsRound (s * 100) : ℚ) := by exact_mod_cast hr0
    linarith
  · show (jsRound (s * 100) : ℚ) / 100 ≤ 60
    have : (jsRound (s * 100) : ℚ) ≤ 6000 := by exact_mod_cast hr60
    linarith

/-- C10: For every input `d`, `decimalToGPS` returns `(deg, min, sec)` with
`deg = ⌊|d|⌋ ≥ 0` cast to a JS number, `min` an integer with `0 ≤ min ≤ 59`,
and `0 ≤ sec ≤ 60`; `sec` can equal exactly `60` after the 2-decimal rounding
(witnessed at `d = 59.996/3600`, whose residual is within 0.005 seconds of a
whole minute), so the triple is not always strictly normalized with `sec < 60`. -/
theorem C10_decimalToGPS_ranges :
    (∀ d : ℚ,
      (decimalToGPS d).1 = ((⌊|d|⌋ : ℤ) : ℚ)
      ∧ 0 ≤ (decimalToGPS d).2.1 ∧ (decimalToGPS d).2.1 ≤ 59
      ∧ (∃ k : ℤ, (decimalToGPS d).2.1 = (k : ℚ))
      ∧ 0 ≤ (decimalToGPS d).2.2 ∧ (decimalToGPS d).2.2 ≤ 60)
    ∧ (decimalToGPS (14999 / 900000)).2.2 = 60 := by
  constructor
  · exact decimalToGPS_bounds
  · show (jsRound (((|(14999 : ℚ) / 900000| - (⌊|(14999 : ℚ) / 900000|⌋ : ℤ))
        * 60 - (⌊(|(14999 : ℚ) / 900000| - (⌊|(14999 : ℚ) / 900000|⌋ : ℤ)) * 60⌋ : ℤ)) * 60 * 100) : ℚ)
        / 100 = 60
    have habs : |(14999 : ℚ) / 900000| = 14999 / 900000 := by
      rw [abs_of_nonneg]; norm_num
    rw [habs]
    norm_num [jsRound]

/-! ## CRC32 Engine (source: `calculateCRC32`) -/

/-- One step of the reflected CRC-32 bit loop with polynomial `0xEDB88320`
(the body of the source's inner `for (j = 0; j < 8; j++)` loop). -/
def crcStep (c : ℕ) : ℕ := if c % 2 = 1 then 0xedb88320 ^^^ (c >>> 1) else c >>> 1

/-- `crcTable[i]` from the source: eight bit-loop steps applied to `i`. -/
def crcTableEntry (i : ℕ) : ℕ := crcStep^[8] i

/-- The source's table-driven per-byte update:
`crc = crcTable[(crc ^ data[i]) & 0xff] ^ (crc >>> 8)`. -/
def crcByteStep (crc b : ℕ) : ℕ := crcTableEntry ((crc ^^^ b) &&& 0xff) ^^^ (crc >>> 8)

/-- Source `calculateCRC32(data)`: initial value `0xFFFFFFFF`, table-driven
per-byte folding, final XOR with `0xFFFFFFFF`.  The source's trailing `>>> 0`
is the identity here because the value stays below `2^32`. -/
def calculateCRC32 (data : List ℕ) : ℕ :=
  (data.foldl crcByteStep 0xffffffff) ^^^ 0xffffffff

/-- The claim's reflected CRC-32 per-byte update: xor the byte into the crc
and run eight conditional-polynomial shift steps. -/
def crc32Update (crc b : ℕ) : ℕ := crcStep^[8] (crc ^^^ b)

/-- Reference reflected CRC-32 stated as in the specification: polynomial
`0xEDB88320`, initial value `0xFFFFFFFF`, final XOR `0xFFFFFFFF`. -/
def crc32Spec (data : List ℕ) : ℕ :=
  (data.foldl crc32Update 0xffffffff) ^^^ 0xffffffff

theorem shiftRight_xor_distrib (a b n : ℕ) : (a ^^^ b) >>> n = (a >>> n) ^^^ (b >>> n) := by
  apply Nat.eq_of_testBit_eq
  intro i
  simp [Nat.testBit_shiftRight, Nat.testBit_xor]

theorem xor_xor_cancel_left (p x y : ℕ) : (p ^^^ x) ^^^ (p ^^^ y) = x ^^^ y := by
  apply Nat.eq_of_testBit_eq
  intro i
  simp only [Nat.testBit_xor]
  cases p.testBit i <;> cases x.testBit i <;> cases y.testBit i <;> rfl

theorem nat_and_one (x : ℕ) : x &&& 1 = x % 2 := by
  simp [Nat.and_one_is_mod]

theorem mod2_xor (a b : ℕ) : (a ^^^ b) % 2 = (a % 2) ^^^ (b % 2) := by
  rw [← nat_and_one (a ^^^ b), ← nat_and_one a, ← nat_and_one b]
  apply Nat.eq_of_testBit_eq
  intro i
  simp only [Nat.testBit_and, Nat.testBit_xor]
  cases a.testBit i <;> cases b.testBit i <;> cases (1 : ℕ).testBit i <;> rfl

theorem xor_rotate (w x y z : ℕ) : (w ^^^ x) ^^^ (y ^^^ z) = (w ^^^ y) ^^^ (x ^^^ z) := by
  apply Nat.eq_of_testBit_eq
  intro i
  simp only [Nat.testBit_xor]
  cases w.testBit i <;> cases x.testBit i <;> cases y.testBit i <;> cases z.testBit i <;> rfl

theorem crcStep_linear (c : ℕ) :
    crcStep c = (c >>> 1) ^^^ (if c % 2 = 1 then 0xedb88320 else 0) := by
  unfold crcStep
  split
  · rw [Nat.xor_comm]
  · rw [Nat.xor_zero]

theorem crcStep_xor (a b : ℕ) : crcStep (a ^^^ b) = crcStep a ^^^ crcStep b := by
  rw [crcStep_linear (a ^^^ b), crcStep_linear a, crcStep_linear b,
    shiftRight_xor_distrib]
  have hI : (if (a ^^^ b) % 2 = 1 then (0xedb88320 : ℕ) else 0)
      = (if a % 2 = 1 then (0xedb88320 : ℕ) else 0) ^^^ (if b % 2 = 1 then (0xedb88320 : ℕ) else 0) := by
    rw [mod2_xor]
    rcases Nat.mod_two_eq_zero_or_one a with ha | ha <;>
      rcases Nat.mod_two_eq_zero_or_one b with hb | hb <;>
        simp [ha, hb, Nat.xor_self]
  rw [hI]
  exact xor_rotate _ _ _ _

theorem crcStep_iterate_xor (n a b : ℕ) :
    crcStep^[n] (a ^^^ b) = crcStep^[n] a ^^^ crcStep^[n] b := by
  induction n generalizing a b with
  | zero => rfl
  | succ n ih => rw [Function.iterate_succ_apply, Function.iterate_succ_apply,
      Function.iterate_succ_apply, crcStep_xor, ih]

theorem crcStep_two_mul (y : ℕ) : crcStep (2 * y) = y := by
  unfold crcStep
  have : (2 * y) % 2 = 0 := by omega
  simp [this]
  have : (2 * y) >>> 1 = (2 * y) / 2 := by
    rw [Nat.shiftRight_succ]
    rfl
  omega

theorem crcStep_iterate_mul_pow (k y : ℕ) : crcStep^[k] (y * 2 ^ k) = y := by
  induction k generalizing y with
  | zero => simp
  | succ k ih =>
      rw [Function.iterate_succ_apply]
      have : y * 2 ^ (k + 1) = 2 * (y * 2 ^ k) := by ring
      rw [this, crcStep_two_mul, ih]

theorem byte_decomp (x : ℕ) : x = (x &&& 255) ^^^ ((x >>> 8) <<< 8) := by
  apply Nat.eq_of_testBit_eq
  intro i
  have h255 : (255 : ℕ) = 2 ^ 8 - 1 := by norm_num
  simp only [Nat.testBit_xor, Nat.testBit_and, Nat.testBit_shiftLeft,
    Nat.testBit_shiftRight, h255, Nat.testBit_two_pow_sub_one]
  by_cases hi : i < 8
  · simp [hi, Nat.not_le.mpr hi]
  · simp only [hi, decide_False, Bool.and_false, Bool.false_xor]
    have hge : 8 ≤ i := Nat.not_lt.mp hi
    simp [hge, Nat.add_sub_cancel' hge]

theorem crcStep8_decomp (x : ℕ) :
    crcStep^[8] x = crcTableEntry (x &&& 255) ^^^ (x >>> 8) := by
  have h2 : crcStep^[8] ((x >>> 8) <<< 8) = x >>> 8 := by
    rw [Nat.shiftLeft_eq, crcStep_iterate_mul_pow]
  conv_lhs => rw [byte_decomp x]
  rw [crcStep_iterate_xor, h2]
  rfl

theorem crc32Update_eq_crcByteStep {crc b : ℕ} (hb : b < 256) :
    crc32Update crc b = crcByteStep crc b := by
  unfold crc32Update crcByteStep
  rw [crcStep8_decomp]
  congr 1
  rw [shiftRight_xor_distrib]
  have : b >>> 8 = 0 := by
    rw [Nat.shiftRight_eq_div_pow]
    exact Nat.div_eq_of_lt (by omega)
  rw [this, Nat.xor_zero]

theorem foldl_update_eq {data : List ℕ} (h : ∀ b ∈ data, b < 256) :
    ∀ acc : ℕ, data.foldl crc32Update acc = data.foldl crcByteStep acc := by
  induction data with
  | nil => intro acc; rfl
  | cons b rest ih =>
      intro acc
      simp only [List.foldl_cons]
      rw [crc32Update_eq_crcByteStep (h b (by simp))]
      exact ih (fun x hx => h x (by simp [hx])) _

theorem crc32Spec_eq_calculateCRC32 {data : List ℕ} (h : ∀ b ∈ data, b < 256) :
    crc32Spec data = calculateCRC32 data := by
  unfold crc32Spec calculateCRC32
  rw [foldl_update_eq h]

theorem crcStep_lt {c : ℕ} (h : c < 2 ^ 32) : crcStep c < 2 ^ 32 := by
  unfold crcStep
  split
  · exact Nat.xor_lt_two_pow (by norm_num) (by
      have : c >>> 1 ≤ c := by
        rw [Nat.shiftRight_eq_div_pow]
        exact Nat.div_le_self _ _
      omega)
  · have : c >>> 1 ≤ c := by
      rw [Nat.shiftRight_eq_div_pow]
      exact Nat.div_le_self _ _
    omega

theorem crcStep_iterate_lt {c : ℕ} (h : c < 2 ^ 32) : ∀ n, crcStep^[n] c < 2 ^ 32 := by
  intro n
  induction n with
  | zero => exact h
  | succ n ih => rw [Function.iterate_succ_apply']; exact crcStep_lt ih

theorem crcByteStep_lt {crc b : ℕ} (h : crc < 2 ^ 32) : crcByteStep crc b < 2 ^ 32 := by
  unfold crcByteStep crcTableEntry
  apply Nat.xor_lt_two_pow
  · exact crcStep_iterate_lt (by
      have : (crc ^^^ b) &&& 255 ≤ 255 := Nat.and_le_right
      omega) 8
  · have : crc >>> 8 ≤ crc := by
      rw [Nat.shiftRight_eq_div_pow]
      exact Nat.div_le_self _ _
    omega

theorem foldl_crcByteStep_lt (data : List ℕ) :
    ∀ {acc : ℕ}, acc < 2 ^ 32 → data.foldl crcByteStep acc < 2 ^ 32 := by
  induction data with
  | nil => intro acc h; exact h
  | cons b rest ih =>
      intro acc h
      simp only [List.foldl_cons]
      exact ih (crcByteStep_lt h)

theorem calculateCRC32_lt (data : List ℕ) : calculateCRC32 data < 2 ^ 32 := by
  unfold calculateCRC32
  exact Nat.xor_lt_two_pow (foldl_crcByteStep_lt data (by norm_num)) (by norm_num)

/-! ## PNG text chunk builder (source: `createPNGTextChunk`) -/

/-- Source `createPNGTextChunk(keyword, text)`: iTXt when keyword or text has a
non-ASCII UTF-16 unit (the `/[^\x00-\x7F]/` tests), else tEXt.  The chunk is
`[length:4 BE][type:4][data][crc:4 BE]` with the CRC computed over type+data
(`chunk.subarray(4, 8 + dataLength)`). -/
def createPNGTextChunk (keyword text : String) : List ℕ :=
  let needsUnicode := (text.data.any fun c => 127 < c.toNat)
    || (keyword.data.any fun c => 127 < c.toNat)
  if needsUnicode then
    let keywordBuffer := utf8Bytes keyword
    let textBuffer := utf8Bytes text
    let dataLength := keywordBuffer.length + 1 + 1 + 1 + 0 + 1 + 0 + 1 + textBuffer.length
    -- keyword, NUL, compression flag 0, compression method 0, empty language
    -- tag, NUL, empty translated keyword, NUL, text
    let dataBytes := keywordBuffer ++ [0] ++ [0, 0] ++ [0] ++ [0] ++ textBuffer
    let typeAndData := latin1Bytes "iTXt" ++ dataBytes
    toBEBytes 4 dataLength ++ typeAndData ++ toBEBytes 4 (calculateCRC32 typeAndData)
  else
    let keywordBuffer := latin1Bytes keyword
    let textBuffer := latin1Bytes text
    let dataLength := keywordBuffer.length + 1 + textBuffer.length
    let dataBytes := keywordBuffer ++ [0] ++ textBuffer
    let typeAndData := latin1Bytes "tEXt" ++ dataBytes
    toBEBytes 4 dataLength ++ typeAndData ++ toBEBytes 4 (calculateCRC32 typeAndData)

theorem latin1Bytes_lt (s : String) : ∀ b ∈ latin1Bytes s, b < 256 := by
  intro b hb
  unfold latin1Bytes at hb
  simp only [List.mem_map] at hb
  obtain ⟨c, _, hc⟩ := hb
  have : c.toNat &&& 255 ≤ 255 := Nat.and_le_right
  omega

theorem char_toNat_lt (c : Char) : c.toNat < 1114112 := by
  have h := c.valid
  rcases h with h | h
  · have : c.val.toNat < 55296 := h
    unfold Char.toNat
    omega
  · unfold Char.toNat
    omega

theorem shiftRight_lt_of_lt {n m k : ℕ} (h : n < m * 2 ^ k) : n >>> k < m := by
  rw [Nat.shiftRight_eq_div_pow]
  rw [Nat.div_lt_iff_lt_mul (Nat.pos_pow_of_pos k (by norm_num))]
  omega

theorem lor_lt_256 {a b : ℕ} (ha : a < 256) (hb : b < 256) : a ||| b < 256 := by
  have h := Nat.or_lt_two_pow (x := a) (y := b) (n := 8) (by omega) (by omega)
  omega

theorem utf8EncodeCharM_lt (c : Char) : ∀ b ∈ utf8EncodeCharM c, b < 256 := by
  intro b hb
  unfold utf8EncodeCharM at hb
  have hc := char_toNat_lt c
  have ha : c.toNat &&& 63 ≤ 63 := Nat.and_le_right
  have hs6' : (c.toNat >>> 6) &&& 63 ≤ 63 := Nat.and_le_right
  have hs12' : (c.toNat >>> 12) &&& 63 ≤ 63 := Nat.and_le_right
  by_cases h1 : c.toNat < 128
  · simp [h1] at hb; omega
  · by_cases h2 : c.toNat < 2048
    · simp [h1, h2] at hb
      have hs : c.toNat >>> 6 < 32 := shiftRight_lt_of_lt (by omega)
      rcases hb with hb | hb <;>
        (subst hb; exact lor_lt_256 (by omega) (by omega))
    · by_cases h3 : c.toNat < 65536
      · simp [h1, h2, h3] at hb
        have hs : c.toNat >>> 12 < 16 := shiftRight_lt_of_lt (by omega)
        rcases hb with hb | hb | hb <;>
          (subst hb; exact lor_lt_256 (by omega) (by omega))
      · simp [h1, h2, h3] at hb
        have hs : c.toNat >>> 18 < 8 := shiftRight_lt_of_lt (by omega)
        rcases hb with hb | hb | hb | hb <;>
          (subst hb; exact lor_lt_256 (by omega) (by omega))

theorem utf8Bytes_lt (s : String) : ∀ b ∈ utf8Bytes s, b < 256 := by
  intro b hb
  unfold utf8Bytes at hb
  simp only [List.mem_flatten, List.mem_map] at hb
  obtain ⟨l, ⟨c, _, hc⟩, hbl⟩ := hb
  exact utf8EncodeCharM_lt c b (hc ▸ hbl)

theorem utf8EncodeCharM_length_le (c : Char) : (utf8EncodeCharM c).length ≤ 4 := by
  unfold utf8EncodeCharM
  split
  · simp
  · split
    · simp
    · split <;> simp

theorem utf8Bytes_length_le (s : String) : (utf8Bytes s).length ≤ 4 * s.data.length := by
  unfold utf8Bytes
  induction s.data with
  | nil => simp
  | cons c cs ih =>
      simp only [List.map_cons, List.flatten_cons, List.length_append, List.length_cons]
      have := utf8EncodeCharM_length_le c
      omega

theorem latin1Bytes_length (s : String) : (latin1Bytes s).length = s.data.length := by
  simp [latin1Bytes]

theorem bytes_lt_append {l1 l2 : List ℕ} (h1 : ∀ b ∈ l1, b < 256)
    (h2 : ∀ b ∈ l2, b < 256) : ∀ b ∈ l1 ++ l2, b < 256 := by
  intro b hb
  rcases List.mem_append.mp hb with h | h
  · exact h1 b h
  · exact h2 b h

/-- Slicing facts for an assembled `[len BE][type+data][crc BE]` chunk. -/
theorem assembled_chunk_slices (dl : ℕ) (body : List ℕ)
    (hbody : body.length = 4 + dl) (hdl : dl < 2 ^ 32) :
    let chunk := toBEBytes 4 dl ++ body ++ toBEBytes 4 (calculateCRC32 body)
    fromBEBytes (chunk.take 4) = dl
    ∧ (chunk.drop 4).take (dl + 4) = body
    ∧ (chunk.drop (8 + dl)).take 4 = toBEBytes 4 (calculateCRC32 body) := by
  intro chunk
  have hlen4 : (toBEBytes 4 dl).length = 4 := toBEBytes_length 4 dl
  have h1 : chunk.take 4 = toBEBytes 4 dl := by
    show (toBEBytes 4 dl ++ (body ++ toBEBytes 4 (calculateCRC32 body))).take 4 = _
    rw [List.take_append_of_le_length (by omega), List.take_of_length_le (by omega)]
  have h2 : chunk.drop 4 = body ++ toBEBytes 4 (calculateCRC32 body) := by
    show (toBEBytes 4 dl ++ (body ++ toBEBytes 4 (calculateCRC32 body))).drop 4 = _
    rw [List.drop_append_of_le_length (by omega), List.drop_of_length_le (by omega),
      List.nil_append]
  refine ⟨?_, ?_, ?_⟩
  · rw [h1]; exact fromBEBytes_toBEBytes (by
      calc dl < 2 ^ 32 := hdl
        _ = 256 ^ 4 := by norm_num)
  · rw [h2, List.take_append_of_le_length (by omega), List.take_of_length_le (by omega)]
  · have : (8 : ℕ) + dl = 4 + (4 + dl) := by omega
    rw [this, ← List.drop_drop, h2]
    rw [show (4 : ℕ) + dl = body.length by omega, List.drop_left]
    rw [List.take_of_length_le (by rw [toBEBytes_length])]

/-- C5: every tEXt or iTXt chunk produced by the PNG writer's chunk builder
`createPNGTextChunk` stores in its final 4 bytes, big-endian, the IEEE
reflected CRC-32 (`crc32Spec`: polynomial 0xEDB88320, initial value
0xFFFFFFFF, final XOR 0xFFFFFFFF) computed over exactly the 4-byte chunk type
concatenated with the chunk's data bytes, excluding the length field:
recomputing that CRC over the type+data span delimited by the chunk's own
length field equals the stored CRC field. -/
theorem C5_png_chunk_crc32 (keyword text : String)
    (hlen : keyword.data.length + text.data.length < 2 ^ 28) :
    crc32Spec (((createPNGTextChunk keyword text).drop 4).take
        (fromBEBytes ((createPNGTextChunk keyword text).take 4) + 4))
      = fromBEBytes (((createPNGTextChunk keyword text).drop
          (8 + fromBEBytes ((createPNGTextChunk keyword text).take 4))).take 4) := by
  have hk4 : (latin1Bytes "iTXt").length = 4 := rfl
  have ht4 : (latin1Bytes "tEXt").length = 4 := rfl
  simp only [createPNGTextChunk]
  by_cases hnu : ((text.data.any fun c => 127 < c.toNat)
      || (keyword.data.any fun c => 127 < c.toNat)) = true
  · simp only [hnu, if_true]
    set kwB := utf8Bytes keyword with hkwB
    set txtB := utf8Bytes text with htxtB
    have hkl : kwB.length ≤ 4 * keyword.data.length := utf8Bytes_length_le keyword
    have htl : txtB.length ≤ 4 * text.data.length := utf8Bytes_length_le text
    set dl := kwB.length + 1 + 1 + 1 + 0 + 1 + 0 + 1 + txtB.length with hdl
    set body := latin1Bytes "iTXt" ++ (kwB ++ [0] ++ [0, 0] ++ [0] ++ [0] ++ txtB) with hbody
    have hblen : body.length = 4 + dl := by
      rw [hbody]
      simp [List.length_append, hk4]
      omega
    have hdl32 : dl < 2 ^ 32 := by omega
    obtain ⟨hA, hB, hC⟩ := assembled_chunk_slices dl body hblen hdl32
    rw [hA, hB, hC]
    rw [fromBEBytes_toBEBytes (by
      have := calculateCRC32_lt body
      calc calculateCRC32 body < 2 ^ 32 := this
        _ = 256 ^ 4 := by norm_num)]
    apply crc32Spec_eq_calculateCRC32
    rw [hbody, hkwB, htxtB]
    apply bytes_lt_append (latin1Bytes_lt _)
    exact bytes_lt_append
      (bytes_lt_append
        (bytes_lt_append
          (bytes_lt_append (bytes_lt_append (utf8Bytes_lt _) (by decide)) (by decide))
          (by decide))
        (by decide))
      (utf8Bytes_lt _)
  · simp only [hnu, if_false, Bool.false_eq_true]
    set kwB := latin1Bytes keyword with hkwB
    set txtB := latin1Bytes text with htxtB
    have hkl : kwB.length = keyword.data.length := latin1Bytes_length keyword
    have htl : txtB.length = text.data.length := latin1Bytes_length text
    set dl := kwB.length + 1 + txtB.length with hdl
    set body := latin1Bytes "tEXt" ++ (kwB ++ [0] ++ txtB) with hbody
    have hblen : body.length = 4 + dl := by
      rw [hbody]
      simp [List.length_append, ht4]
      omega
    have hdl32 : dl < 2 ^ 32 := by omega
    obtain ⟨hA, hB, hC⟩ := assembled_chunk_slices dl body hblen hdl32
    rw [hA, hB, hC]
    rw [fromBEBytes_toBEBytes (by
      have := calculateCRC32_lt body
      calc calculateCRC32 body < 2 ^ 32 := this
        _ = 256 ^ 4 := by norm_num)]
    apply crc32Spec_eq_calculateCRC32
    rw [hbody, hkwB, htxtB]
    apply bytes_lt_append (latin1Bytes_lt _)
    exact bytes_lt_append (bytes_lt_append (latin1Bytes_lt _) (by decide)) (latin1Bytes_lt _)

/-- Witness for C5 at a concrete keyword and text. -/
theorem C5_png_chunk_crc32_witness :
    ("Software".data.length + "Universal GeoImgr Tool v2.0".data.length < 2 ^ 28)
    ∧ crc32Spec (((createPNGTextChunk "Software" "Universal GeoImgr Tool v2.0").drop 4).take
        (fromBEBytes ((createPNGTextChunk "Software" "Universal GeoImgr Tool v2.0").take 4) + 4))
      = fromBEBytes (((createPNGTextChunk "Software" "Universal GeoImgr Tool v2.0").drop
          (8 + fromBEBytes ((createPNGTextChunk "Software" "Universal GeoImgr Tool v2.0").take 4))).take 4) :=
  ⟨by decide, C5_png_chunk_crc32 "Software" "Universal GeoImgr Tool v2.0" (by decide)⟩

/-! ## Data model (source: `MetadataInfo`, `FormatSupport`) -/

/-- Source `GPSCoordinates`. -/
structure GPSCoordinates where
  lat : ℚ
  lon : ℚ
deriving DecidableEq, Repr

/-- Source `MetadataInfo`: all fields optional. -/
structure MetadataInfo where
  gps : Option GPSCoordinates := none
  keywords : Option String := none
  description : Option String := none
  dateTime : Option String := none
  cameraMake : Option String := none
  cameraModel : Option String := none
deriving DecidableEq, Repr

/-- Source `FormatSupport.method` tag. -/
inductive MetaMethod
  | exif
  | xmp
  | riff
  | custom
deriving DecidableEq, Repr

/-- Source `FormatSupport`. -/
structure FormatSupport where
  canReadGPS : Bool
  canWriteGPS : Bool
  canReadMetadata : Bool
  canWriteMetadata : Bool
  method : MetaMethod
  notes : String
deriving DecidableEq, Repr

/-- Source `getFormatSupport(mimeType)`: the fixed capability table, with the
all-false `custom` record for unknown MIME types. -/
def getFormatSupport (mimeType : String) : FormatSupport :=
  if mimeType = "image/jpeg" then
    ⟨true, true, true, true, .exif, "Full EXIF support - recommended format"⟩
  else if mimeType = "image/jpg" then
    ⟨true, true, true, true, .exif, "Full EXIF support - recommended format"⟩
  else if mimeType = "image/tiff" then
    ⟨true, true, true, true, .exif, "Full EXIF support, larger file sizes"⟩
  else if mimeType = "image/webp" then
    ⟨true, true, true, true, .riff, "RIFF-based metadata support"⟩
  else if mimeType = "image/png" then
    ⟨true, true, true, true, .custom, "Custom PNG text chunks for GPS"⟩
  else if mimeType = "image/heic" then
    ⟨true, false, true, false, .exif, "Read-only support, convert to JPEG for writing"⟩
  else if mimeType = "image/heif" then
    ⟨true, false, true, false, .exif, "Read-only support, convert to JPEG for writing"⟩
  else
    ⟨false, false, false, false, .custom, "Unsupported format"⟩

/-! ## EXIF tag-block transport

Modelled from the spec: the source delegates EXIF container serialization to
the external `piexifjs` library (`piexif.load`, `piexif.dump`,
`piexif.insert`), which is not part of this repository.  Per spec §4.4 the
tag block carries the GPS DMS rational triples with their hemisphere
reference tags plus `ImageDescription`, `XPKeywords`, `Make`, `Model`,
`DateTime`, and reads hand the DMS component values to the Coordinate
Converter.  The records and byte codec below model that transport as a
faithful injective encoding with a total decoder. -/

/-- An EXIF rational value `(numerator, denominator)` as stored by the writer. -/
structure ExifRational where
  num : ℤ
  den : ℤ
deriving DecidableEq, Repr

/-- The GPS IFD tags this codec reads and writes. -/
structure ExifGPSData where
  latitude : ExifRational × ExifRational × ExifRational
  latitudeRef : String
  longitude : ExifRational × ExifRational × ExifRational
  longitudeRef : String
  versionID : List ℕ
deriving DecidableEq, Repr

/-- The tag dictionary this codec reads and writes (GPS IFD plus 0th IFD). -/
structure ExifObj where
  gps : Option ExifGPSData := none
  imageDescription : Option String := none
  xpKeywords : Option String := none
  make : Option String := none
  model : Option String := none
  dateTime : Option String := none
deriving DecidableEq, Repr

/-- Signed-integer encoding: sign byte then 8-byte little-endian magnitude. -/
def encInt (i : ℤ) : List ℕ := (if i < 0 then 1 else 0) :: toLEBytes 8 i.natAbs

def decInt (l : List ℕ) : Option (ℤ × List ℕ) :=
  match l with
  | s :: rest =>
      if 8 ≤ rest.length then
        some ((if s = 1 then -(fromLEBytes (rest.take 8) : ℤ) else (fromLEBytes (rest.take 8) : ℤ)),
          rest.drop 8)
      else none
  | [] => none

def encRat (r : ExifRational) : List ℕ := encInt r.num ++ encInt r.den

def decRat (l : List ℕ) : Option (ExifRational × List ℕ) :=
  match decInt l with
  | some (n, l1) =>
      match decInt l1 with
      | some (d, l2) => some (⟨n, d⟩, l2)
      | none => none
  | none => none

def encStr (s : String) : List ℕ :=
  toLEBytes 4 s.data.length ++ (s.data.map (fun c => toLEBytes 4 c.toNat)).flatten

def decChars : ℕ → List ℕ → Option (List Char × List ℕ)
  | 0, l => some ([], l)
  | n + 1, l =>
      if 4 ≤ l.length then
        match decChars n (l.drop 4) with
        | some (cs, r) => some (Char.ofNat (fromLEBytes (l.take 4)) :: cs, r)
        | none => none
      else none

def decStr (l : List ℕ) : Option (String × List ℕ) :=
  if 4 ≤ l.length then
    match decChars (fromLEBytes (l.take 4)) (l.drop 4) with
    | some (cs, r) => some (⟨cs⟩, r)
    | none => none
  else none

def encNatList (l : List ℕ) : List ℕ :=
  toLEBytes 4 l.length ++ (l.map (toLEBytes 4)).flatten

def decFixedNats : ℕ → List ℕ → Option (List ℕ × List ℕ)
  | 0, l => some ([], l)
  | n + 1, l =>
      if 4 ≤ l.length then
        match decFixedNats n (l.drop 4) with
        | some (xs, r) => some (fromLEBytes (l.take 4) :: xs, r)
        | none => none
      else none

def decNatList (l : List ℕ) : Option (List ℕ × List ℕ) :=
  if 4 ≤ l.length then
    match decFixedNats (fromLEBytes (l.take 4)) (l.drop 4) with
    | some (xs, r) => some (xs, r)
    | none => none
  else none

def encOpt {α : Type} (enc : α → List ℕ) : Option α → List ℕ
  | none => [0]
  | some x => 1 :: enc x

def decOpt {α : Type} (dec : List ℕ → Option (α × List ℕ)) (l : List ℕ) :
    Option (Option α × List ℕ) :=
  match l with
  | 0 :: r => some (none, r)
  | 1 :: r =>
      match dec r with
      | some (x, r1) => some (some x, r1)
      | none => none
  | _ => none

def encGPSData (g : ExifGPSData) : List ℕ :=
  encRat g.latitude.1 ++ encRat g.latitude.2.1 ++ encRat g.latitude.2.2
    ++ encStr g.latitudeRef
    ++ encRat g.longitude.1 ++ encRat g.longitude.2.1 ++ encRat g.longitude.2.2
    ++ encStr g.longitudeRef
    ++ encNatList g.versionID

def decGPSData (l : List ℕ) : Option (ExifGPSData × List ℕ) :=
  match decRat l with
  | none => none
  | some (la1, l1) =>
  match decRat l1 with
  | none => none
  | some (la2, l2) =>
  match decRat l2 with
  | none => none
  | some (la3, l3) =>
  match decStr l3 with
  | none => none
  | some (laRef, l4) =>
  match decRat l4 with
  | none => none
  | some (lo1, l5) =>
  match decRat l5 with
  | none => none
  | some (lo2, l6) =>
  match decRat l6 with
  | none => none
  | some (lo3, l7) =>
  match decStr l7 with
  | none => none
  | some (loRef, l8) =>
  match decNatList l8 with
  | none => none
  | some (ver, l9) => some (⟨(la1, la2, la3), laRef, (lo1, lo2, lo3), loRef, ver⟩, l9)

/-- The modelled `piexif.dump`: serialize the tag dictionary. -/
def encodeExifObj (o : ExifObj) : List ℕ :=
  encOpt encGPSData o.gps ++ encOpt encStr o.imageDescription
    ++ encOpt encStr o.xpKeywords ++ encOpt encStr o.make
    ++ encOpt encStr o.model ++ encOpt encStr o.dateTime

/-- The modelled `piexif.load` applied to a raw tag block: total, `none` for
byte sequences that are not a valid block (the library's thrown exception). -/
def decodeExifObj (l : List ℕ) : Option ExifObj :=
  match decOpt decGPSData l with
  | none => none
  | some (gps, l1) =>
  match decOpt decStr l1 with
  | none => none
  | some (des, l2) =>
  match decOpt decStr l2 with
  | none => none
  | some (kw, l3) =>
  match decOpt decStr l3 with
  | none => none
  | some (mk, l4) =>
  match decOpt decStr l4 with
  | none => none
  | some (mo, l5) =>
  match decOpt decStr l5 with
  | none => none
  | some (dt, _) => some ⟨gps, des, kw, mk, mo, dt⟩

theorem decInt_encInt {i : ℤ} (h : i.natAbs < 2 ^ 64) (r : List ℕ) :
    decInt (encInt i ++ r) = some (i, r) := by
  have hlen : (toLEBytes 8 i.natAbs).length = 8 := toLEBytes_length _ _
  have htake : (toLEBytes 8 i.natAbs ++ r).take 8 = toLEBytes 8 i.natAbs := by
    rw [List.take_append_of_le_length (by omega), List.take_of_length_le (by omega)]
  have hdrop : (toLEBytes 8 i.natAbs ++ r).drop 8 = r := by
    rw [List.drop_append_of_le_length (by omega), List.drop_of_length_le (by omega),
      List.nil_append]
  have hval : fromLEBytes (toLEBytes 8 i.natAbs) = i.natAbs :=
    fromLEBytes_toLEBytes (by
      calc i.natAbs < 2 ^ 64 := h
        _ = 256 ^ 8 := by norm_num)
  unfold encInt
  rw [List.cons_append]
  by_cases hi : i < 0
  · rw [if_pos hi]
    simp only [decInt, List.length_append, hlen]
    rw [if_pos (by omega), htake, hdrop, hval]
    rw [if_true]
    have hn : -(i.natAbs : ℤ) = i := by omega
    rw [hn]
  · rw [if_neg hi]
    simp only [decInt, List.length_append, hlen]
    rw [if_pos (by omega), htake, hdrop, hval]
    rw [if_neg (show ¬ (0 : ℕ) = 1 by decide)]
    have hn : ((i.natAbs : ℤ)) = i := by omega
    rw [hn]

/-- Well-formedness bounds under which the transport encodings round-trip. -/
def ratWF (x : ExifRational) : Prop := x.num.natAbs < 2 ^ 64 ∧ x.den.natAbs < 2 ^ 64

def strWFp (s : String) : Prop := s.data.length < 2 ^ 32

def gpsWF (g : ExifGPSData) : Prop :=
  ratWF g.latitude.1 ∧ ratWF g.latitude.2.1 ∧ ratWF g.latitude.2.2
  ∧ strWFp g.latitudeRef
  ∧ ratWF g.longitude.1 ∧ ratWF g.longitude.2.1 ∧ ratWF g.longitude.2.2
  ∧ strWFp g.longitudeRef
  ∧ g.versionID.length < 2 ^ 32 ∧ (∀ x ∈ g.versionID, x < 2 ^ 32)

def exifObjWF (o : ExifObj) : Prop :=
  (∀ g, o.gps = some g → gpsWF g)
  ∧ (∀ s, o.imageDescription = some s → strWFp s)
  ∧ (∀ s, o.xpKeywords = some s → strWFp s)
  ∧ (∀ s, o.make = some s → strWFp s)
  ∧ (∀ s, o.model = some s → strWFp s)
  ∧ (∀ s, o.dateTime = some s → strWFp s)

theorem decRat_encRat {x : ExifRational} (h : ratWF x) (r : List ℕ) :
    decRat (encRat x ++ r) = some (x, r) := by
  unfold encRat decRat
  rw [List.append_assoc]
  simp only [decInt_encInt h.1, decInt_encInt h.2]

theorem decChars_encChars (cs : List Char) (r : List ℕ) :
    decChars cs.length ((cs.map (fun c => toLEBytes 4 c.toNat)).flatten ++ r)
      = some (cs, r) := by
  induction cs with
  | nil => rfl
  | cons c cs ih =>
      have hlen : (toLEBytes 4 c.toNat).length = 4 := toLEBytes_length _ _
      simp only [List.map_cons, List.flatten_cons, List.length_cons, List.append_assoc]
      simp only [decChars]
      rw [if_pos (by simp [hlen])]
      have hdrop : (toLEBytes 4 c.toNat ++ ((cs.map (fun c => toLEBytes 4 c.toNat)).flatten ++ r)).drop 4
          = (cs.map (fun c => toLEBytes 4 c.toNat)).flatten ++ r := by
        rw [List.drop_append_of_le_length (by omega), List.drop_of_length_le (by omega),
          List.nil_append]
      have htake : (toLEBytes 4 c.toNat ++ ((cs.map (fun c => toLEBytes 4 c.toNat)).flatten ++ r)).take 4
          = toLEBytes 4 c.toNat := by
        rw [List.take_append_of_le_length (by omega), List.take_of_length_le (by omega)]
      rw [hdrop, htake]
      simp only [ih]
      have : fromLEBytes (toLEBytes 4 c.toNat) = c.toNat :=
        fromLEBytes_toLEBytes (by
          have := char_toNat_lt c
          calc c.toNat < 1114112 := this
            _ < 256 ^ 4 := by norm_num)
      rw [this, Char.ofNat_toNat]

theorem decStr_encStr {s : String} (h : strWFp s) (r : List ℕ) :
    decStr (encStr s ++ r) = some (s, r) := by
  unfold encStr decStr
  have hlen : (toLEBytes 4 s.data.length).length = 4 := toLEBytes_length _ _
  rw [List.append_assoc]
  rw [if_pos (by simp [toLEBytes_length])]
  have htake : (toLEBytes 4 s.data.length ++ ((s.data.map (fun c => toLEBytes 4 c.toNat)).flatten ++ r)).take 4
      = toLEBytes 4 s.data.length := by
    rw [List.take_append_of_le_length (by omega), List.take_of_length_le (by omega)]
  have hdrop : (toLEBytes 4 s.data.length ++ ((s.data.map (fun c => toLEBytes 4 c.toNat)).flatten ++ r)).drop 4
      = (s.data.map (fun c => toLEBytes 4 c.toNat)).flatten ++ r := by
    rw [List.drop_append_of_le_length (by omega), List.drop_of_length_le (by omega),
      List.nil_append]
  rw [htake, hdrop, fromLEBytes_toLEBytes (by
    calc s.data.length < 2 ^ 32 := h
      _ = 256 ^ 4 := by norm_num)]
  simp only [decChars_encChars]

theorem decFixedNats_enc {l : List ℕ} (h : ∀ x ∈ l, x < 2 ^ 32) (r : List ℕ) :
    decFixedNats l.length ((l.map (toLEBytes 4)).flatten ++ r) = some (l, r) := by
  induction l with
  | nil => rfl
  | cons x xs ih =>
      have hlen : (toLEBytes 4 x).length = 4 := toLEBytes_length _ _
      simp only [List.map_cons, List.flatten_cons, List.length_cons, List.append_assoc]
      simp only [decFixedNats]
      rw [if_pos (by simp [hlen])]
      have hdrop : (toLEBytes 4 x ++ ((xs.map (toLEBytes 4)).flatten ++ r)).drop 4
          = (xs.map (toLEBytes 4)).flatten ++ r := by
        rw [List.drop_append_of_le_length (by omega), List.drop_of_length_le (by omega),
          List.nil_append]
      have htake : (toLEBytes 4 x ++ ((xs.map (toLEBytes 4)).flatten ++ r)).take 4
          = toLEBytes 4 x := by
        rw [List.take_append_of_le_length (by omega), List.take_of_length_le (by omega)]
      rw [hdrop, htake]
      simp only [ih (fun y hy => h y (by simp [hy]))]
      rw [fromLEBytes_toLEBytes (by
        have := h x (by simp)
        calc x < 2 ^ 32 := this
          _ = 256 ^ 4 := by norm_num)]

theorem decNatList_enc {l : List ℕ} (hlen : l.length < 2 ^ 32)
    (h : ∀ x ∈ l, x < 2 ^ 32) (r : List ℕ) :
    decNatList (encNatList l ++ r) = some (l, r) := by
  unfold encNatList decNatList
  have hl4 : (toLEBytes 4 l.length).length = 4 := toLEBytes_length _ _
  rw [List.append_assoc]
  rw [if_pos (by simp [hl4])]
  have htake : (toLEBytes 4 l.length ++ ((l.map (toLEBytes 4)).flatten ++ r)).take 4
      = toLEBytes 4 l.length := by
    rw [List.take_append_of_le_length (by omega), List.take_of_length_le (by omega)]
  have hdrop : (toLEBytes 4 l.length ++ ((l.map (toLEBytes 4)).flatten ++ r)).drop 4
      = (l.map (toLEBytes 4)).flatten ++ r := by
    rw [List.drop_append_of_le_length (by omega), List.drop_of_length_le (by omega),
      List.nil_append]
  rw [htake, hdrop, fromLEBytes_toLEBytes (by
    calc l.length < 2 ^ 32 := hlen
      _ = 256 ^ 4 := by norm_num)]
  simp only [decFixedNats_enc h]

theorem decGPSData_encGPSData {g : ExifGPSData} (h : gpsWF g) (r : List ℕ) :
    decGPSData (encGPSData g ++ r) = some (g, r) := by
  obtain ⟨h1, h2, h3, h4, h5, h6, h7, h8, h9, h10⟩ := h
  unfold encGPSData decGPSData
  simp only [List.append_assoc]
  simp only [decRat_encRat h1, decRat_encRat h2, decRat_encRat h3, decStr_encStr h4,
    decRat_encRat h5, decRat_encRat h6, decRat_encRat h7, decStr_encStr h8,
    decNatList_enc h9 h10]

theorem decOpt_enc_none {α : Type} (enc : α → List ℕ)
    (dec : List ℕ → Option (α × List ℕ)) (r : List ℕ) :
    decOpt dec (encOpt enc none ++ r) = some (none, r) := by
  simp [encOpt, decOpt]

theorem decOpt_enc_some {α : Type} {enc : α → List ℕ}
    {dec : List ℕ → Option (α × List ℕ)} {x : α} {r : List ℕ}
    (h : dec (enc x ++ r) = some (x, r)) :
    decOpt dec (encOpt enc (some x) ++ r) = some (some x, r) := by
  simp [encOpt, decOpt, h]

theorem decOpt_enc {α : Type} {enc : α → List ℕ}
    {dec : List ℕ → Option (α × List ℕ)} {o : Option α}
    (h : ∀ x, o = some x → ∀ r, dec (enc x ++ r) = some (x, r)) :
    ∀ r, decOpt dec (encOpt enc o ++ r) = some (o, r) := by
  intro r
  cases o with
  | none => exact decOpt_enc_none enc dec r
  | some x => exact decOpt_enc_some (h x rfl r)

theorem decodeExifObj_encodeExifObj {o : ExifObj} (h : exifObjWF o) :
    decodeExifObj (encodeExifObj o) = some o := by
  obtain ⟨h1, h2, h3, h4, h5, h6⟩ := h
  unfold encodeExifObj decodeExifObj
  conv_lhs => rw [← List.append_nil (encOpt encStr o.dateTime)]
  simp only [List.append_assoc]
  simp only [decOpt_enc (fun g hg r => decGPSData_encGPSData (h1 g hg) r),
    decOpt_enc (fun s hs r => decStr_encStr (h2 s hs) r),
    decOpt_enc (fun s hs r => decStr_encStr (h3 s hs) r),
    decOpt_enc (fun s hs r => decStr_encStr (h4 s hs) r),
    decOpt_enc (fun s hs r => decStr_encStr (h5 s hs) r),
    decOpt_enc (fun s hs r => decStr_encStr (h6 s hs) r)]

/-! ## JS number formatting and parsing

Modelled from the spec: template-literal number formatting (`${lat}`),
`JSON.stringify` / `JSON.parse`, and `parseFloat` are ECMAScript builtins,
not repository code.  JS prints the shortest decimal string that reads back
to the same float64; the model prints a fixed number of decimals for finite
decimal rationals, which equally reads back exactly via `parseFloatQ`. -/

/-- Fuel-based floor base-2 logarithm. -/
def log2F : ℕ → ℕ → ℕ
  | 0, _ => 0
  | f + 1, n => if n ≤ 1 then 0 else log2F f (n / 2) + 1

def natLog2 (n : ℕ) : ℕ := log2F n n

/-- Decimal digits of `n`, most significant first (empty for `0`). -/
def natDigitsAux : ℕ → ℕ → List ℕ
  | 0, _ => []
  | f + 1, n => if n = 0 then [] else natDigitsAux f (n / 10) ++ [n % 10]

def natDigits (n : ℕ) : List ℕ := if n = 0 then [0] else natDigitsAux n n

/-- Exactly `k` decimal digits of `n % 10^k`, most significant first. -/
def natDigitsFix : ℕ → ℕ → List ℕ
  | 0, _ => []
  | k + 1, n => natDigitsFix k (n / 10) ++ [n % 10]

def digitsToChars (l : List ℕ) : List Char := l.map (fun d => Char.ofNat (48 + d))

def natToString (n : ℕ) : String := ⟨digitsToChars (natDigits n)⟩

/-- The number of fraction digits the formatter prints for denominator `d`. -/
def fracDigitCount (d : ℕ) : ℕ := natLog2 d + 1

/-- Formatting of a nonnegative decimal rational. -/
def posQToString (q : ℚ) : String :=
  if q.den = 1 then natToString q.num.toNat
  else
    let k := fracDigitCount q.den
    let n := (q.num * ((10 ^ k / q.den : ℕ) : ℤ)).toNat
    ⟨digitsToChars (natDigits (n / 10 ^ k)) ++ ['.'] ++ digitsToChars (natDigitsFix k n)⟩

/-- Modelled from the spec: JS number-to-string for the finite decimal
rationals this codec handles. -/
def numToString (q : ℚ) : String :=
  if q < 0 then ⟨'-' :: (posQToString (-q)).data⟩ else posQToString q

/-- Longest leading run of decimal digits. -/
def takeDigits : List Char → List ℕ × List Char
  | c :: rest =>
      if 48 ≤ c.toNat ∧ c.toNat ≤ 57 then
        ((c.toNat - 48) :: (takeDigits rest).1, (takeDigits rest).2)
      else ([], c :: rest)
  | [] => ([], [])

def digitsVal (l : List ℕ) : ℕ := l.foldl (fun acc d => 10 * acc + d) 0

/-- Modelled from the spec: JS `parseFloat` restricted to plain decimal
notation (the only form the modelled formatter emits): leading whitespace,
optional sign, integer digits, optional dot and fraction digits, trailing
characters ignored; `none` models `NaN`. -/
def parseFloatQ (s : String) : Option ℚ :=
  let l := s.data.dropWhile jsIsWS
  let signAndRest : ℚ × List Char :=
    match l with
    | '-' :: r => (-1, r)
    | '+' :: r => (1, r)
    | _ => (1, l)
  let ipr := takeDigits signAndRest.2
  let fp : List ℕ :=
    match ipr.2 with
    | '.' :: r => (takeDigits r).1
    | _ => []
  if ipr.1 = [] ∧ fp = [] then none
  else some (signAndRest.1 * ((digitsVal ipr.1 : ℚ) + (digitsVal fp : ℚ) / 10 ^ fp.length))

/-- Modelled from the spec: `JSON.stringify({lat, lon, timestamp})` as built
by the PNG writer (insertion-ordered keys). -/
def jsonStringifyGps (lat lon : ℚ) (now : String) : String :=
  "\x7b\"lat\":" ++ numToString lat ++ ",\"lon\":" ++ numToString lon
    ++ ",\"timestamp\":\"" ++ now ++ "\"\x7d"

def jsonMemberValue (parts : List (List Char)) (key : String) : Option ℚ :=
  match parts.find? (fun p => (('"' :: key.data) ++ ['"', ':']).isPrefixOf p) with
  | some p => parseFloatQ ⟨p.drop (key.data.length + 3)⟩
  | none => none

/-- Modelled from the spec: `JSON.parse` as consumed by the PNG reader's GPS
branch, restricted to the object shapes this codec writes (an object literal
with plain decimal `lat` / `lon` members).  The outer `none` models a thrown
`SyntaxError`; in particular any string that does not start with `{` — such
as the comma-separated pair format — fails to parse. -/
def jsonParseGps (text : String) : Option (Option ℚ × Option ℚ) :=
  match text.data with
  | '\x7b' :: rest =>
      if rest.getLast? = some '\x7d' then
        let parts := rest.dropLast.splitOn ','
        some (jsonMemberValue parts "lat", jsonMemberValue parts "lon")
      else none
  | _ => none

/-! ## EXIF codec (source: `readExifMetadata`, `writeExifMetadata`,
`createExifChunk`) -/

/-- A JavaScript dynamic value as it flows out of `gpsToDecimal` at the EXIF
and WebP readers' call sites: a finite number, `NaN`, or a string. -/
inductive JSVal where
  | num (q : ℚ)
  | nan
  | str (s : String)
deriving DecidableEq, Repr

/-- Modelled from the spec (ECMAScript `Array.prototype.toString`): piexif
hands each GPS component to the readers as a 2-element `[num, den]` array;
its string conversion joins the two JS numbers with a comma. -/
def ratPairToString (r : ExifRational) : String :=
  numToString (r.num : ℚ) ++ "," ++ numToString (r.den : ℚ)

/-- The source's `gpsToDecimal(gpsArray, ref)` evaluated at the arguments the
EXIF and WebP readers actually pass: piexif's arrays of `[num, den]` pairs,
not plain numbers.  Under ECMAScript coercion (modelled from the spec, since
the language semantics is not repository code) `minutes / 60` and
`seconds / 3600` apply `ToNumber` to a 2-element array, whose comma-joined
string is not numeric, so both are `NaN`; `degrees + NaN` is string
concatenation of the degrees pair's string with `"NaN"`; and the `S`/`W`
branch negates that string, which coerces it to `NaN`.  Fewer than 3
components still return `0`. -/
def gpsToDecimalPairs (gpsArray : Option (List ExifRational)) (ref : String) : JSVal :=
  match gpsArray with
  | none => JSVal.num 0
  | some (degrees :: _ :: _ :: _) =>
      if ref = "S" ∨ ref = "W" then JSVal.nan
      else JSVal.str (ratPairToString degrees ++ "NaN" ++ "NaN")
  | some _ => JSVal.num 0

/-- The `GPSCoordinates`-typed view of the dynamic `{lat, lon}` pair the
readers assign: the declared `MetadataInfo` interface types both fields as
numbers, so only a pair of finite numbers has an image in the embedding; the
`NaN`/string garbage the pair-typed call produces (proved below to be the
case that occurs) has none.  The dynamic pair itself stays observable through
`readExifGpsDyn` / `webpExtractGpsDyn`. -/
def jsGpsView : JSVal × JSVal → Option GPSCoordinates
  | (JSVal.num a, JSVal.num b) => some ⟨a, b⟩
  | _ => none

/-- Modelled from the spec: `piexif.load` on a JPEG carrier.  The container
model keeps the `FF D8` SOI marker and an APP1 segment `FF E1` with a 2-byte
big-endian payload length holding the dumped tag block. -/
def jpegLoadExif (buf : List ℕ) : Option ExifObj :=
  match buf with
  | 0xFF :: 0xD8 :: 0xFF :: 0xE1 :: rest =>
      decodeExifObj ((rest.drop 2).take (fromBEBytes (rest.take 2)))
  | _ => none

/-- Modelled from the spec: the carrier bytes following the metadata segment
(an existing APP1 segment is replaced on insert). -/
def jpegTail (buf : List ℕ) : List ℕ :=
  match buf with
  | 0xFF :: 0xD8 :: 0xFF :: 0xE1 :: rest => rest.drop (2 + fromBEBytes (rest.take 2))
  | 0xFF :: 0xD8 :: rest => rest
  | _ => buf

/-- Modelled from the spec: `piexif.insert(exifBytes, jpeg)`. -/
def jpegInsertExif (payload : List ℕ) (buf : List ℕ) : List ℕ :=
  [0xFF, 0xD8, 0xFF, 0xE1] ++ toBEBytes 2 payload.length ++ payload ++ jpegTail buf

/-- JS `replace(/\0/g, "")` used on decoded XPKeywords. -/
def stripNulChars (s : String) : String := ⟨s.data.filter (fun c => !(c == '\x00'))⟩

/-- Source `readExifMetadata(imageBuffer)`: load the tag block (any load
failure is caught and yields the empty record), hand the RAW latitude and
longitude pair-triples to `gpsToDecimal` when the arrays and both reference
strings are truthy (the source performs no num/den division — see
`gpsToDecimalPairs` for the resulting dynamic values), then the 0th-IFD tags
(truthy strings only; XPKeywords decoded with NULs stripped). -/
def readExifMetadata (imageBuffer : List ℕ) : MetadataInfo :=
  match jpegLoadExif imageBuffer with
  | none => {}
  | some exifObj =>
      let md : MetadataInfo := {}
      let md := match exifObj.gps with
        | some g =>
            if g.latitudeRef ≠ "" ∧ g.longitudeRef ≠ "" then
              { md with gps := jsGpsView (gpsToDecimalPairs (some [g.latitude.1, g.latitude.2.1, g.latitude.2.2])
                    g.latitudeRef,
                  gpsToDecimalPairs (some [g.longitude.1, g.longitude.2.1, g.longitude.2.2])
                    g.longitudeRef) }
            else md
        | none => md
      let md := match exifObj.imageDescription with
        | some d => if d ≠ "" then { md with description := some d } else md
        | none => md
      let md := match exifObj.make with
        | some d => if d ≠ "" then { md with cameraMake := some d } else md
        | none => md
      let md := match exifObj.model with
        | some d => if d ≠ "" then { md with cameraModel := some d } else md
        | none => md
      let md := match exifObj.dateTime with
        | some d => if d ≠ "" then { md with dateTime := some d } else md
        | none => md
      let md := match exifObj.xpKeywords with
        | some d => { md with keywords := some (stripNulChars d) }
        | none => md
      md

/-- The dynamic `{lat, lon}` values `readExifMetadata` computes and assigns
when a GPS IFD with both reference tags is present: the raw pair-triples go
straight to `gpsToDecimal`. -/
def readExifGpsDyn (imageBuffer : List ℕ) : Option (JSVal × JSVal) :=
  match jpegLoadExif imageBuffer with
  | none => none
  | some exifObj =>
      match exifObj.gps with
      | some g =>
          if g.latitudeRef ≠ "" ∧ g.longitudeRef ≠ "" then
            some (gpsToDecimalPairs (some [g.latitude.1, g.latitude.2.1, g.latitude.2.2])
                g.latitudeRef,
              gpsToDecimalPairs (some [g.longitude.1, g.longitude.2.1, g.longitude.2.2])
                g.longitudeRef)
          else none
      | none => none

/-- Source `writeExifMetadata(imageBuffer, metadata)`: load the existing tag
block (falling back to an empty one when loading fails), set the GPS tags
with seconds denominator 100, set ImageDescription and XPKeywords
(UTF-16LE with a trailing NUL, modelled as the string plus `"\x00"`), dump
and re-insert.  `piexif.insert` throws on a non-JPEG carrier, surfaced as
`Except.error`. -/
def writeExifMetadata (imageBuffer : List ℕ) (metadata : MetadataInfo) :
    Except String (List ℕ) :=
  let exifObj0 : ExifObj := (jpegLoadExif imageBuffer).getD {}
  let exifObj1 := match metadata.gps with
    | some g =>
        let latGPS := decimalToGPS g.lat
        let lonGPS := decimalToGPS g.lon
        { exifObj0 with gps := some {
            latitude := (⟨jsRound (latGPS.1 * 1), 1⟩, ⟨jsRound (latGPS.2.1 * 1), 1⟩,
              ⟨jsRound (latGPS.2.2 * 100), 100⟩),
            latitudeRef := if 0 ≤ g.lat then "N" else "S",
            longitude := (⟨jsRound (lonGPS.1 * 1), 1⟩, ⟨jsRound (lonGPS.2.1 * 1), 1⟩,
              ⟨jsRound (lonGPS.2.2 * 100), 100⟩),
            longitudeRef := if 0 ≤ g.lon then "E" else "W",
            versionID := [2, 3, 0, 0] } }
    | none => exifObj0
  let exifObj2 := match metadata.description with
    | some d => if d ≠ "" then { exifObj1 with imageDescription := some d } else exifObj1
    | none => exifObj1
  let exifObj3 := match metadata.keywords with
    | some k => if k ≠ "" then { exifObj2 with xpKeywords := some (k ++ "\x00") } else exifObj2
    | none => exifObj2
  match imageBuffer with
  | 0xFF :: 0xD8 :: _ => .ok (jpegInsertExif (encodeExifObj exifObj3) imageBuffer)
  | _ => .error "Given data is not jpeg."

/-- Source `createExifChunk(metadata)`: a fresh tag block for the WebP EXIF
sub-chunk, GPS seconds with denominator 1000, plus description/keywords. -/
def createExifChunk (metadata : MetadataInfo) : List ℕ :=
  let exifObj0 : ExifObj := {}
  let exifObj1 := match metadata.gps with
    | some g =>
        let latGPS := decimalToGPS |g.lat|
        let lonGPS := decimalToGPS |g.lon|
        { exifObj0 with gps := some {
            latitude := (⟨jsRound (latGPS.1 * 1), 1⟩, ⟨jsRound (latGPS.2.1 * 1), 1⟩,
              ⟨jsRound (latGPS.2.2 * 1000), 1000⟩),
            latitudeRef := if 0 ≤ g.lat then "N" else "S",
            longitude := (⟨jsRound (lonGPS.1 * 1), 1⟩, ⟨jsRound (lonGPS.2.1 * 1), 1⟩,
              ⟨jsRound (lonGPS.2.2 * 1000), 1000⟩),
            longitudeRef := if 0 ≤ g.lon then "E" else "W",
            versionID := [2, 3, 0, 0] } }
    | none => exifObj0
  let exifObj2 := match metadata.description with
    | some d => if d ≠ "" then { exifObj1 with imageDescription := some d } else exifObj1
    | none => exifObj1
  let exifObj3 := match metadata.keywords with
    | some k => if k ≠ "" then { exifObj2 with xpKeywords := some (k ++ "\x00") } else exifObj2
    | none => exifObj2
  encodeExifObj exifObj3

/-! ## WebP RIFF Codec (source: `readWebPMetadata`, `writeWebPMetadata`) -/

/-- The GPS and description extraction the source performs on a decoded EXIF
chunk found inside a WebP container: as in `readExifMetadata`, the RAW
pair-triples go straight to `gpsToDecimal` (no num/den division exists in the
source). -/
def webpExtractFromExif (exifObj : ExifObj) : MetadataInfo :=
  let md : MetadataInfo := {}
  let md := match exifObj.gps with
    | some g =>
        if g.latitudeRef ≠ "" ∧ g.longitudeRef ≠ "" then
          { md with gps := jsGpsView (gpsToDecimalPairs (some [g.latitude.1, g.latitude.2.1, g.latitude.2.2])
                g.latitudeRef,
              gpsToDecimalPairs (some [g.longitude.1, g.longitude.2.1, g.longitude.2.2])
                g.longitudeRef) }
        else md
    | none => md
  let md := match exifObj.imageDescription with
    | some d => if d ≠ "" then { md with description := some d } else md
    | none => md
  md

/-- The dynamic `{lat, lon}` values `webpExtractFromExif` computes and
assigns from a decoded EXIF chunk with a GPS IFD and both reference tags. -/
def webpExtractGpsDyn (exifObj : ExifObj) : Option (JSVal × JSVal) :=
  match exifObj.gps with
  | some g =>
      if g.latitudeRef ≠ "" ∧ g.longitudeRef ≠ "" then
        some (gpsToDecimalPairs (some [g.latitude.1, g.latitude.2.1, g.latitude.2.2])
            g.latitudeRef,
          gpsToDecimalPairs (some [g.longitude.1, g.longitude.2.1, g.longitude.2.2])
            g.longitudeRef)
      else none
  | none => none

/-- The chunk-scanning loop of `readWebPMetadata`: advance by
`8 + size (+ pad)`, stop at the first EXIF chunk (a failed EXIF parse is
warned about and scanning still stops there, returning what was collected —
the empty record). -/
def readWebPScan (imageBuffer : List ℕ) : ℕ → ℕ → MetadataInfo
  | 0, _ => {}
  | fuel + 1, offset =>
      if offset + 8 < imageBuffer.length then
        let chunkType := bytesToStringLossy ((imageBuffer.drop offset).take 4)
        let chunkSize := fromLEBytes ((imageBuffer.drop (offset + 4)).take 4)
        if chunkType = "EXIF" then
          match decodeExifObj ((imageBuffer.drop (offset + 8)).take chunkSize) with
          | none => {}
          | some exifObj => webpExtractFromExif exifObj
        else
          readWebPScan imageBuffer fuel
            (offset + 8 + chunkSize + (if chunkSize % 2 = 1 then 1 else 0))
      else {}

/-- Source `readWebPMetadata(imageBuffer)`: check the RIFF/WEBP tags (a
failure throws, is caught, and yields the empty record), then scan chunks
from offset 12. -/
def readWebPMetadata (imageBuffer : List ℕ) : MetadataInfo :=
  if bytesToStringLossy (imageBuffer.take 4) = "RIFF"
      ∧ bytesToStringLossy ((imageBuffer.drop 8).take 4) = "WEBP" then
    readWebPScan imageBuffer imageBuffer.length 12
  else {}

/-- The chunk-collection loop of `writeWebPMetadata`: every chunk except EXIF
is kept, in order. -/
def writeWebPCollect (imageBuffer : List ℕ) : ℕ → ℕ → List (String × List ℕ)
  | 0, _ => []
  | fuel + 1, offset =>
      if offset + 8 < imageBuffer.length then
        let chunkType := bytesToStringLossy ((imageBuffer.drop offset).take 4)
        let chunkSize := fromLEBytes ((imageBuffer.drop (offset + 4)).take 4)
        let chunkData := (imageBuffer.drop (offset + 8)).take chunkSize
        let rest := writeWebPCollect imageBuffer fuel
          (offset + 8 + chunkSize + (if chunkSize % 2 = 1 then 1 else 0))
        if chunkType ≠ "EXIF" then (chunkType, chunkData) :: rest else rest
      else []

/-- Serialization of one WebP chunk on output: type re-encoded into the first
4 header bytes (`Buffer.alloc` zero-fill models a short encoding),
little-endian size, data, and a single zero pad byte when the size is odd. -/
def webpSerializeChunk (c : String × List ℕ) : List ℕ :=
  (utf8Bytes c.1 ++ List.replicate 4 0).take 4 ++ toLEBytes 4 (c.2.length % 2 ^ 32) ++ c.2
    ++ (if c.2.length % 2 = 1 then [0] else [])

/-- Source `writeWebPMetadata(imageBuffer, metadata)`: build the EXIF payload,
collect existing chunks (dropping EXIF), insert the new EXIF chunk after the
first VP8 / VP8L / VP8X chunk (index 0 when none is found), and reassemble
with a recomputed RIFF header whose total size is
`4 + Σ (8 + data length + padding)`. -/
def writeWebPMetadata (imageBuffer : List ℕ) (metadata : MetadataInfo) : List ℕ :=
  let exifData := createExifChunk metadata
  let chunks := writeWebPCollect imageBuffer imageBuffer.length 12
  let insertIndex := match chunks.findIdx?
      (fun c => c.1 == "VP8 " || c.1 == "VP8L" || c.1 == "VP8X") with
    | some i => i + 1
    | none => 0
  let newChunks := chunks.take insertIndex ++ [("EXIF", exifData)] ++ chunks.drop insertIndex
  let totalSize := 4 + (newChunks.map
    (fun c => 8 + c.2.length + (if c.2.length % 2 = 1 then 1 else 0))).sum
  latin1Bytes "RIFF" ++ toLEBytes 4 (totalSize % 2 ^ 32) ++ latin1Bytes "WEBP"
    ++ (newChunks.map webpSerializeChunk).flatten

/-! ## PNG Chunk Codec (source: `readPNGMetadata`, `writePNGMetadata`) -/

def pngSignature : List ℕ := [0x89, 0x50, 0x4E, 0x47, 0x0D, 0x0A, 0x1A, 0x0A]

/-- Keyword/text extraction for tEXt and iTXt chunks in `readPNGMetadata`
(zTXt chunks fall through with empty keyword and text, exactly as in the
source where both variables stay `""`). -/
def pngChunkKeywordText (chunkType : String) (chunkData : List ℕ) : String × String :=
  if chunkType = "tEXt" then
    let nullIndex := jsIndexOf chunkData 0
    (latin1Decode (jsSubarray chunkData 0 nullIndex),
     latin1Decode (jsSubarrayFrom chunkData (nullIndex + 1)))
  else if chunkType = "iTXt" then
    let nullIndex := jsIndexOf chunkData 0
    let secondNull := jsIndexOf chunkData 0 (nullIndex + 1)
    let thirdNull := jsIndexOf chunkData 0 (secondNull + 1)
    let fourthNull := jsIndexOf chunkData 0 (thirdNull + 1)
    (bytesToStringLossy (jsSubarray chunkData 0 nullIndex),
     bytesToStringLossy (jsSubarrayFrom chunkData (fourthNull + 1)))
  else ("", "")

/-- The per-text-chunk metadata update of `readPNGMetadata`: the sequential
category checks of the source; each matching check assigns its field,
overwriting any earlier value. -/
def pngProcessTextChunk (metadata : MetadataInfo) (keyword text : String) : MetadataInfo :=
  let keywordLower := jsToLower keyword
  let md := metadata
  let md :=
    if jsIncludes keywordLower "gps" || keywordLower == "gps_location" then
      match jsonParseGps text with
      | some (some jlat, some jlon) =>
          if jlat ≠ 0 ∧ jlon ≠ 0 then { md with gps := some ⟨jlat, jlon⟩ } else md
      | some _ => md
      | none =>
          let coords := jsSplit text ','
          if coords.length = 2 then
            match parseFloatQ (jsTrim coords[0]!), parseFloatQ (jsTrim coords[1]!) with
            | some lat, some lon => { md with gps := some ⟨lat, lon⟩ }
            | _, _ => md
          else md
    else md
  let md :=
    if jsIncludes keywordLower "description" || keywordLower == "comment"
        || keywordLower == "title" || jsIncludes keywordLower "caption" then
      { md with description := some text }
    else md
  let md :=
    if jsIncludes keywordLower "keywords" || keywordLower == "subject"
        || jsIncludes keywordLower "tags" then
      { md with keywords := some text }
    else md
  let md :=
    if jsIncludes keywordLower "creation" || jsIncludes keywordLower "date"
        || jsIncludes keywordLower "time" then
      { md with dateTime := some text }
    else md
  let md :=
    if jsIncludes keywordLower "camera" || jsIncludes keywordLower "make" then
      { md with cameraMake := some text }
    else md
  let md :=
    if jsIncludes keywordLower "model" && !(jsIncludes keywordLower "make") then
      { md with cameraModel := some text }
    else md
  md

/-- The chunk-scanning loop of `readPNGMetadata`: guard
`offset < length - 8`, clamp the chunk data at the buffer end, advance by
`12 + length`. -/
def readPNGScan (imageBuffer : List ℕ) : ℕ → ℕ → MetadataInfo → MetadataInfo
  | 0, _, md => md
  | fuel + 1, offset, md =>
      if offset + 8 < imageBuffer.length then
        let chunkLength := fromBEBytes ((imageBuffer.drop offset).take 4)
        let chunkType := bytesToStringLossy ((imageBuffer.drop (offset + 4)).take 4)
        let chunkData := (imageBuffer.drop (offset + 8)).take chunkLength
        let md1 :=
          if chunkType = "tEXt" ∨ chunkType = "iTXt" ∨ chunkType = "zTXt" then
            pngProcessTextChunk md (pngChunkKeywordText chunkType chunkData).1
              (pngChunkKeywordText chunkType chunkData).2
          else md
        readPNGScan imageBuffer fuel (offset + 12 + chunkLength) md1
      else md

/-- Source `readPNGMetadata(imageBuffer)`: signature check (a failure throws
and is caught into the empty record), then the chunk scan, which never
throws — every read in it is either loop-guarded or clamps at the buffer
end. -/
def readPNGMetadata (imageBuffer : List ℕ) : MetadataInfo :=
  if imageBuffer.take 8 = pngSignature then
    readPNGScan imageBuffer imageBuffer.length 8 {}
  else {}

/-- The recognized-keyword test `writePNGMetadata` applies when dropping
existing tEXt/iTXt chunks (duplicate prevention). -/
def pngWriterKeywordMatch (keyword : String) : Bool :=
  jsIncludes keyword "gps" || jsIncludes keyword "location"
    || jsIncludes keyword "keywords" || jsIncludes keyword "description"
    || keyword == "title" || keyword == "comment" || keyword == "subject"
    || keyword == "software" || jsIncludes keyword "creation"

/-- The metadata chunks `writePNGMetadata` inserts right after IHDR: four GPS
chunks, description aliases, keyword aliases, then Creation Time and
Software.  `now` is the ambient clock value `new Date().toISOString()`. -/
def pngMetadataChunks (metadata : MetadataInfo) (now : String) : List (List ℕ) :=
  (match metadata.gps with
   | some gps =>
      [createPNGTextChunk "GPS_Location" (jsonStringifyGps gps.lat gps.lon now),
       createPNGTextChunk "GPS_Coordinates" (numToString gps.lat ++ "," ++ numToString gps.lon),
       createPNGTextChunk "Location" ("lat=" ++ numToString gps.lat ++ ";lon=" ++ numToString gps.lon),
       createPNGTextChunk "Geolocation" (numToString gps.lat ++ "|" ++ numToString gps.lon)]
   | none => []) ++
  (match metadata.description with
   | some d =>
      if jsTrim d ≠ "" then
        [createPNGTextChunk "Description" (jsTrim d),
         createPNGTextChunk "Comment" (jsTrim d),
         createPNGTextChunk "Title" (jsTrim d)]
      else []
   | none => []) ++
  (match metadata.keywords with
   | some k =>
      if jsTrim k ≠ "" then
        [createPNGTextChunk "Keywords" (jsTrim k),
         createPNGTextChunk "Subject" (jsTrim k)]
      else []
   | none => []) ++
  [createPNGTextChunk "Creation Time" now,
   createPNGTextChunk "Software" "Universal GeoImgr Tool v2.0"]

/-- The chunk walk of `writePNGMetadata`: read length/type/data and the CRC
(whose unguarded `readUInt32BE` is the one read that can throw), drop
recognized tEXt/iTXt chunks, copy others verbatim, and append the metadata
chunks right after the first IHDR. -/
def writePNGScan (imageBuffer : List ℕ) (metadata : MetadataInfo) (now : String) :
    ℕ → ℕ → Bool → Except String (List (List ℕ))
  | 0, _, _ => .ok []
  | fuel + 1, offset, addedMetadata =>
      if offset + 8 < imageBuffer.length then
        let chunkLength := fromBEBytes ((imageBuffer.drop offset).take 4)
        let chunkType := bytesToStringLossy ((imageBuffer.drop (offset + 4)).take 4)
        let chunkData := (imageBuffer.drop (offset + 8)).take chunkLength
        match readUInt32BE imageBuffer (offset + 8 + chunkLength) with
        | none => .error "RangeError: attempt to access memory outside buffer bounds"
        | some crc =>
          let nullIndex := jsIndexOf chunkData 0
          let skip :=
            (chunkType == "tEXt" || chunkType == "iTXt")
              && decide (0 < nullIndex)
              && pngWriterKeywordMatch
                (jsToLower (bytesToStringLossy (jsSubarray chunkData 0 nullIndex)))
          if skip then
            writePNGScan imageBuffer metadata now fuel (offset + 12 + chunkLength) addedMetadata
          else
            let chunk := toBEBytes 4 chunkLength
              ++ (utf8Bytes chunkType ++ List.replicate 4 0).take 4
              ++ chunkData ++ List.replicate (chunkLength - chunkData.length) 0
              ++ toBEBytes 4 crc
            let fire := chunkType == "IHDR" && !addedMetadata
            match writePNGScan imageBuffer metadata now fuel (offset + 12 + chunkLength)
                (addedMetadata || fire) with
            | .error e => .error e
            | .ok rest =>
                if fire then .ok (chunk :: (pngMetadataChunks metadata now ++ rest))
                else .ok (chunk :: rest)
      else .ok []

/-- Source `writePNGMetadata(imageBuffer, metadata)`: push the signature,
walk the chunks from offset 8, concatenate. -/
def writePNGMetadata (imageBuffer : List ℕ) (metadata : MetadataInfo) (now : String) :
    Except String (List ℕ) :=
  match writePNGScan imageBuffer metadata now imageBuffer.length 8 false with
  | .error e => .error e
  | .ok chunks => .ok (pngSignature ++ chunks.flatten)

/-! ## Metadata Facade (source: `readMetadataUniversal`,
`writeMetadataUniversal`) -/

/-- Source `readMetadataUniversal(buffer, mimeType)`: registry gate, then
dispatch by method (the `default` switch arm yields the empty record); the
readers are total — each catches internally — so the outer catch is never
exercised in the model. -/
def readMetadataUniversal (imageBuffer : List ℕ) (mimeType : String) : MetadataInfo :=
  let support := getFormatSupport mimeType
  if !support.canReadMetadata then {}
  else
    match support.method with
    | .exif => readExifMetadata imageBuffer
    | .riff => readWebPMetadata imageBuffer
    | .custom => readPNGMetadata imageBuffer
    | _ => {}

/-- The `{success, buffer?, error?}` result shape of the universal writer. -/
structure WriteResult where
  success : Bool
  buffer : Option (List ℕ) := none
  error : Option String := none
deriving DecidableEq, Repr

/-- Source `writeMetadataUniversal(buffer, metadata, mimeType)`: structured
failure when the registry forbids writing, dispatch otherwise, and any
exception from a writer caught into the same failure shape.  `now` is the
ambient clock threaded to the PNG writer. -/
def writeMetadataUniversal (imageBuffer : List ℕ) (metadata : MetadataInfo)
    (mimeType : String) (now : String) : WriteResult :=
  let support := getFormatSupport mimeType
  if !support.canWriteMetadata then
    { success := false,
      error := some ("Writing metadata not supported for " ++ mimeType ++ ". " ++ support.notes) }
  else
    match support.method with
    | .exif =>
        match writeExifMetadata imageBuffer metadata with
        | .ok b => { success := true, buffer := some b }
        | .error e => { success := false, error := some e }
    | .riff => { success := true, buffer := some (writeWebPMetadata imageBuffer metadata) }
    | .custom =>
        match writePNGMetadata imageBuffer metadata now with
        | .ok b => { success := true, buffer := some b }
        | .error e => { success := false, error := some e }
    | _ => { success := false, error := some "Unsupported metadata method" }

/-! ## Claims about the Metadata Facade -/

/-- C3: for every buffer and MIME type, `readMetadataUniversal` never throws
and never fails the caller: it is a total function into `MetadataInfo`; when
the registry's `canReadMetadata` is `false` it returns the empty record, and
an exception inside a dispatched reader degrades to the empty record —
witnessed for each reader by its internal catch: a failed EXIF load, a
failed WebP signature check, and a failed PNG signature check each yield the
empty record. -/
theorem C3_readMetadataUniversal_total :
    (∀ (buf : List ℕ) (mime : String),
      (getFormatSupport mime).canReadMetadata = false →
        readMetadataUniversal buf mime = {})
    ∧ (∀ buf : List ℕ, jpegLoadExif buf = none →
        readMetadataUniversal buf "image/jpeg" = {})
    ∧ (∀ buf : List ℕ, bytesToStringLossy (buf.take 4) ≠ "RIFF" →
        readMetadataUniversal buf "image/webp" = {})
    ∧ (∀ buf : List ℕ, buf.take 8 ≠ pngSignature →
        readMetadataUniversal buf "image/png" = {}) := by
  refine ⟨?_, ?_, ?_, ?_⟩
  · intro buf mime h
    simp [readMetadataUniversal, h]
  · intro buf h
    have hsup : getFormatSupport "image/jpeg"
        = ⟨true, true, true, true, .exif, "Full EXIF support - recommended format"⟩ := rfl
    simp [readMetadataUniversal, hsup, readExifMetadata, h]
  · intro buf h
    have hsup : getFormatSupport "image/webp"
        = ⟨true, true, true, true, .riff, "RIFF-based metadata support"⟩ := rfl
    simp [readMetadataUniversal, hsup, readWebPMetadata, h]
  · intro buf h
    have hsup : getFormatSupport "image/png"
        = ⟨true, true, true, true, .custom, "Custom PNG text chunks for GPS"⟩ := rfl
    simp [readMetadataUniversal, hsup, readPNGMetadata, h]

/-- Witness for C3 at concrete inputs: an unknown MIME type and empty
buffers for each reader. -/
theorem C3_readMetadataUniversal_total_witness :
    readMetadataUniversal [1, 2, 3] "text/plain" = {}
    ∧ readMetadataUniversal [] "image/jpeg" = {}
    ∧ readMetadataUniversal [] "image/webp" = {}
    ∧ readMetadataUniversal [] "image/png" = {} :=
  ⟨C3_readMetadataUniversal_total.1 [1, 2, 3] "text/plain" (by decide),
   C3_readMetadataUniversal_total.2.1 [] (by decide),
   C3_readMetadataUniversal_total.2.2.1 [] (by decide),
   C3_readMetadataUniversal_total.2.2.2 [] (by decide)⟩

/-- C2: `writeMetadataUniversal` never throws.  When the registry's
`canWriteMetadata` is `false` (e.g. image/heic, or an unknown type) it
returns the structured failure with the explanatory message and no output
buffer (the input buffer, a pure value here, is untouched); otherwise it
returns success with the dispatched writer's buffer, or the structured
failure shape when the writer threw.  Scenario E: `image/heic` has
`canWriteGPS = false` and its write returns the structured failure. -/
theorem C2_writeMetadataUniversal_shape :
    (∀ (buf : List ℕ) (md : MetadataInfo) (mime now : String),
      (getFormatSupport mime).canWriteMetadata = false →
        writeMetadataUniversal buf md mime now =
          { success := false,
            error := some ("Writing metadata not supported for " ++ mime ++ ". "
              ++ (getFormatSupport mime).notes) })
    ∧ (∀ (buf : List ℕ) (md : MetadataInfo) (mime now : String),
        (getFormatSupport mime).canWriteMetadata = true →
          (∃ out, writeMetadataUniversal buf md mime now
              = { success := true, buffer := some out })
          ∨ (∃ e, writeMetadataUniversal buf md mime now
              = { success := false, error := some e }))
    ∧ (getFormatSupport "image/heic").canWriteGPS = false
    ∧ (∀ (buf : List ℕ) (md : MetadataInfo) (now : String),
        writeMetadataUniversal buf md "image/heic" now =
          { success := false,
            error := some ("Writing metadata not supported for image/heic. "
              ++ "Read-only support, convert to JPEG for writing") }) := by
  refine ⟨?_, ?_, by decide, ?_⟩
  · intro buf md mime now h
    simp [writeMetadataUniversal, h]
  · intro buf md mime now h
    simp only [writeMetadataUniversal, h, Bool.not_true, Bool.false_eq_true, if_false]
    cases hm : (getFormatSupport mime).method with
    | exif =>
        cases hw : writeExifMetadata buf md with
        | ok b => exact Or.inl ⟨b, by simp [hw]⟩
        | error e => exact Or.inr ⟨e, by simp [hw]⟩
    | riff => exact Or.inl ⟨writeWebPMetadata buf md, by simp⟩
    | custom =>
        cases hw : writePNGMetadata buf md now with
        | ok b => exact Or.inl ⟨b, by simp [hw]⟩
        | error e => exact Or.inr ⟨e, by simp [hw]⟩
    | xmp => exact Or.inr ⟨"Unsupported metadata method", by simp⟩
  · intro buf md now
    have hsup : getFormatSupport "image/heic"
        = ⟨true, false, true, false, .exif, "Read-only support, convert to JPEG for writing"⟩ := rfl
    simp [writeMetadataUniversal, hsup]

/-- Witness for C2 at concrete inputs: the heic refusal and a PNG write. -/
theorem C2_writeMetadataUniversal_shape_witness :
    writeMetadataUniversal [] {} "image/heic" "t" =
      { success := false,
        error := some ("Writing metadata not supported for image/heic. "
          ++ "Read-only support, convert to JPEG for writing") }
    ∧ ((∃ out, writeMetadataUniversal [] {} "image/png" "t"
          = { success := true, buffer := some out })
        ∨ (∃ e, writeMetadataUniversal [] {} "image/png" "t"
          = { success := false, error := some e })) :=
  ⟨C2_writeMetadataUniversal_shape.2.2.2 [] {} "t",
   C2_writeMetadataUniversal_shape.2.1 [] {} "image/png" "t" (by decide)⟩

/-- C9, counterexample: the codec write path is not a pure function of
buffer, metadata and MIME type.  On a minimal valid PNG (signature plus an
empty IHDR chunk) with empty metadata, two calls differing only in the
ambient clock value — the `new Date().toISOString()` the PNG writer embeds
in its Creation Time chunk — produce different output buffers. -/
theorem C9_counterexample :
    "2024-01-01T00:00:00.000Z" ≠ "2025-06-15T12:00:00.000Z"
    ∧ writeMetadataUniversal
        (pngSignature ++ [0, 0, 0, 0] ++ [73, 72, 68, 82] ++ [0, 0, 0, 0])
        {} "image/png" "2024-01-01T00:00:00.000Z"
      ≠ writeMetadataUniversal
        (pngSignature ++ [0, 0, 0, 0] ++ [73, 72, 68, 82] ++ [0, 0, 0, 0])
        {} "image/png" "2025-06-15T12:00:00.000Z" := by
  exact ⟨by decide, by decide⟩

/-- C9, amended: write operations dispatched to the EXIF and RIFF writers
are pure deterministic functions of buffer, metadata and MIME type — they
never consult the clock — but the PNG writer is not: it embeds the ambient
current time in its Creation Time (and, with GPS, GPS_Location) chunks, so
byte-equal calls at different times can produce different buffers. -/
theorem C9_write_determinism_amended :
    (∀ (buf : List ℕ) (md : MetadataInfo) (mime now now' : String),
      (getFormatSupport mime).method = .exif ∨ (getFormatSupport mime).method = .riff →
        writeMetadataUniversal buf md mime now = writeMetadataUniversal buf md mime now')
    ∧ (∃ (buf : List ℕ) (md : MetadataInfo) (now now' : String),
        now ≠ now'
        ∧ writeMetadataUniversal buf md "image/png" now
          ≠ writeMetadataUniversal buf md "image/png" now') := by
  constructor
  · intro buf md mime now now' h
    cases hc : (getFormatSupport mime).canWriteMetadata with
    | false => simp [writeMetadataUniversal, hc]
    | true =>
        rcases h with h | h <;> simp [writeMetadataUniversal, hc, h]
  · exact ⟨pngSignature ++ [0, 0, 0, 0] ++ [73, 72, 68, 82] ++ [0, 0, 0, 0], {},
      "A", "B", by decide, by decide⟩

/-- Witness for the amended C9 at a concrete input: image/jpeg dispatches to
the EXIF method, so its write result is independent of the clock. -/
theorem C9_write_determinism_amended_witness :
    writeMetadataUniversal [] {} "image/jpeg" "2024-01-01T00:00:00.000Z"
      = writeMetadataUniversal [] {} "image/jpeg" "2025-06-15T12:00:00.000Z" :=
  C9_write_determinism_amended.1 [] {} "image/jpeg" _ _ (Or.inl rfl)

/-- C7, counterexample: in the PNG reader the LAST matching chunk wins, not
the first.  A PNG whose text chunks are, in stream order, `tEXt`
`Comment→"A"` then `tEXt` `Title→"B"` (both match the description category)
reads back with `description = some "B"`: the later chunk overwrote the
field the earlier one had set, where first-match-wins would have kept
`some "A"`. -/
theorem C7_counterexample :
    readMetadataUniversal (pngSignature
        ++ [0, 0, 0, 9] ++ [116, 69, 88, 116]
        ++ [67, 111, 109, 109, 101, 110, 116, 0, 65] ++ [0, 0, 0, 0]
        ++ [0, 0, 0, 7] ++ [116, 69, 88, 116]
        ++ [84, 105, 116, 108, 101, 0, 66] ++ [0, 0, 0, 0]) "image/png"
      = { description := some "B" }
    ∧ (readMetadataUniversal (pngSignature
        ++ [0, 0, 0, 9] ++ [116, 69, 88, 116]
        ++ [67, 111, 109, 109, 101, 110, 116, 0, 65] ++ [0, 0, 0, 0]
        ++ [0, 0, 0, 7] ++ [116, 69, 88, 116]
        ++ [84, 105, 116, 108, 101, 0, 66] ++ [0, 0, 0, 0]) "image/png").description
      ≠ some "A" :=
  ⟨by decide, by decide⟩


/-- C4, counterexample: a PNG with a valid signature, a well-formed `tEXt`
`Comment→"Hi"` chunk, and then a chunk whose declared length (1000) exceeds
the single byte remaining after its header, reads back as the normal record
`description = some "Hi"` — a silent partial result.  No `CorruptContainer`
(or any other) error is surfaced: the read path has no error channel at
all, the oversized chunk's data is clamped and the scan simply ends. -/
theorem C4_counterexample :
    fromBEBytes (((pngSignature
        ++ [0, 0, 0, 10] ++ [116, 69, 88, 116]
        ++ [67, 111, 109, 109, 101, 110, 116, 0, 72, 105] ++ [0, 0, 0, 0]
        ++ [0, 0, 3, 232] ++ [116, 69, 88, 116] ++ [65]).drop 30).take 4) = 1000
    ∧ (pngSignature
        ++ [0, 0, 0, 10] ++ [116, 69, 88, 116]
        ++ [67, 111, 109, 109, 101, 110, 116, 0, 72, 105] ++ [0, 0, 0, 0]
        ++ [0, 0, 3, 232] ++ [116, 69, 88, 116] ++ [65]).length = 39
    ∧ readMetadataUniversal (pngSignature
        ++ [0, 0, 0, 10] ++ [116, 69, 88, 116]
        ++ [67, 111, 109, 109, 101, 110, 116, 0, 72, 105] ++ [0, 0, 0, 0]
        ++ [0, 0, 3, 232] ++ [116, 69, 88, 116] ++ [65]) "image/png"
      = { description := some "Hi" } :=
  ⟨by decide, by decide, by decide⟩

/-- C4, amended: the PNG read path never surfaces an error for an oversized
declared chunk length.  At any scan position whose declared length exceeds
the bytes remaining after the 8-byte chunk header, the chunk's data is
clamped to the buffer end (`subarray` semantics), the chunk is processed
normally, and the scan terminates there, returning the metadata gathered so
far; and with a valid signature the universal read hands the caller exactly
the scan's record — there is no error channel. -/
theorem C4_png_read_oversized_clamps :
    (∀ (buf : List ℕ) (fuel offset : ℕ) (md : MetadataInfo),
      offset + 8 < buf.length →
      buf.length ≤ offset + 8 + fromBEBytes ((buf.drop offset).take 4) →
      readPNGScan buf (fuel + 1) offset md =
        (if bytesToStringLossy ((buf.drop (offset + 4)).take 4) = "tEXt"
            ∨ bytesToStringLossy ((buf.drop (offset + 4)).take 4) = "iTXt"
            ∨ bytesToStringLossy ((buf.drop (offset + 4)).take 4) = "zTXt" then
          pngProcessTextChunk md
            (pngChunkKeywordText (bytesToStringLossy ((buf.drop (offset + 4)).take 4))
              (buf.drop (offset + 8))).1
            (pngChunkKeywordText (bytesToStringLossy ((buf.drop (offset + 4)).take 4))
              (buf.drop (offset + 8))).2
        else md))
    ∧ (∀ buf : List ℕ, buf.take 8 = pngSignature →
        readMetadataUniversal buf "image/png" = readPNGScan buf buf.length 8 {}) := by
  constructor
  · intro buf fuel offset md h1 h2
    have hlen : (buf.drop (offset + 8)).length ≤ fromBEBytes ((buf.drop offset).take 4) := by
      rw [List.length_drop]; omega
    have hclamp := List.take_of_length_le hlen
    have hstop : ∀ (f : ℕ) (m : MetadataInfo),
        readPNGScan buf f (offset + 12 + fromBEBytes ((buf.drop offset).take 4)) m = m := by
      intro f m
      cases f with
      | zero => rfl
      | succ k =>
          rw [readPNGScan, if_neg]
          omega
    simp only [readPNGScan, h1, if_true, hclamp, hstop]
  · intro buf h
    have hsup : getFormatSupport "image/png"
        = ⟨true, true, true, true, .custom, "Custom PNG text chunks for GPS"⟩ := rfl
    simp [readMetadataUniversal, hsup, readPNGMetadata, h]

/-- Witness for the amended C4 at a concrete input: a 17-byte buffer whose
only chunk declares length 1000 with one data byte present. -/
theorem C4_png_read_oversized_clamps_witness :
    readPNGScan (pngSignature ++ [0, 0, 3, 232] ++ [116, 69, 88, 116] ++ [65]) 1 8 {}
      = pngProcessTextChunk {} "" "A"
    ∧ readMetadataUniversal (pngSignature ++ [0, 0, 3, 232] ++ [116, 69, 88, 116] ++ [65])
        "image/png"
      = readPNGScan (pngSignature ++ [0, 0, 3, 232] ++ [116, 69, 88, 116] ++ [65])
          (pngSignature ++ [0, 0, 3, 232] ++ [116, 69, 88, 116] ++ [65]).length 8 {} := by
  constructor
  · have h := C4_png_read_oversized_clamps.1
      (pngSignature ++ [0, 0, 3, 232] ++ [116, 69, 88, 116] ++ [65]) 0 8 {}
      (by decide) (by decide)
    rw [h]
    decide
  · exact C4_png_read_oversized_clamps.2
      (pngSignature ++ [0, 0, 3, 232] ++ [116, 69, 88, 116] ++ [65]) (by decide)

/-! ## Claims about the WebP writer -/

theorem take_len_append (l₁ l₂ : List ℕ) : (l₁ ++ l₂).take l₁.length = l₁ := by
  rw [List.take_append_of_le_length (le_refl _), List.take_of_length_le (le_refl _)]

/-- Well-formedness of a chunk-level WebP chunk: 4 ASCII type characters, a
type other than EXIF (so the writer's duplicate-drop keeps it), and data
that is nonempty (so the strict `offset < length - 8` loop guard reaches a
final chunk) and addressable by a 32-bit size field. -/
def webpChunkWF (c : String × List ℕ) : Prop :=
  asciiOnly c.1 = true ∧ c.1.data.length = 4 ∧ c.1 ≠ "EXIF"
    ∧ 0 < c.2.length ∧ c.2.length < 2 ^ 32

instance (c : String × List ℕ) : Decidable (webpChunkWF c) := by
  unfold webpChunkWF
  infer_instance

theorem webpSerializeChunk_length (c : String × List ℕ) :
    (webpSerializeChunk c).length
      = 8 + c.2.length + (if c.2.length % 2 = 1 then 1 else 0) := by
  simp [webpSerializeChunk, toLEBytes_length]
  split <;> simp <;> omega

/-- The chunk-collection loop of the WebP writer recovers exactly the chunk
list from a buffer laid out as a 12-byte header followed by the serialized
chunks. -/
theorem writeWebPCollect_serialized :
    ∀ (cs : List (String × List ℕ)), (∀ x ∈ cs, webpChunkWF x) →
      ∀ (pre : List ℕ) (fuel : ℕ), cs.length ≤ fuel →
        writeWebPCollect (pre ++ (cs.map webpSerializeChunk).flatten) fuel pre.length = cs := by
  intro cs
  induction cs with
  | nil =>
      intro _ pre fuel _
      simp only [List.map_nil, List.flatten_nil, List.append_nil]
      cases fuel with
      | zero => rfl
      | succ f =>
          rw [writeWebPCollect, if_neg]
          omega
  | cons c rest ih =>
      intro hwf pre fuel hfuel
      obtain ⟨hascii, hlen4, hexif, hpos, hbound⟩ := hwf c (List.mem_cons_self c rest)
      cases fuel with
      | zero => simp at hfuel
      | succ f =>
          have hulen : (utf8Bytes c.1).length = 4 := by
            rw [utf8Bytes_ascii hascii, List.length_map, hlen4]
          have htype4 : (utf8Bytes c.1 ++ List.replicate 4 0).take 4 = utf8Bytes c.1 := by
            rw [List.take_append_of_le_length (le_of_eq hulen.symm),
              List.take_of_length_le (le_of_eq hulen)]
          have hmod : c.2.length % 2 ^ 32 = c.2.length := Nat.mod_eq_of_lt hbound
          simp only [List.map_cons, List.flatten_cons]
          set T := (rest.map webpSerializeChunk).flatten with hT
          set P := (if c.2.length % 2 = 1 then [0] else []) with hPd
          set B := toLEBytes 4 c.2.length with hBd
          have hBl : B.length = 4 := by rw [hBd]; exact toLEBytes_length _ _
          have hB : webpSerializeChunk c ++ T
              = utf8Bytes c.1 ++ (B ++ (c.2 ++ (P ++ T))) := by
            simp only [webpSerializeChunk, List.append_assoc]
            rw [htype4, hmod, hBd, hPd]
          set canon := utf8Bytes c.1 ++ (B ++ (c.2 ++ (P ++ T))) with hC
          have hr : ∀ X : List ℕ, (pre ++ X).drop pre.length = X := fun X =>
            List.drop_left pre X
          have hdropk : ∀ (k : ℕ) (X : List ℕ),
              (pre ++ X).drop (pre.length + k) = X.drop k := by
            intro k X
            rw [← List.drop_drop, hr]
          have h1 : ((pre ++ canon).drop pre.length).take 4 = utf8Bytes c.1 := by
            rw [hr, hC]
            rw [show (4 : ℕ) = (utf8Bytes c.1).length from hulen.symm]
            exact take_len_append _ _
          have h2 : ((pre ++ canon).drop (pre.length + 4)).take 4 = B := by
            rw [hdropk, hC]
            rw [show (4 : ℕ) = (utf8Bytes c.1).length from hulen.symm, List.drop_left]
            rw [show (utf8Bytes c.1).length = B.length from by rw [hulen, hBl]]
            exact take_len_append _ _
          have h3 : ((pre ++ canon).drop (pre.length + 8)).take c.2.length = c.2 := by
            rw [hdropk, hC]
            rw [show (8 : ℕ) = (utf8Bytes c.1).length + B.length from by rw [hulen, hBl]]
            rw [← List.drop_drop, List.drop_left, List.drop_left]
            exact take_len_append _ _
          have hfle : fromLEBytes B = c.2.length := by
            rw [hBd]
            apply fromLEBytes_toLEBytes
            calc c.2.length < 2 ^ 32 := hbound
              _ = 256 ^ 4 := by norm_num
          have hty : bytesToStringLossy (utf8Bytes c.1) = c.1 := by
            rw [utf8Bytes_ascii hascii, bytesToStringLossy_ascii_map hascii]
          have hguard : pre.length + 8 < (pre ++ canon).length := by
            rw [hC]
            simp [hulen, hBl, List.length_append]
            omega
          have hoff : pre.length + 8 + c.2.length + (if c.2.length % 2 = 1 then 1 else 0)
              = (pre ++ webpSerializeChunk c).length := by
            rw [List.length_append, webpSerializeChunk_length]
            set p := (if c.2.length % 2 = 1 then 1 else 0)
            omega
          have hassoc : pre ++ canon = (pre ++ webpSerializeChunk c) ++ T := by
            rw [hC]
            simp only [webpSerializeChunk, List.append_assoc]
            rw [htype4, hmod, hBd, hPd]
          rw [hB]
          rw [writeWebPCollect, if_pos hguard]
          simp only [h1, h2, h3, hfle, hty]
          rw [hoff, hassoc, ih (fun x hx => hwf x (List.mem_cons_of_mem c hx))
            (pre ++ webpSerializeChunk c) f (by simp at hfuel; omega)]
          rw [if_pos hexif]

/-- The chunk-level insertion the WebP writer actually performs, stated in
the amended spec's words: the new EXIF chunk goes immediately after the
FIRST chunk whose type is `VP8 `, `VP8L` or `VP8X` (at the front when none
exists). -/
def webpInsertExifSpec (cs : List (String × List ℕ)) (exifData : List ℕ) :
    List (String × List ℕ) :=
  match cs.findIdx? (fun c => c.1 == "VP8 " || c.1 == "VP8L" || c.1 == "VP8X") with
  | some i => cs.take (i + 1) ++ [("EXIF", exifData)] ++ cs.drop (i + 1)
  | none => ("EXIF", exifData) :: cs

/-- Each serialized WebP chunk is nonempty, so the chunk count is bounded by
the serialized length. -/
theorem webpChunks_length_le (l : List (String × List ℕ)) :
    l.length ≤ ((l.map webpSerializeChunk).flatten).length := by
  induction l with
  | nil => simp
  | cons c rest ih =>
      simp only [List.map_cons, List.flatten_cons, List.length_append, List.length_cons]
      have h2 : 1 ≤ (webpSerializeChunk c).length := by
        rw [webpSerializeChunk_length]
        omega
      omega

/-- Layout of the WebP writer on a buffer made of a 12-byte header plus
serialized well-formed chunks: a fresh RIFF header with the recomputed
little-endian total size, followed by the serialization of the chunk list
with the EXIF chunk inserted per `webpInsertExifSpec`. -/
theorem writeWebPMetadata_serialized (hdr : List ℕ) (cs : List (String × List ℕ))
    (md : MetadataInfo) (hhdr : hdr.length = 12) (hwf : ∀ x ∈ cs, webpChunkWF x) :
    writeWebPMetadata (hdr ++ (cs.map webpSerializeChunk).flatten) md
      = latin1Bytes "RIFF"
        ++ toLEBytes 4 ((4 + ((webpInsertExifSpec cs (createExifChunk md)).map
              (fun c => 8 + c.2.length + (if c.2.length % 2 = 1 then 1 else 0))).sum) % 2 ^ 32)
        ++ latin1Bytes "WEBP"
        ++ ((webpInsertExifSpec cs (createExifChunk md)).map webpSerializeChunk).flatten := by
  have hfuel : cs.length ≤ (hdr ++ (cs.map webpSerializeChunk).flatten).length := by
    have := webpChunks_length_le cs
    simp only [List.length_append]
    omega
  have hcollect := writeWebPCollect_serialized cs hwf hdr
    ((hdr ++ (cs.map webpSerializeChunk).flatten).length) hfuel
  rw [hhdr] at hcollect
  simp only [writeWebPMetadata, hcollect, webpInsertExifSpec]
  cases hidx : cs.findIdx? (fun c => c.1 == "VP8 " || c.1 == "VP8L" || c.1 == "VP8X") with
  | none => simp
  | some i => simp

set_option maxRecDepth 10000 in
/-- C6, counterexample: on a valid WebP whose chunks are `VP8X` (10 data
bytes) then `VP8 ` (2 data bytes), writing metadata with gps present does
NOT put the EXIF chunk immediately after the `VP8 ` chunk.  In the output,
the chunk after `VP8X` (at byte offset 30, past the 12-byte header and the
18-byte VP8X chunk) is `EXIF` — the writer breaks at the FIRST VP8-family
chunk — and the `VP8 ` chunk follows the 158-byte EXIF chunk at offset 188,
with nothing after it (total length 198). -/
theorem C6_counterexample :
    ((writeWebPMetadata (latin1Bytes "RIFF" ++ [32, 0, 0, 0] ++ latin1Bytes "WEBP"
        ++ latin1Bytes "VP8X" ++ [10, 0, 0, 0] ++ List.replicate 10 0
        ++ latin1Bytes "VP8 " ++ [2, 0, 0, 0] ++ [1, 2])
        { gps := some ⟨0, 0⟩ }).drop 12).take 4 = latin1Bytes "VP8X"
    ∧ ((writeWebPMetadata (latin1Bytes "RIFF" ++ [32, 0, 0, 0] ++ latin1Bytes "WEBP"
        ++ latin1Bytes "VP8X" ++ [10, 0, 0, 0] ++ List.replicate 10 0
        ++ latin1Bytes "VP8 " ++ [2, 0, 0, 0] ++ [1, 2])
        { gps := some ⟨0, 0⟩ }).drop 30).take 4 = latin1Bytes "EXIF"
    ∧ ((writeWebPMetadata (latin1Bytes "RIFF" ++ [32, 0, 0, 0] ++ latin1Bytes "WEBP"
        ++ latin1Bytes "VP8X" ++ [10, 0, 0, 0] ++ List.replicate 10 0
        ++ latin1Bytes "VP8 " ++ [2, 0, 0, 0] ++ [1, 2])
        { gps := some ⟨0, 0⟩ }).drop 188).take 4 = latin1Bytes "VP8 "
    ∧ (writeWebPMetadata (latin1Bytes "RIFF" ++ [32, 0, 0, 0] ++ latin1Bytes "WEBP"
        ++ latin1Bytes "VP8X" ++ [10, 0, 0, 0] ++ List.replicate 10 0
        ++ latin1Bytes "VP8 " ++ [2, 0, 0, 0] ++ [1, 2])
        { gps := some ⟨0, 0⟩ }).length = 198 :=
  ⟨by decide, by decide, by decide, by decide⟩

/-- C6, amended: on a buffer laid out as a 12-byte header plus serialized
well-formed chunks, the WebP writer produces a new RIFF header whose
little-endian total size is `4 + Σ (8 + data length + odd padding)` over
the output chunks, followed by those chunks serialized — where the output
chunk list inserts exactly one EXIF chunk immediately after the FIRST
VP8 / VP8L / VP8X chunk (not after `VP8 ` specifically); in particular for
the sequence VP8X then `VP8 ` the EXIF chunk lands between them. -/
theorem C6_webp_writer_layout :
    (∀ (hdr : List ℕ) (cs : List (String × List ℕ)) (md : MetadataInfo),
      hdr.length = 12 → (∀ x ∈ cs, webpChunkWF x) →
      writeWebPMetadata (hdr ++ (cs.map webpSerializeChunk).flatten) md
        = latin1Bytes "RIFF"
          ++ toLEBytes 4 ((4 + ((webpInsertExifSpec cs (createExifChunk md)).map
                (fun c => 8 + c.2.length + (if c.2.length % 2 = 1 then 1 else 0))).sum) % 2 ^ 32)
          ++ latin1Bytes "WEBP"
          ++ ((webpInsertExifSpec cs (createExifChunk md)).map webpSerializeChunk).flatten)
    ∧ (∀ (cs : List (String × List ℕ)) (d : List ℕ), (∀ x ∈ cs, x.1 ≠ "EXIF") →
        ((webpInsertExifSpec cs d).filter (fun c => c.1 == "EXIF")).length = 1)
    ∧ (∀ (dX d8 d : List ℕ),
        webpInsertExifSpec [("VP8X", dX), ("VP8 ", d8)] d
          = [("VP8X", dX), ("EXIF", d), ("VP8 ", d8)]) := by
  refine ⟨?_, ?_, ?_⟩
  · intro hdr cs md hhdr hwf
    exact writeWebPMetadata_serialized hdr cs md hhdr hwf
  · intro cs d hnone
    have hz : ∀ l : List (String × List ℕ), (∀ x ∈ l, x.1 ≠ "EXIF") →
        l.filter (fun c => c.1 == "EXIF") = [] := by
      intro l
      induction l with
      | nil => simp
      | cons c rest ih =>
          intro h
          simp only [List.filter_cons]
          rw [if_neg (by simp [h c (List.mem_cons_self c rest)]),
            ih (fun x hx => h x (List.mem_cons_of_mem c hx))]
    unfold webpInsertExifSpec
    cases hidx : cs.findIdx? (fun c => c.1 == "VP8 " || c.1 == "VP8L" || c.1 == "VP8X") with
    | none => simp [List.filter_cons, hz cs hnone]
    | some i =>
        have ht := hz (cs.take (i + 1))
          (fun x hx => hnone x (List.mem_of_mem_take hx))
        have hd := hz (cs.drop (i + 1))
          (fun x hx => hnone x (List.mem_of_mem_drop hx))
        simp [List.filter_append, ht, hd, List.filter_cons]
  · intro dX d8 d
    rfl

/-- Witness for the amended C6 at concrete inputs: the layout equation on a
VP8X + `VP8 ` carrier with empty metadata, and exactly one EXIF chunk in
the inserted list. -/
theorem C6_webp_writer_layout_witness :
    writeWebPMetadata ((latin1Bytes "RIFF" ++ [32, 0, 0, 0] ++ latin1Bytes "WEBP")
        ++ ([("VP8X", List.replicate 10 0), ("VP8 ", [1, 2])].map webpSerializeChunk).flatten)
        {}
      = latin1Bytes "RIFF"
        ++ toLEBytes 4 ((4 + ((webpInsertExifSpec [("VP8X", List.replicate 10 0), ("VP8 ", [1, 2])]
              (createExifChunk {})).map
              (fun c => 8 + c.2.length + (if c.2.length % 2 = 1 then 1 else 0))).sum) % 2 ^ 32)
        ++ latin1Bytes "WEBP"
        ++ ((webpInsertExifSpec [("VP8X", List.replicate 10 0), ("VP8 ", [1, 2])]
              (createExifChunk {})).map webpSerializeChunk).flatten
    ∧ ((webpInsertExifSpec [("VP8X", List.replicate 10 0), ("VP8 ", [1, 2])]
        [0]).filter (fun c => c.1 == "EXIF")).length = 1 :=
  ⟨C6_webp_writer_layout.1 (latin1Bytes "RIFF" ++ [32, 0, 0, 0] ++ latin1Bytes "WEBP")
      [("VP8X", List.replicate 10 0), ("VP8 ", [1, 2])] {} (by decide) (by decide),
   C6_webp_writer_layout.2.1 [("VP8X", List.replicate 10 0), ("VP8 ", [1, 2])] [0] (by decide)⟩

/-! ## Decimal formatting and parsing lemmas (for the PNG GPS text path) -/

theorem digit_char_toNat {d : ℕ} (h : d ≤ 9) : (Char.ofNat (48 + d)).toNat = 48 + d := by
  interval_cases d <;> decide

theorem digitsVal_append_singleton (l : List ℕ) (d : ℕ) :
    digitsVal (l ++ [d]) = 10 * digitsVal l + d := by
  unfold digitsVal
  rw [List.foldl_append]
  rfl

theorem digitsVal_natDigitsAux : ∀ (f n : ℕ), n ≤ f → digitsVal (natDigitsAux f n) = n := by
  intro f
  induction f with
  | zero =>
      intro n h
      interval_cases n
      rfl
  | succ f ih =>
      intro n h
      by_cases h0 : n = 0
      · subst h0; rfl
      · simp only [natDigitsAux, if_neg h0]
        rw [digitsVal_append_singleton, ih (n / 10) (by omega)]
        omega

theorem digitsVal_natDigits (n : ℕ) : digitsVal (natDigits n) = n := by
  unfold natDigits
  by_cases h : n = 0
  · subst h; rfl
  · rw [if_neg h]
    exact digitsVal_natDigitsAux n n (le_refl n)

theorem natDigitsAux_le9 : ∀ (f n : ℕ), ∀ d ∈ natDigitsAux f n, d ≤ 9 := by
  intro f
  induction f with
  | zero => intro n d hd; simp [natDigitsAux] at hd
  | succ f ih =>
      intro n d hd
      by_cases h0 : n = 0
      · subst h0; simp [natDigitsAux] at hd
      · simp only [natDigitsAux, if_neg h0, List.mem_append, List.mem_singleton] at hd
        rcases hd with hd | hd
        · exact ih _ d hd
        · omega

theorem natDigits_le9 (n : ℕ) : ∀ d ∈ natDigits n, d ≤ 9 := by
  intro d hd
  unfold natDigits at hd
  by_cases h : n = 0
  · simp [h] at hd; omega
  · rw [if_neg h] at hd
    exact natDigitsAux_le9 n n d hd

theorem natDigitsFix_length : ∀ (k n : ℕ), (natDigitsFix k n).length = k := by
  intro k
  induction k with
  | zero => intro n; rfl
  | succ k ih => intro n; simp [natDigitsFix, ih]

theorem natDigitsFix_le9 : ∀ (k n : ℕ), ∀ d ∈ natDigitsFix k n, d ≤ 9 := by
  intro k
  induction k with
  | zero => intro n d hd; simp [natDigitsFix] at hd
  | succ k ih =>
      intro n d hd
      simp only [natDigitsFix, List.mem_append, List.mem_singleton] at hd
      rcases hd with hd | hd
      · exact ih _ d hd
      · omega

theorem digitsVal_natDigitsFix : ∀ (k n : ℕ), digitsVal (natDigitsFix k n) = n % 10 ^ k := by
  intro k
  induction k with
  | zero => intro n; simp [natDigitsFix, digitsVal, Nat.mod_one]
  | succ k ih =>
      intro n
      have key : ∀ (M a r : ℕ), 0 < M → r < 10 → (10 * a + r) % (10 * M) = 10 * (a % M) + r := by
        intro M a r hM hr
        rw [Nat.add_mod, Nat.mul_mod_mul_left]
        have hlt : a % M < M := Nat.mod_lt a hM
        rw [Nat.mod_eq_of_lt (by omega : r < 10 * M)]
        rw [Nat.mod_eq_of_lt (by omega : 10 * (a % M) + r < 10 * M)]
      simp only [natDigitsFix]
      rw [digitsVal_append_singleton, ih (n / 10)]
      have hM : 0 < 10 ^ k := Nat.pos_pow_of_pos k (by norm_num)
      have h10 : (10 : ℕ) ^ (k + 1) = 10 * 10 ^ k := by ring
      rw [h10]
      conv_rhs => rw [← Nat.div_add_mod n 10]
      rw [key _ _ _ hM (Nat.mod_lt n (by norm_num))]

theorem natDigits_ne_nil (n : ℕ) : natDigits n ≠ [] := by
  unfold natDigits
  by_cases h : n = 0
  · simp [h]
  · rw [if_neg h]
    obtain ⟨m, rfl⟩ : ∃ m, n = m + 1 := ⟨n - 1, by omega⟩
    simp only [natDigitsAux, if_neg h]
    simp

theorem takeDigits_append (ds : List ℕ) (rest : List Char) (hds : ∀ d ∈ ds, d ≤ 9)
    (hrest : ∀ c r, rest = c :: r → ¬(48 ≤ c.toNat ∧ c.toNat ≤ 57)) :
    takeDigits (digitsToChars ds ++ rest) = (ds, rest) := by
  induction ds with
  | nil =>
      cases rest with
      | nil => rfl
      | cons c r =>
          simp only [digitsToChars, List.map_nil, List.nil_append, takeDigits]
          rw [if_neg (hrest c r rfl)]
  | cons d ds ih =>
      have hd : d ≤ 9 := hds d (by simp)
      have htn : (Char.ofNat (48 + d)).toNat = 48 + d := digit_char_toNat hd
      simp only [digitsToChars, List.map_cons, List.cons_append, takeDigits]
      rw [if_pos (by rw [htn]; omega)]
      have ih2 := ih (fun x hx => hds x (by simp [hx]))
      simp only [digitsToChars] at ih2
      simp only [List.append_eq]
      rw [ih2, htn]
      simp

theorem digit_not_ws {d : ℕ} (h : d ≤ 9) : jsIsWS (Char.ofNat (48 + d)) = false := by
  interval_cases d <;> decide

theorem parseFloatQ_natToString (m : ℕ) : parseFloatQ (natToString m) = some (m : ℚ) := by
  obtain ⟨d, ds, hds⟩ : ∃ d ds, natDigits m = d :: ds := by
    cases h : natDigits m with
    | nil => exact absurd h (natDigits_ne_nil m)
    | cons d ds => exact ⟨d, ds, rfl⟩
  have hall : ∀ x ∈ natDigits m, x ≤ 9 := natDigits_le9 m
  have hd9 : d ≤ 9 := hall d (by rw [hds]; simp)
  have htk : takeDigits (digitsToChars (natDigits m) ++ []) = (natDigits m, []) :=
    takeDigits_append _ _ hall (by intro c r h; simp at h)
  rw [List.append_nil] at htk
  have hdv := digitsVal_natDigits m
  unfold parseFloatQ natToString
  show (let l := (digitsToChars (natDigits m)).dropWhile jsIsWS
    let signAndRest : ℚ × List Char :=
      match l with
      | '-' :: r => (-1, r)
      | '+' :: r => (1, r)
      | _ => (1, l)
    let ipr := takeDigits signAndRest.2
    let fp : List ℕ :=
      match ipr.2 with
      | '.' :: r => (takeDigits r).1
      | _ => []
    if ipr.1 = [] ∧ fp = [] then none
    else some (signAndRest.1 * ((digitsVal ipr.1 : ℚ) + (digitsVal fp : ℚ) / 10 ^ fp.length)))
    = some (m : ℚ)
  have hdw : (digitsToChars (natDigits m)).dropWhile jsIsWS = digitsToChars (natDigits m) := by
    rw [hds]
    simp only [digitsToChars, List.map_cons, List.dropWhile_cons]
    rw [if_neg (by simp [digit_not_ws hd9])]
  rw [hdw]
  rw [hds]
  have htk2 := htk
  rw [hds] at htk2
  simp only [digitsToChars, List.map_cons] at htk2 ⊢
  have hdv2 := hdv
  rw [hds] at hdv2
  have hchar : (Char.ofNat (48 + d)).toNat = 48 + d := digit_char_toNat hd9
  split
  next a =>
      exfalso
      split at a
      next r heq =>
          injection heq with h1 h2
          have := congrArg Char.toNat h1
          rw [hchar] at this
          rw [show (Char.toNat '-') = 45 from by decide] at this
          omega
      next r heq =>
          injection heq with h1 h2
          have := congrArg Char.toNat h1
          rw [hchar] at this
          rw [show (Char.toNat '+') = 43 from by decide] at this
          omega
      next =>
          rw [htk2] at a
          simp at a
  next b =>
      split
      next r heq =>
          injection heq with h1 h2
          have := congrArg Char.toNat h1
          rw [hchar] at this
          rw [show (Char.toNat '-') = 45 from by decide] at this
          omega
      next r heq =>
          injection heq with h1 h2
          have := congrArg Char.toNat h1
          rw [hchar] at this
          rw [show (Char.toNat '+') = 43 from by decide] at this
          omega
      next =>
          rw [htk2]
          simp only [hdv2]
          norm_num [digitsVal]

theorem parseFloatQ_digits_dot (I F : List ℕ) (hI : ∀ d ∈ I, d ≤ 9) (hF : ∀ d ∈ F, d ≤ 9)
    (hne : I ≠ []) :
    parseFloatQ ⟨digitsToChars I ++ ['.'] ++ digitsToChars F⟩
      = some ((digitsVal I : ℚ) + (digitsVal F : ℚ) / 10 ^ F.length) := by
  obtain ⟨d, ds, hds⟩ : ∃ d ds, I = d :: ds := by
    cases I with
    | nil => exact absurd rfl hne
    | cons d ds => exact ⟨d, ds, rfl⟩
  subst hds
  have hd9 : d ≤ 9 := hI d (by simp)
  have hdot : ∀ c r, ('.' :: digitsToChars F) = c :: r → ¬(48 ≤ c.toNat ∧ c.toNat ≤ 57) := by
    intro c r h
    injection h with h1 h2
    subst h1
    decide
  have htk : takeDigits (digitsToChars (d :: ds) ++ ('.' :: digitsToChars F))
      = (d :: ds, '.' :: digitsToChars F) := takeDigits_append _ _ hI hdot
  have htkF : takeDigits (digitsToChars F ++ []) = (F, []) :=
    takeDigits_append _ _ hF (by intro c r h; simp at h)
  rw [List.append_nil] at htkF
  have hchar : (Char.ofNat (48 + d)).toNat = 48 + d := digit_char_toNat hd9
  unfold parseFloatQ
  show (let l := ((digitsToChars (d :: ds) ++ ['.'] ++ digitsToChars F)).dropWhile jsIsWS
    let signAndRest : ℚ × List Char :=
      match l with
      | '-' :: r => (-1, r)
      | '+' :: r => (1, r)
      | _ => (1, l)
    let ipr := takeDigits signAndRest.2
    let fp : List ℕ :=
      match ipr.2 with
      | '.' :: r => (takeDigits r).1
      | _ => []
    if ipr.1 = [] ∧ fp = [] then none
    else some (signAndRest.1 * ((digitsVal ipr.1 : ℚ) + (digitsVal fp : ℚ) / 10 ^ fp.length)))
    = some ((digitsVal (d :: ds) : ℚ) + (digitsVal F : ℚ) / 10 ^ F.length)
  have hassoc : digitsToChars (d :: ds) ++ ['.'] ++ digitsToChars F
      = digitsToChars (d :: ds) ++ ('.' :: digitsToChars F) := by
    rw [List.append_assoc]
    rfl
  rw [hassoc]
  have hdw : (digitsToChars (d :: ds) ++ ('.' :: digitsToChars F)).dropWhile jsIsWS
      = digitsToChars (d :: ds) ++ ('.' :: digitsToChars F) := by
    simp only [digitsToChars, List.map_cons, List.cons_append, List.dropWhile_cons]
    rw [if_neg (by simp [digit_not_ws hd9])]
  rw [hdw]
  have htk2 := htk
  simp only [digitsToChars, List.map_cons, List.cons_append] at htk2 ⊢
  split
  next a =>
      exfalso
      split at a
      next r heq =>
          injection heq with h1 h2
          have := congrArg Char.toNat h1
          rw [hchar] at this
          rw [show (Char.toNat '-') = 45 from by decide] at this
          omega
      next r heq =>
          injection heq with h1 h2
          have := congrArg Char.toNat h1
          rw [hchar] at this
          rw [show (Char.toNat '+') = 43 from by decide] at this
          omega
      next =>
          rw [htk2] at a
          simp at a
  next b =>
      split
      next r heq =>
          injection heq with h1 h2
          have := congrArg Char.toNat h1
          rw [hchar] at this
          rw [show (Char.toNat '-') = 45 from by decide] at this
          omega
      next r heq =>
          injection heq with h1 h2
          have := congrArg Char.toNat h1
          rw [hchar] at this
          rw [show (Char.toNat '+') = 43 from by decide] at this
          omega
      next =>
          rw [htk2]
          simp only [digitsToChars] at htkF
          simp only [htkF]
          norm_num

theorem parseFloatQ_posQToString (q : ℚ) (h0 : 0 ≤ q)
    (hdiv : q.den ∣ 10 ^ fracDigitCount q.den) :
    parseFloatQ (posQToString q) = some q := by
  by_cases hden : q.den = 1
  · have hnum : 0 ≤ q.num := Rat.num_nonneg.mpr h0
    have hqm : ((q.num.toNat : ℕ) : ℚ) = q := by
      have h1 : ((q.num : ℤ) : ℚ) = q := by
        conv_rhs => rw [← Rat.num_div_den q]
        rw [hden]
        norm_num
      rw [← h1]
      exact_mod_cast congrArg (Int.cast : ℤ → ℚ) (Int.toNat_of_nonneg hnum)
    unfold posQToString
    rw [if_pos hden, parseFloatQ_natToString, hqm]
  · unfold posQToString
    rw [if_neg hden]
    set k := fracDigitCount q.den with hk
    set w := 10 ^ k / q.den with hw
    set n := (q.num * (w : ℤ)).toNat with hn
    have hIne : natDigits (n / 10 ^ k) ≠ [] := natDigits_ne_nil _
    have hdd := parseFloatQ_digits_dot (natDigits (n / 10 ^ k)) (natDigitsFix k n)
      (natDigits_le9 _) (natDigitsFix_le9 k n) hIne
    rw [hdd]
    congr 1
    rw [digitsVal_natDigits, digitsVal_natDigitsFix, natDigitsFix_length]
    have hden0 : (0 : ℚ) < (q.den : ℚ) := by exact_mod_cast q.pos
    have hnum : 0 ≤ q.num := Rat.num_nonneg.mpr h0
    have hcan : (w : ℚ) * (q.den : ℚ) = (10 : ℚ) ^ k := by
      have hc := Nat.div_mul_cancel hdiv
      rw [← hw] at hc
      exact_mod_cast congrArg (Nat.cast : ℕ → ℚ) hc
    have hni : ((n : ℕ) : ℤ) = q.num * (w : ℤ) := by
      rw [hn]
      exact Int.toNat_of_nonneg (mul_nonneg hnum (by positivity))
    have h2 : ((n : ℕ) : ℚ) = (q.num : ℚ) * (w : ℚ) := by
      have h2a := congrArg (fun z : ℤ => (z : ℚ)) hni
      push_cast at h2a
      exact h2a
    have h3 : (w : ℚ) = (10 : ℚ) ^ k / (q.den : ℚ) := by
      rw [eq_div_iff (ne_of_gt hden0)]
      exact hcan
    have hnq : ((n : ℕ) : ℚ) = q * 10 ^ k := by
      rw [h2, h3]
      conv_rhs => rw [← Rat.num_div_den q]
      field_simp
    have hdm2 : n / 10 ^ k * 10 ^ k + n % 10 ^ k = n := Nat.div_add_mod' n (10 ^ k)
    have hpow : (0 : ℚ) < 10 ^ k := by positivity
    have hsplit : ((n / 10 ^ k : ℕ) : ℚ) + ((n % 10 ^ k : ℕ) : ℚ) / 10 ^ k
        = ((n : ℕ) : ℚ) / 10 ^ k := by
      field_simp
      exact_mod_cast hdm2
    rw [hsplit, hnq]
    field_simp

theorem posQToString_head_digit (q : ℚ) :
    ∃ d r, (posQToString q).data = Char.ofNat (48 + d) :: r ∧ d ≤ 9 := by
  unfold posQToString
  split
  · obtain ⟨d, ds, hds⟩ : ∃ d ds, natDigits q.num.toNat = d :: ds := by
      cases h : natDigits q.num.toNat with
      | nil => exact absurd h (natDigits_ne_nil _)
      | cons d ds => exact ⟨d, ds, rfl⟩
    refine ⟨d, digitsToChars ds, ?_, natDigits_le9 _ d (by rw [hds]; simp)⟩
    show digitsToChars (natDigits q.num.toNat) = _
    rw [hds]
    rfl
  · set n := (q.num * ((10 ^ fracDigitCount q.den / q.den : ℕ) : ℤ)).toNat
    obtain ⟨d, ds, hds⟩ : ∃ d ds, natDigits (n / 10 ^ fracDigitCount q.den) = d :: ds := by
      cases h : natDigits (n / 10 ^ fracDigitCount q.den) with
      | nil => exact absurd h (natDigits_ne_nil _)
      | cons d ds => exact ⟨d, ds, rfl⟩
    refine ⟨d, digitsToChars ds ++ ['.'] ++ digitsToChars (natDigitsFix (fracDigitCount q.den) n),
      ?_, natDigits_le9 _ d (by rw [hds]; simp)⟩
    show digitsToChars (natDigits (n / 10 ^ fracDigitCount q.den)) ++ ['.']
        ++ digitsToChars (natDigitsFix (fracDigitCount q.den) n) = _
    rw [hds]
    simp [digitsToChars]

theorem parseFloatQ_neg_of_digit (s : String) (d : ℕ) (r : List Char)
    (hd : d ≤ 9) (hs : s.data = Char.ofNat (48 + d) :: r) :
    parseFloatQ ⟨'-' :: s.data⟩ = (parseFloatQ s).map (fun x => -x) := by
  have hchar : (Char.ofNat (48 + d)).toNat = 48 + d := digit_char_toNat hd
  unfold parseFloatQ
  rw [show (String.mk ('-' :: s.data)).data = '-' :: s.data from rfl]
  rw [hs]
  have hdw1 : ('-' :: Char.ofNat (48 + d) :: r).dropWhile jsIsWS
      = '-' :: Char.ofNat (48 + d) :: r := by
    rw [List.dropWhile_cons]
    rw [if_neg (by decide)]
  have hdw2 : (Char.ofNat (48 + d) :: r).dropWhile jsIsWS = Char.ofNat (48 + d) :: r := by
    rw [List.dropWhile_cons]
    rw [if_neg (by simp [digit_not_ws hd])]
  rw [hdw1, hdw2]
  show (let signAndRest : ℚ × List Char := (-1, Char.ofNat (48 + d) :: r)
    let ipr := takeDigits signAndRest.2
    let fp : List ℕ :=
      match ipr.2 with
      | '.' :: r => (takeDigits r).1
      | _ => []
    if ipr.1 = [] ∧ fp = [] then none
    else some (signAndRest.1 * ((digitsVal ipr.1 : ℚ) + (digitsVal fp : ℚ) / 10 ^ fp.length)))
    = ((let signAndRest : ℚ × List Char :=
      match Char.ofNat (48 + d) :: r with
      | '-' :: r => (-1, r)
      | '+' :: r => (1, r)
      | _ => (1, Char.ofNat (48 + d) :: r)
    let ipr := takeDigits signAndRest.2
    let fp : List ℕ :=
      match ipr.2 with
      | '.' :: r => (takeDigits r).1
      | _ => []
    if ipr.1 = [] ∧ fp = [] then none
    else some (signAndRest.1 * ((digitsVal ipr.1 : ℚ)
      + (digitsVal fp : ℚ) / 10 ^ fp.length))).map (fun x => -x))
  split
  next r2 heq =>
      injection heq with h1 h2
      have := congrArg Char.toNat h1
      rw [hchar] at this
      rw [show (Char.toNat '-') = 45 from by decide] at this
      omega
  next r2 heq =>
      injection heq with h1 h2
      have := congrArg Char.toNat h1
      rw [hchar] at this
      rw [show (Char.toNat '+') = 43 from by decide] at this
      omega
  next =>
      by_cases hg : (takeDigits (Char.ofNat (48 + d) :: r)).1 = []
        ∧ (match (takeDigits (Char.ofNat (48 + d) :: r)).2 with
            | '.' :: r => (takeDigits r).1
            | _ => []) = []
      · rw [if_pos hg, if_pos hg]
        rfl
      · rw [if_neg hg, if_neg hg]
        simp only [Option.map_some]
        congr 1
        ring

theorem parseFloatQ_numToString (q : ℚ) (hdiv : q.den ∣ 10 ^ fracDigitCount q.den) :
    parseFloatQ (numToString q) = some q := by
  unfold numToString
  by_cases hneg : q < 0
  · rw [if_pos hneg]
    have hd : (-q).den = q.den := Rat.neg_den q
    obtain ⟨d, r, hdr, hd9⟩ := posQToString_head_digit (-q)
    rw [parseFloatQ_neg_of_digit _ d r hd9 hdr]
    rw [parseFloatQ_posQToString (-q) (by linarith) (by rw [hd]; exact hdiv)]
    simp
  · rw [if_neg hneg]
    exact parseFloatQ_posQToString q (by linarith) hdiv

theorem digitsToChars_mem {l : List ℕ} (hl : ∀ d ∈ l, d ≤ 9) :
    ∀ c ∈ digitsToChars l, 48 ≤ c.toNat ∧ c.toNat ≤ 57 := by
  intro c hc
  unfold digitsToChars at hc
  simp only [List.mem_map] at hc
  obtain ⟨d, hd, rfl⟩ := hc
  rw [digit_char_toNat (hl d hd)]
  have := hl d hd
  omega

theorem posQToString_chars (q : ℚ) :
    ∀ c ∈ (posQToString q).data, (48 ≤ c.toNat ∧ c.toNat ≤ 57) ∨ c = '.' := by
  intro c hc
  unfold posQToString at hc
  split at hc
  · exact Or.inl (digitsToChars_mem (natDigits_le9 _) c hc)
  · show _ ∨ c = '.'
    simp only [String.data] at hc
    rw [List.append_assoc] at hc
    simp only [List.mem_append, List.mem_cons, List.singleton_append] at hc
    rcases hc with hc | hc | hc
    · exact Or.inl (digitsToChars_mem (natDigits_le9 _) c hc)
    · exact Or.inr hc
    · exact Or.inl (digitsToChars_mem (natDigitsFix_le9 _ _) c hc)

theorem numToString_chars (q : ℚ) :
    ∀ c ∈ (numToString q).data, (48 ≤ c.toNat ∧ c.toNat ≤ 57) ∨ c = '.' ∨ c = '-' := by
  intro c hc
  unfold numToString at hc
  split at hc
  · simp only [String.data, List.mem_cons] at hc
    rcases hc with rfl | hc
    · exact Or.inr (Or.inr rfl)
    · rcases posQToString_chars (-q) c hc with h | h
      · exact Or.inl h
      · exact Or.inr (Or.inl h)
  · rcases posQToString_chars q c hc with h | h
    · exact Or.inl h
    · exact Or.inr (Or.inl h)

theorem numToString_ascii (q : ℚ) : asciiOnly (numToString q) = true := by
  simp only [asciiOnly, List.all_eq_true]
  intro c hc
  rcases numToString_chars q c hc with h | h | h
  · simp only [decide_eq_true_eq]; omega
  · subst h; decide
  · subst h; decide

theorem dropWhile_eq_self_of_none {p : Char → Bool} {l : List Char}
    (h : ∀ c ∈ l, p c = false) : l.dropWhile p = l := by
  cases l with
  | nil => rfl
  | cons c r =>
      rw [List.dropWhile_cons, if_neg (by simp [h c (by simp)])]

theorem jsTrim_eq_self {s : String} (h : ∀ c ∈ s.data, jsIsWS c = false) :
    jsTrim s = s := by
  unfold jsTrim
  rw [dropWhile_eq_self_of_none h]
  rw [dropWhile_eq_self_of_none (fun c hc => h c (List.mem_reverse.mp hc))]
  rw [List.reverse_reverse]

theorem jsonParseGps_not_brace {t : String}
    (h : ∀ c r, t.data = c :: r → c ≠ '\x7b') : jsonParseGps t = none := by
  cases ht : t.data with
  | nil =>
      unfold jsonParseGps
      rw [ht]
  | cons c r =>
      have hc := h c r ht
      unfold jsonParseGps
      rw [ht]
      split
      next rest heq =>
          injection heq with h1 h2
          exact absurd h1 hc
      next => rfl

theorem jsSplit_pair (a b : List Char) (sep : Char)
    (ha : ∀ c ∈ a, c ≠ sep) (hb : ∀ c ∈ b, c ≠ sep) :
    jsSplit ⟨a ++ sep :: b⟩ sep = [⟨a⟩, ⟨b⟩] := by
  unfold jsSplit
  show ((a ++ sep :: b).splitOn sep).map String.mk = _
  have h1 : (a ++ sep :: b).splitOn sep = [a, b] := by
    unfold List.splitOn
    rw [List.splitOnP_first _ a (fun x hx => by simp [ha x hx]) sep (by simp) b]
    rw [List.splitOnP_eq_single _ b (fun x hx => by simp [hb x hx])]
  rw [h1]
  rfl

theorem findIdx_zero_sep (b : List ℕ) :
    ∀ (a : List ℕ) (i : ℕ), (∀ x ∈ a, x ≠ 0) →
      List.findIdx? (fun v => v == 0) (a ++ 0 :: b) i = some (i + a.length) := by
  intro a
  induction a with
  | nil => intro i h; simp [List.findIdx?_cons]
  | cons x a ih =>
      intro i h
      simp only [List.cons_append, List.findIdx?_cons]
      rw [if_neg (by simp [h x (by simp)])]
      rw [ih (i + 1) (fun y hy => h y (by simp [hy]))]
      congr 1
      simp only [List.length_cons]
      omega

theorem jsIndexOf_sep (a b : List ℕ) (h : ∀ x ∈ a, x ≠ 0) :
    jsIndexOf (a ++ 0 :: b) 0 = (a.length : Int) := by
  unfold jsIndexOf jsNormIdx
  rw [if_neg (by omega)]
  have hs : min (Int.toNat 0) (a ++ 0 :: b).length = 0 := by simp
  rw [hs]
  simp only [List.drop_zero, findIdx_zero_sep b a 0 h]
  simp

theorem pngChunkKeywordText_tEXt (kw txt : String)
    (hkw : asciiOnly kw = true) (htxt : asciiOnly txt = true)
    (hkw0 : ∀ c ∈ kw.data, c.toNat ≠ 0) :
    pngChunkKeywordText "tEXt" (latin1Bytes kw ++ 0 :: latin1Bytes txt) = (kw, txt) := by
  have hbytes0 : ∀ x ∈ latin1Bytes kw, x ≠ 0 := by
    intro x hx
    rw [latin1Bytes_ascii hkw] at hx
    simp only [List.mem_map] at hx
    obtain ⟨c, hc, rfl⟩ := hx
    exact hkw0 c hc
  have hidx : jsIndexOf (latin1Bytes kw ++ 0 :: latin1Bytes txt) 0
      = ((latin1Bytes kw).length : Int) := jsIndexOf_sep _ _ hbytes0
  have hlen : (latin1Bytes kw ++ 0 :: latin1Bytes txt).length
      = (latin1Bytes kw).length + 1 + (latin1Bytes txt).length := by
    simp only [List.length_append, List.length_cons]
    omega
  have hsub1 : jsSubarray (latin1Bytes kw ++ 0 :: latin1Bytes txt) 0
      ((latin1Bytes kw).length : Int) = latin1Bytes kw := by
    unfold jsSubarray jsNormIdx
    rw [if_neg (show ¬(((latin1Bytes kw).length : Int) < 0) by omega)]
    rw [if_neg (show ¬((0 : Int) < 0) by omega)]
    have e0 : min (Int.toNat 0) (latin1Bytes kw ++ 0 :: latin1Bytes txt).length = 0 := by simp
    have e1 : min (Int.toNat ((latin1Bytes kw).length : Int))
        (latin1Bytes kw ++ 0 :: latin1Bytes txt).length = (latin1Bytes kw).length := by
      have := hlen
      omega
    rw [e0, e1, List.drop_zero]
    exact take_len_append _ _
  have hsub2 : jsSubarrayFrom (latin1Bytes kw ++ 0 :: latin1Bytes txt)
      (((latin1Bytes kw).length : Int) + 1) = latin1Bytes txt := by
    unfold jsSubarrayFrom jsSubarray jsNormIdx
    rw [if_neg (show ¬((((latin1Bytes kw).length : Int) + 1) < 0) by omega)]
    rw [if_neg (show ¬(((latin1Bytes kw ++ 0 :: latin1Bytes txt).length : Int) < 0) by omega)]
    have e1 : min (Int.toNat (((latin1Bytes kw).length : Int) + 1))
        (latin1Bytes kw ++ 0 :: latin1Bytes txt).length = (latin1Bytes kw).length + 1 := by
      have := hlen
      omega
    have e2 : min (Int.toNat ((latin1Bytes kw ++ 0 :: latin1Bytes txt).length : Int))
        (latin1Bytes kw ++ 0 :: latin1Bytes txt).length
        = (latin1Bytes kw ++ 0 :: latin1Bytes txt).length := by
      omega
    rw [e1, e2]
    rw [List.take_of_length_le (le_refl _)]
    rw [show latin1Bytes kw ++ 0 :: latin1Bytes txt
      = (latin1Bytes kw ++ [0]) ++ latin1Bytes txt from by simp]
    rw [show (latin1Bytes kw).length + 1 = (latin1Bytes kw ++ [0]).length from by simp]
    exact List.drop_left _ _
  unfold pngChunkKeywordText
  rw [if_pos rfl]
  simp only [hidx, hsub1, hsub2,
    latin1Decode_latin1Bytes hkw, latin1Decode_latin1Bytes htxt]

def pngSerializeChunk (c : String × List ℕ × ℕ) : List ℕ :=
  toBEBytes 4 c.2.1.length ++ latin1Bytes c.1 ++ c.2.1 ++ toBEBytes 4 c.2.2

def pngChunkWF (c : String × List ℕ × ℕ) : Prop :=
  asciiOnly c.1 = true ∧ c.1.data.length = 4 ∧ c.2.1.length < 2 ^ 32

def pngReadFold (cs : List (String × List ℕ × ℕ)) (md : MetadataInfo) : MetadataInfo :=
  cs.foldl (fun m c =>
    if c.1 = "tEXt" ∨ c.1 = "iTXt" ∨ c.1 = "zTXt" then
      pngProcessTextChunk m (pngChunkKeywordText c.1 c.2.1).1 (pngChunkKeywordText c.1 c.2.1).2
    else m) md

theorem pngSerializeChunk_length (c : String × List ℕ × ℕ) (h4 : c.1.data.length = 4) :
    (pngSerializeChunk c).length = 12 + c.2.1.length := by
  simp [pngSerializeChunk, toBEBytes_length, latin1Bytes_length, h4]
  omega

theorem readPNGScan_serialized :
    ∀ (cs : List (String × List ℕ × ℕ)), (∀ x ∈ cs, pngChunkWF x) →
      ∀ (pre : List ℕ) (fuel : ℕ) (md : MetadataInfo), cs.length ≤ fuel →
        readPNGScan (pre ++ (cs.map pngSerializeChunk).flatten) fuel pre.length md
          = pngReadFold cs md := by
  intro cs
  induction cs with
  | nil =>
      intro _ pre fuel md _
      simp only [List.map_nil, List.flatten_nil, List.append_nil, pngReadFold, List.foldl_nil]
      cases fuel with
      | zero => rfl
      | succ f =>
          rw [readPNGScan, if_neg]
          omega
  | cons c rest ih =>
      intro hwf pre fuel md hfuel
      obtain ⟨hascii, hlen4, hbound⟩ := hwf c (List.mem_cons_self c rest)
      cases fuel with
      | zero => simp at hfuel
      | succ f =>
          simp only [List.map_cons, List.flatten_cons]
          set T := (rest.map pngSerializeChunk).flatten with hT
          set A := toBEBytes 4 c.2.1.length with hA
          set B := latin1Bytes c.1 with hB
          set D := toBEBytes 4 c.2.2 with hD
          have hAl : A.length = 4 := by rw [hA]; exact toBEBytes_length _ _
          have hBl : B.length = 4 := by rw [hB, latin1Bytes_length, hlen4]
          have hDl : D.length = 4 := by rw [hD]; exact toBEBytes_length _ _
          have hser : pngSerializeChunk c ++ T = A ++ (B ++ (c.2.1 ++ (D ++ T))) := by
            simp only [pngSerializeChunk, List.append_assoc]
          set canon := A ++ (B ++ (c.2.1 ++ (D ++ T))) with hC
          have hr : ∀ X : List ℕ, (pre ++ X).drop pre.length = X := fun X =>
            List.drop_left pre X
          have hdropk : ∀ (k : ℕ) (X : List ℕ),
              (pre ++ X).drop (pre.length + k) = X.drop k := by
            intro k X
            rw [← List.drop_drop, hr]
          have h1 : ((pre ++ canon).drop pre.length).take 4 = A := by
            rw [hr, hC]
            rw [show (4 : ℕ) = A.length from hAl.symm]
            exact take_len_append _ _
          have h2 : ((pre ++ canon).drop (pre.length + 4)).take 4 = B := by
            rw [hdropk, hC]
            rw [show (4 : ℕ) = A.length from hAl.symm, List.drop_left]
            rw [show A.length = B.length from by rw [hAl, hBl]]
            exact take_len_append _ _
          have h3 : ((pre ++ canon).drop (pre.length + 8)).take c.2.1.length = c.2.1 := by
            rw [hdropk, hC]
            rw [show (8 : ℕ) = A.length + B.length from by rw [hAl, hBl]]
            rw [← List.drop_drop, List.drop_left, List.drop_left]
            exact take_len_append _ _
          have hfbe : fromBEBytes A = c.2.1.length := by
            rw [hA]
            apply fromBEBytes_toBEBytes
            calc c.2.1.length < 2 ^ 32 := hbound
              _ = 256 ^ 4 := by norm_num
          have hty : bytesToStringLossy B = c.1 := by
            rw [hB, latin1Bytes_ascii hascii, bytesToStringLossy_ascii_map hascii]
          have hguard : pre.length + 8 < (pre ++ canon).length := by
            rw [hC]
            simp [hAl, hBl, hDl, List.length_append]
            omega
          have hoff : pre.length + 12 + c.2.1.length = (pre ++ pngSerializeChunk c).length := by
            rw [List.length_append, pngSerializeChunk_length c hlen4]
            omega
          have hassoc : pre ++ canon = (pre ++ pngSerializeChunk c) ++ T := by
            rw [hC]
            simp only [pngSerializeChunk, List.append_assoc]
          rw [hser]
          rw [readPNGScan, if_pos hguard]
          simp only [h1, h2, h3, hfbe, hty]
          rw [hoff, hassoc, ih (fun x hx => hwf x (List.mem_cons_of_mem c hx))
            (pre ++ pngSerializeChunk c) f _ (by simp only [List.length_cons] at hfuel; omega)]
          try simp only [pngReadFold, List.foldl_cons]

theorem any_gt127_false {s : String} (h : asciiOnly s = true) :
    (s.data.any fun c => 127 < c.toNat) = false := by
  simp only [asciiOnly, List.all_eq_true] at h
  simp only [List.any_eq_false]
  intro c hc
  have := h c hc
  simp only [decide_eq_true_eq] at this ⊢
  omega

theorem createPNGTextChunk_ascii (kw txt : String)
    (hkw : asciiOnly kw = true) (htxt : asciiOnly txt = true) :
    createPNGTextChunk kw txt
      = pngSerializeChunk ("tEXt", latin1Bytes kw ++ 0 :: latin1Bytes txt,
          calculateCRC32 (latin1Bytes "tEXt" ++ (latin1Bytes kw ++ 0 :: latin1Bytes txt))) := by
  unfold createPNGTextChunk
  rw [if_neg (by simp [any_gt127_false hkw, any_gt127_false htxt])]
  have hlen : (latin1Bytes kw).length + 1 + (latin1Bytes txt).length
      = (latin1Bytes kw ++ 0 :: latin1Bytes txt).length := by
    simp only [List.length_append, List.length_cons]
    omega
  simp only [hlen, pngSerializeChunk, List.append_assoc]
  simp

theorem pngProcess_gps_preserved (m : MetadataInfo) (kw t : String)
    (h : (jsIncludes (jsToLower kw) "gps" || jsToLower kw == "gps_location") = false) :
    (pngProcessTextChunk m kw t).gps = m.gps := by
  simp only [pngProcessTextChunk, h, Bool.false_eq_true, if_false]
  repeat' split
  all_goals rfl

theorem pngProcess_gps_coordinates (m : MetadataInfo) (t a b : String) (la lb : ℚ)
    (hjson : jsonParseGps t = none)
    (hsplit : jsSplit t ',' = [a, b])
    (hta : jsTrim a = a) (htb : jsTrim b = b)
    (hpa : parseFloatQ a = some la) (hpb : parseFloatQ b = some lb) :
    pngProcessTextChunk m "GPS_Coordinates" t = { m with gps := some ⟨la, lb⟩ } := by
  have c1 : (jsIncludes (jsToLower "GPS_Coordinates") "gps"
      || jsToLower "GPS_Coordinates" == "gps_location") = true := by decide
  have c2 : (jsIncludes (jsToLower "GPS_Coordinates") "description"
      || jsToLower "GPS_Coordinates" == "comment" || jsToLower "GPS_Coordinates" == "title"
      || jsIncludes (jsToLower "GPS_Coordinates") "caption") = false := by decide
  have c3 : (jsIncludes (jsToLower "GPS_Coordinates") "keywords"
      || jsToLower "GPS_Coordinates" == "subject"
      || jsIncludes (jsToLower "GPS_Coordinates") "tags") = false := by decide
  have c4 : (jsIncludes (jsToLower "GPS_Coordinates") "creation"
      || jsIncludes (jsToLower "GPS_Coordinates") "date"
      || jsIncludes (jsToLower "GPS_Coordinates") "time") = false := by decide
  have c5 : (jsIncludes (jsToLower "GPS_Coordinates") "camera"
      || jsIncludes (jsToLower "GPS_Coordinates") "make") = false := by decide
  have c6 : (jsIncludes (jsToLower "GPS_Coordinates") "model"
      && !(jsIncludes (jsToLower "GPS_Coordinates") "make")) = false := by decide
  simp only [pngProcessTextChunk, c1, c2, c3, c4, c5, c6, if_true,
    Bool.false_eq_true, if_false, hjson, hsplit]
  norm_num
  rw [hta, htb, hpa, hpb]

theorem numToString_ne_nil (q : ℚ) : (numToString q).data ≠ [] := by
  unfold numToString
  split
  · simp
  · obtain ⟨d, r, hdr, _⟩ := posQToString_head_digit q
    rw [hdr]
    simp

theorem numToString_no_comma (q : ℚ) : ∀ c ∈ (numToString q).data, c ≠ ',' := by
  intro c hc heq
  rcases numToString_chars q c hc with h | h | h
  · subst heq
    revert h
    decide
  · subst heq
    revert h
    decide
  · subst heq
    revert h
    decide

theorem numToString_no_ws (q : ℚ) : ∀ c ∈ (numToString q).data, jsIsWS c = false := by
  intro c hc
  rcases numToString_chars q c hc with h | h | h
  · unfold jsIsWS
    have h32 : c ≠ ' ' := fun he => by subst he; revert h; decide
    have h9 : c ≠ '\t' := fun he => by subst he; revert h; decide
    have h10 : c ≠ '\n' := fun he => by subst he; revert h; decide
    have h13 : c ≠ '\r' := fun he => by subst he; revert h; decide
    simp [h32, h9, h10, h13]
  · subst h; decide
  · subst h; decide

theorem numToString_head_not_brace (q : ℚ) :
    ∀ c r, (numToString q).data = c :: r → c ≠ '\x7b' := by
  intro c r hcr heq
  have hc : c ∈ (numToString q).data := by rw [hcr]; simp
  rcases numToString_chars q c hc with h | h | h
  · subst heq; revert h; decide
  · subst heq; revert h; decide
  · subst heq; revert h; decide

theorem numToString_no_nul (q : ℚ) : ∀ c ∈ (numToString q).data, c.toNat ≠ 0 := by
  intro c hc
  rcases numToString_chars q c hc with h | h | h
  · omega
  · subst h; decide
  · subst h; decide

/-- The float denominators the modelled formatter prints exactly. -/
def jsDecimal (q : ℚ) : Prop := q.den ∣ 10 ^ fracDigitCount q.den

theorem asciiOnly_append (a b : String) :
    asciiOnly (a ++ b) = (asciiOnly a && asciiOnly b) := by
  simp [asciiOnly, String.data_append, List.all_append]

theorem string_data_append (a b : String) : (a ++ b).data = a.data ++ b.data := by
  simp [String.data_append]

theorem gps_coords_text_parses (m : MetadataInfo) (la lb : ℚ)
    (hla : jsDecimal la) (hlb : jsDecimal lb) :
    pngProcessTextChunk m "GPS_Coordinates" (numToString la ++ "," ++ numToString lb)
      = { m with gps := some ⟨la, lb⟩ } := by
  set t := numToString la ++ "," ++ numToString lb with ht
  have hdata : t.data = (numToString la).data ++ ',' :: (numToString lb).data := by
    rw [ht, string_data_append, string_data_append]
    simp [List.append_assoc]
  have hjson : jsonParseGps t = none := by
    apply jsonParseGps_not_brace
    intro c r hcr
    rw [hdata] at hcr
    obtain ⟨c0, r0, h0⟩ : ∃ c0 r0, (numToString la).data = c0 :: r0 := by
      cases h : (numToString la).data with
      | nil => exact absurd h (numToString_ne_nil la)
      | cons c0 r0 => exact ⟨c0, r0, rfl⟩
    rw [h0] at hcr
    injection hcr with h1 h2
    subst h1
    exact numToString_head_not_brace la c0 r0 h0
  have hsplit : jsSplit t ',' = [numToString la, numToString lb] := by
    have hp := jsSplit_pair (numToString la).data (numToString lb).data ','
      (numToString_no_comma la) (numToString_no_comma lb)
    have ht2 : t = ⟨(numToString la).data ++ ',' :: (numToString lb).data⟩ := by
      conv_lhs => rw [← stringMk_data t]
      rw [hdata]
    rw [ht2, hp, stringMk_data, stringMk_data]
  exact pngProcess_gps_coordinates m t _ _ la lb hjson hsplit
    (jsTrim_eq_self (numToString_no_ws la)) (jsTrim_eq_self (numToString_no_ws lb))
    (parseFloatQ_numToString la hla) (parseFloatQ_numToString lb hlb)

set_option maxHeartbeats 1600000 in
set_option maxRecDepth 4000 in
theorem png_gps_roundtrip (la lb : ℚ) (now : String)
    (hla : jsDecimal la) (hlb : jsDecimal lb) (hnow : asciiOnly now = true)
    (hl1 : (numToString la).data.length < 1000)
    (hl2 : (numToString lb).data.length < 1000)
    (hl3 : now.data.length < 1000) :
    ∃ out, writePNGMetadata (pngSignature ++ [0, 0, 0, 0] ++ [73, 72, 68, 82] ++ [0, 0, 0, 0])
        { gps := some ⟨la, lb⟩ } now = .ok out
      ∧ (readPNGMetadata out).gps = some (⟨la, lb⟩ : GPSCoordinates) := by
  have ha1 : asciiOnly (jsonStringifyGps la lb now) = true := by
    unfold jsonStringifyGps
    simp [asciiOnly_append, numToString_ascii, hnow]
    decide
  have ha2 : asciiOnly (numToString la ++ "," ++ numToString lb) = true := by
    simp [asciiOnly_append, numToString_ascii]
    decide
  have ha3 : asciiOnly ("lat=" ++ numToString la ++ ";lon=" ++ numToString lb) = true := by
    simp [asciiOnly_append, numToString_ascii]
    decide
  have ha4 : asciiOnly (numToString la ++ "|" ++ numToString lb) = true := by
    simp [asciiOnly_append, numToString_ascii]
    decide
  have hd1 : (jsonStringifyGps la lb now).data.length ≤ 3030 := by
    unfold jsonStringifyGps
    simp only [string_data_append, List.length_append, List.length_cons, List.length_nil]
    omega
  have hd2 : (numToString la ++ "," ++ numToString lb).data.length ≤ 3030 := by
    simp only [string_data_append, List.length_append, List.length_cons, List.length_nil]
    omega
  have hd3 : ("lat=" ++ numToString la ++ ";lon=" ++ numToString lb).data.length ≤ 3030 := by
    simp only [string_data_append, List.length_append, List.length_cons, List.length_nil]
    omega
  have hd4 : (numToString la ++ "|" ++ numToString lb).data.length ≤ 3030 := by
    simp only [string_data_append, List.length_append, List.length_cons, List.length_nil]
    omega
  refine ⟨pngSignature ++ (([0, 0, 0, 0, 73, 72, 68, 82, 0, 0, 0, 0] : List ℕ)
      :: (pngMetadataChunks { gps := some ⟨la, lb⟩ } now ++ [])).flatten, rfl, ?_⟩
  have hchunks : (([0, 0, 0, 0, 73, 72, 68, 82, 0, 0, 0, 0] : List ℕ)
      :: (pngMetadataChunks { gps := some ⟨la, lb⟩ } now ++ []))
      = [(("IHDR", [], 0) : String × List ℕ × ℕ),
         ("tEXt", latin1Bytes "GPS_Location" ++ 0 :: latin1Bytes (jsonStringifyGps la lb now),
          calculateCRC32 (latin1Bytes "tEXt" ++ (latin1Bytes "GPS_Location"
            ++ 0 :: latin1Bytes (jsonStringifyGps la lb now)))),
         ("tEXt", latin1Bytes "GPS_Coordinates"
            ++ 0 :: latin1Bytes (numToString la ++ "," ++ numToString lb),
          calculateCRC32 (latin1Bytes "tEXt" ++ (latin1Bytes "GPS_Coordinates"
            ++ 0 :: latin1Bytes (numToString la ++ "," ++ numToString lb)))),
         ("tEXt", latin1Bytes "Location"
            ++ 0 :: latin1Bytes ("lat=" ++ numToString la ++ ";lon=" ++ numToString lb),
          calculateCRC32 (latin1Bytes "tEXt" ++ (latin1Bytes "Location"
            ++ 0 :: latin1Bytes ("lat=" ++ numToString la ++ ";lon=" ++ numToString lb)))),
         ("tEXt", latin1Bytes "Geolocation"
            ++ 0 :: latin1Bytes (numToString la ++ "|" ++ numToString lb),
          calculateCRC32 (latin1Bytes "tEXt" ++ (latin1Bytes "Geolocation"
            ++ 0 :: latin1Bytes (numToString la ++ "|" ++ numToString lb)))),
         ("tEXt", latin1Bytes "Creation Time" ++ 0 :: latin1Bytes now,
          calculateCRC32 (latin1Bytes "tEXt" ++ (latin1Bytes "Creation Time"
            ++ 0 :: latin1Bytes now))),
         ("tEXt", latin1Bytes "Software" ++ 0 :: latin1Bytes "Universal GeoImgr Tool v2.0",
          calculateCRC32 (latin1Bytes "tEXt" ++ (latin1Bytes "Software"
            ++ 0 :: latin1Bytes "Universal GeoImgr Tool v2.0")))].map pngSerializeChunk := by
    rw [show pngMetadataChunks { gps := some ⟨la, lb⟩ } now
      = [createPNGTextChunk "GPS_Location" (jsonStringifyGps la lb now),
         createPNGTextChunk "GPS_Coordinates" (numToString la ++ "," ++ numToString lb),
         createPNGTextChunk "Location" ("lat=" ++ numToString la ++ ";lon=" ++ numToString lb),
         createPNGTextChunk "Geolocation" (numToString la ++ "|" ++ numToString lb),
         createPNGTextChunk "Creation Time" now,
         createPNGTextChunk "Software" "Universal GeoImgr Tool v2.0"] from rfl]
    simp only [List.append_nil, List.map_cons, List.map_nil]
    rw [createPNGTextChunk_ascii "GPS_Location" _ (by decide) ha1]
    rw [createPNGTextChunk_ascii "GPS_Coordinates" _ (by decide) ha2]
    rw [createPNGTextChunk_ascii "Location" _ (by decide) ha3]
    rw [createPNGTextChunk_ascii "Geolocation" _ (by decide) ha4]
    rw [createPNGTextChunk_ascii "Creation Time" _ (by decide) hnow]
    rw [createPNGTextChunk_ascii "Software" _ (by decide) (by decide)]
    rfl
  rw [hchunks]
  set cs := [(("IHDR", [], 0) : String × List ℕ × ℕ),
         ("tEXt", latin1Bytes "GPS_Location" ++ 0 :: latin1Bytes (jsonStringifyGps la lb now),
          calculateCRC32 (latin1Bytes "tEXt" ++ (latin1Bytes "GPS_Location"
            ++ 0 :: latin1Bytes (jsonStringifyGps la lb now)))),
         ("tEXt", latin1Bytes "GPS_Coordinates"
            ++ 0 :: latin1Bytes (numToString la ++ "," ++ numToString lb),
          calculateCRC32 (latin1Bytes "tEXt" ++ (latin1Bytes "GPS_Coordinates"
            ++ 0 :: latin1Bytes (numToString la ++ "," ++ numToString lb)))),
         ("tEXt", latin1Bytes "Location"
            ++ 0 :: latin1Bytes ("lat=" ++ numToString la ++ ";lon=" ++ numToString lb),
          calculateCRC32 (latin1Bytes "tEXt" ++ (latin1Bytes "Location"
            ++ 0 :: latin1Bytes ("lat=" ++ numToString la ++ ";lon=" ++ numToString lb)))),
         ("tEXt", latin1Bytes "Geolocation"
            ++ 0 :: latin1Bytes (numToString la ++ "|" ++ numToString lb),
          calculateCRC32 (latin1Bytes "tEXt" ++ (latin1Bytes "Geolocation"
            ++ 0 :: latin1Bytes (numToString la ++ "|" ++ numToString lb)))),
         ("tEXt", latin1Bytes "Creation Time" ++ 0 :: latin1Bytes now,
          calculateCRC32 (latin1Bytes "tEXt" ++ (latin1Bytes "Creation Time"
            ++ 0 :: latin1Bytes now))),
         ("tEXt", latin1Bytes "Software" ++ 0 :: latin1Bytes "Universal GeoImgr Tool v2.0",
          calculateCRC32 (latin1Bytes "tEXt" ++ (latin1Bytes "Software"
            ++ 0 :: latin1Bytes "Universal GeoImgr Tool v2.0")))] with hcs
  have hwf : ∀ x ∈ cs, pngChunkWF x := by
    rw [hcs]
    intro x hx
    simp only [List.mem_cons, List.not_mem_nil, or_false] at hx
    rcases hx with rfl | rfl | rfl | rfl | rfl | rfl | rfl
    · exact ⟨by decide, by decide, by decide⟩
    · refine ⟨show asciiOnly "tEXt" = true by decide,
        show ("tEXt" : String).data.length = 4 by decide, ?_⟩
      show (latin1Bytes "GPS_Location"
          ++ 0 :: latin1Bytes (jsonStringifyGps la lb now)).length < 2 ^ 32
      simp only [List.length_append, List.length_cons, List.length_nil, latin1Bytes_length]
      have e1 := hd1
      omega
    · refine ⟨show asciiOnly "tEXt" = true by decide,
        show ("tEXt" : String).data.length = 4 by decide, ?_⟩
      show (latin1Bytes "GPS_Coordinates"
          ++ 0 :: latin1Bytes (numToString la ++ "," ++ numToString lb)).length < 2 ^ 32
      simp only [List.length_append, List.length_cons, List.length_nil, latin1Bytes_length]
      have e1 := hd2
      omega
    · refine ⟨show asciiOnly "tEXt" = true by decide,
        show ("tEXt" : String).data.length = 4 by decide, ?_⟩
      show (latin1Bytes "Location"
          ++ 0 :: latin1Bytes ("lat=" ++ numToString la ++ ";lon=" ++ numToString lb)).length < 2 ^ 32
      simp only [List.length_append, List.length_cons, List.length_nil, latin1Bytes_length]
      have e1 := hd3
      omega
    · refine ⟨show asciiOnly "tEXt" = true by decide,
        show ("tEXt" : String).data.length = 4 by decide, ?_⟩
      show (latin1Bytes "Geolocation"
          ++ 0 :: latin1Bytes (numToString la ++ "|" ++ numToString lb)).length < 2 ^ 32
      simp only [List.length_append, List.length_cons, List.length_nil, latin1Bytes_length]
      have e1 := hd4
      omega
    · refine ⟨show asciiOnly "tEXt" = true by decide,
        show ("tEXt" : String).data.length = 4 by decide, ?_⟩
      show (latin1Bytes "Creation Time" ++ 0 :: latin1Bytes now).length < 2 ^ 32
      simp only [List.length_append, List.length_cons, List.length_nil, latin1Bytes_length]
      omega
    · exact ⟨by decide, by decide, by decide⟩
  unfold readPNGMetadata
  rw [if_pos (by
    rw [show (8 : ℕ) = pngSignature.length from rfl]
    exact take_len_append _ _)]
  rw [show (8 : ℕ) = pngSignature.length from rfl]
  rw [readPNGScan_serialized cs hwf pngSignature _ {} (by
    rw [hcs]
    have e8 : pngSignature.length = 8 := by decide
    simp only [List.length_append, List.length_cons, List.length_nil]
    omega)]
  rw [hcs]
  simp only [pngReadFold, List.foldl_cons, List.foldl_nil]
  have cIH : ¬(("IHDR" : String) = "tEXt" ∨ ("IHDR" : String) = "iTXt"
      ∨ ("IHDR" : String) = "zTXt") := by decide
  have cT : ("tEXt" : String) = "tEXt" ∨ ("tEXt" : String) = "iTXt"
      ∨ ("tEXt" : String) = "zTXt" := Or.inl rfl
  simp only [if_neg cIH, if_pos cT]
  rw [pngChunkKeywordText_tEXt "GPS_Location" _ (by decide) ha1 (by decide)]
  rw [pngChunkKeywordText_tEXt "GPS_Coordinates" _ (by decide) ha2 (by decide)]
  rw [pngChunkKeywordText_tEXt "Location" _ (by decide) ha3 (by decide)]
  rw [pngChunkKeywordText_tEXt "Geolocation" _ (by decide) ha4 (by decide)]
  rw [pngChunkKeywordText_tEXt "Creation Time" _ (by decide) hnow (by decide)]
  rw [pngChunkKeywordText_tEXt "Software" _ (by decide) (by decide) (by decide)]
  simp only [true_or, if_true]
  rw [pngProcess_gps_preserved _ "Software" _ (by decide)]
  rw [pngProcess_gps_preserved _ "Creation Time" _ (by decide)]
  rw [pngProcess_gps_preserved _ "Geolocation" _ (by decide)]
  rw [pngProcess_gps_preserved _ "Location" _ (by decide)]
  rw [gps_coords_text_parses _ la lb hla hlb]

theorem pngProcess_gps_parse_fail (m : MetadataInfo) (t : String)
    (hjson : jsonParseGps t = none) (hsplit : (jsSplit t ',').length ≠ 2) :
    (pngProcessTextChunk m "GPS_Location" t).gps = m.gps := by
  have c1 : (jsIncludes (jsToLower "GPS_Location") "gps"
      || jsToLower "GPS_Location" == "gps_location") = true := by decide
  simp only [pngProcessTextChunk, c1, if_true, hjson]
  rw [if_neg hsplit]
  repeat' split
  all_goals rfl

set_option maxHeartbeats 1600000 in
/-- C7, amended: in the PNG reader the description, keywords, dateTime,
cameraMake and cameraModel categories assign unconditionally, so for each of
them the LAST text chunk in chunk-stream order whose keyword matches the
category determines the field's value (e.g. Comment `A` then Title `B`
yields description `B`).  The gps category assigns only on parse success
(JSON with truthy lat/lon, or a two-part comma split whose parts parse as
numbers): a later gps-keyword chunk with parseable text overwrites any
earlier gps value, while one whose text neither JSON-parses nor splits into
two comma-separated parts leaves the field unchanged. -/
theorem C7_png_reader_last_wins :
    (∀ (md : MetadataInfo) (keyword t : String),
      (jsIncludes (jsToLower keyword) "description"
        || jsToLower keyword == "comment" || jsToLower keyword == "title"
        || jsIncludes (jsToLower keyword) "caption") = true →
        (pngProcessTextChunk md keyword t).description = some t)
    ∧ (∀ (md : MetadataInfo) (keyword t : String),
      (jsIncludes (jsToLower keyword) "keywords"
        || jsToLower keyword == "subject"
        || jsIncludes (jsToLower keyword) "tags") = true →
        (pngProcessTextChunk md keyword t).keywords = some t)
    ∧ (∀ (md : MetadataInfo) (keyword t : String),
      (jsIncludes (jsToLower keyword) "creation"
        || jsIncludes (jsToLower keyword) "date"
        || jsIncludes (jsToLower keyword) "time") = true →
        (pngProcessTextChunk md keyword t).dateTime = some t)
    ∧ (∀ (md : MetadataInfo) (keyword t : String),
      (jsIncludes (jsToLower keyword) "camera"
        || jsIncludes (jsToLower keyword) "make") = true →
        (pngProcessTextChunk md keyword t).cameraMake = some t)
    ∧ (∀ (md : MetadataInfo) (keyword t : String),
      (jsIncludes (jsToLower keyword) "model"
        && !(jsIncludes (jsToLower keyword) "make")) = true →
        (pngProcessTextChunk md keyword t).cameraModel = some t)
    ∧ (∀ (m : MetadataInfo) (la lb : ℚ), jsDecimal la → jsDecimal lb →
        (pngProcessTextChunk m "GPS_Coordinates"
          (numToString la ++ "," ++ numToString lb)).gps = some ⟨la, lb⟩)
    ∧ (∀ (m : MetadataInfo) (t : String), jsonParseGps t = none →
        (jsSplit t ',').length ≠ 2 →
        (pngProcessTextChunk m "GPS_Location" t).gps = m.gps) := by
  refine ⟨?_, ?_, ?_, ?_, ?_, ?_, ?_⟩
  · intro md keyword t h
    simp only [pngProcessTextChunk, h, if_true]
    repeat' split
    all_goals rfl
  · intro md keyword t h
    simp only [pngProcessTextChunk, h, if_true]
    repeat' split
    all_goals rfl
  · intro md keyword t h
    simp only [pngProcessTextChunk, h, if_true]
    repeat' split
    all_goals rfl
  · intro md keyword t h
    simp only [pngProcessTextChunk, h, if_true]
    repeat' split
    all_goals rfl
  · intro md keyword t h
    simp only [pngProcessTextChunk, h, if_true]
  · intro m la lb hla hlb
    rw [gps_coords_text_parses m la lb hla hlb]
  · intro m t hjson hsplit
    exact pngProcess_gps_parse_fail m t hjson hsplit

/-- Witness for the amended C7 at concrete inputs: a `Title` chunk overwrites
a `description` already set to `"A"`, a `Subject` chunk a set `keywords`, a
`Creation Time` chunk a set `dateTime`, a `Make` chunk a set `cameraMake`, a
`Model` chunk a set `cameraModel`; a `GPS_Coordinates` chunk with parseable
text `1,2` overwrites a gps already set to `(3, 4)`, while a `GPS_Location`
chunk with unparseable text `x` leaves a set gps unchanged. -/
theorem C7_png_reader_last_wins_witness :
    (pngProcessTextChunk { description := some "A" } "Title" "B").description = some "B"
    ∧ (pngProcessTextChunk { keywords := some "A" } "Subject" "B").keywords = some "B"
    ∧ (pngProcessTextChunk { dateTime := some "A" } "Creation Time" "B").dateTime = some "B"
    ∧ (pngProcessTextChunk { cameraMake := some "A" } "Make" "B").cameraMake = some "B"
    ∧ (pngProcessTextChunk { cameraModel := some "A" } "Model" "B").cameraModel = some "B"
    ∧ (pngProcessTextChunk { gps := some ⟨3, 4⟩ } "GPS_Coordinates"
        (numToString 1 ++ "," ++ numToString 2)).gps = some ⟨1, 2⟩
    ∧ (pngProcessTextChunk { gps := some ⟨1, 2⟩ } "GPS_Location" "x").gps = some ⟨1, 2⟩ :=
  ⟨C7_png_reader_last_wins.1 _ "Title" "B" (by decide),
   C7_png_reader_last_wins.2.1 _ "Subject" "B" (by decide),
   C7_png_reader_last_wins.2.2.1 _ "Creation Time" "B" (by decide),
   C7_png_reader_last_wins.2.2.2.1 _ "Make" "B" (by decide),
   C7_png_reader_last_wins.2.2.2.2.1 _ "Model" "B" (by decide),
   C7_png_reader_last_wins.2.2.2.2.2.1 { gps := some ⟨3, 4⟩ } 1 2
     (by unfold jsDecimal; decide) (by unfold jsDecimal; decide),
   C7_png_reader_last_wins.2.2.2.2.2.2 { gps := some ⟨1, 2⟩ } "x" (by decide) (by decide)⟩

/-! ## The values the EXIF-family readers hand to the Coordinate Converter -/

theorem jsRound_intCast (k : ℤ) : jsRound (k : ℚ) = k := by
  unfold jsRound
  rw [Int.floor_int_add]
  norm_num

theorem decimalToGPS_abs (d : ℚ) : decimalToGPS |d| = decimalToGPS d := by
  unfold decimalToGPS
  rw [abs_abs]

/-- The pair-typed `gpsToDecimal` call on a 3-or-more-element array never
yields a number: a string for the non-negated references, `NaN` for `S`/`W`. -/
theorem gpsToDecimalPairs_triple (d m s : ExifRational) (rest : List ExifRational)
    (ref : String) :
    gpsToDecimalPairs (some (d :: m :: s :: rest)) ref
      = if ref = "S" ∨ ref = "W" then JSVal.nan
        else JSVal.str (ratPairToString d ++ "NaN" ++ "NaN") := rfl

theorem gpsToDecimalPairs_triple_not_num (d m s : ExifRational) (rest : List ExifRational)
    (ref : String) (q : ℚ) :
    gpsToDecimalPairs (some (d :: m :: s :: rest)) ref ≠ JSVal.num q := by
  rw [gpsToDecimalPairs_triple]
  split
  · exact fun h => JSVal.noConfusion h
  · exact fun h => JSVal.noConfusion h

/-- The junk value at a reference chosen by the writers' sign test. -/
theorem gpsToDecimalPairs_signed (d m s : ExifRational) (x : ℚ) (rp rn : String)
    (hp : ¬(rp = "S" ∨ rp = "W")) (hn : rn = "S" ∨ rn = "W") :
    gpsToDecimalPairs (some [d, m, s]) (if 0 ≤ x then rp else rn)
      = if 0 ≤ x then JSVal.str (ratPairToString d ++ "NaN" ++ "NaN") else JSVal.nan := by
  by_cases hx : 0 ≤ x
  · rw [if_pos hx, if_pos hx, gpsToDecimalPairs_triple, if_neg hp]
  · rw [if_neg hx, if_neg hx, gpsToDecimalPairs_triple, if_pos hn]

theorem ifJunk_not_num (c : Prop) [Decidable c] (s : String) (q : ℚ) :
    (if c then JSVal.str s else JSVal.nan) ≠ JSVal.num q := by
  split
  · exact fun h => JSVal.noConfusion h
  · exact fun h => JSVal.noConfusion h

/-- A dynamic pair whose first component is not a number has no image in the
number-typed `GPSCoordinates` view. -/
theorem jsGpsView_junk (v w : JSVal) (hv : ∀ q : ℚ, v ≠ JSVal.num q) :
    jsGpsView (v, w) = none := by
  cases v with
  | num q => exact absurd rfl (hv q)
  | nan => cases w <;> rfl
  | str s => cases w <;> rfl

/-! ## Well-formedness of the GPS tag records the writers store -/

theorem jsRound_natAbs_le (q : ℚ) (b : ℕ) (h0 : 0 ≤ q) (hb : q ≤ (b : ℚ)) :
    (jsRound q).natAbs ≤ b := by
  unfold jsRound
  have h1 : (0 : ℤ) ≤ ⌊q + 1 / 2⌋ := Int.floor_nonneg.mpr (by linarith)
  have h2 : ⌊q + 1 / 2⌋ < (b : ℤ) + 1 := Int.floor_lt.mpr (by push_cast; linarith)
  omega

theorem ratWF_stored_deg (x : ℚ) (hx : |x| ≤ 180) :
    ratWF ⟨jsRound ((decimalToGPS x).1 * 1), 1⟩ := by
  constructor
  · show (jsRound ((decimalToGPS x).1 * 1)).natAbs < 2 ^ 64
    rw [mul_one]
    have h1 := (decimalToGPS_bounds x).1
    have h0 : (0 : ℚ) ≤ (decimalToGPS x).1 := by
      rw [h1]
      exact_mod_cast Int.floor_nonneg.mpr (abs_nonneg x)
    have hb : (decimalToGPS x).1 ≤ ((180 : ℕ) : ℚ) := by
      rw [h1]
      calc ((⌊|x|⌋ : ℤ) : ℚ) ≤ |x| := Int.floor_le _
        _ ≤ 180 := hx
        _ = ((180 : ℕ) : ℚ) := by norm_num
    have := jsRound_natAbs_le _ 180 h0 hb
    omega
  · show ((1 : ℤ)).natAbs < 2 ^ 64
    decide

theorem ratWF_stored_min (x : ℚ) :
    ratWF ⟨jsRound ((decimalToGPS x).2.1 * 1), 1⟩ := by
  constructor
  · show (jsRound ((decimalToGPS x).2.1 * 1)).natAbs < 2 ^ 64
    rw [mul_one]
    obtain ⟨-, hm0, hm59, -, -, -⟩ := decimalToGPS_bounds x
    have hb : (decimalToGPS x).2.1 ≤ ((59 : ℕ) : ℚ) := by
      calc (decimalToGPS x).2.1 ≤ 59 := hm59
        _ = ((59 : ℕ) : ℚ) := by norm_num
    have := jsRound_natAbs_le _ 59 hm0 hb
    omega
  · show ((1 : ℤ)).natAbs < 2 ^ 64
    decide

theorem ratWF_stored_sec (x : ℚ) (M : ℚ) (D : ℤ) (h0M : 0 ≤ M) (hM : M ≤ 1000)
    (hD : D.natAbs < 2 ^ 64) : ratWF ⟨jsRound ((decimalToGPS x).2.2 * M), D⟩ := by
  constructor
  · show (jsRound ((decimalToGPS x).2.2 * M)).natAbs < 2 ^ 64
    obtain ⟨-, -, -, -, hs0, hs60⟩ := decimalToGPS_bounds x
    have h0 : 0 ≤ (decimalToGPS x).2.2 * M := mul_nonneg hs0 h0M
    have hb : (decimalToGPS x).2.2 * M ≤ ((60000 : ℕ) : ℚ) := by
      have h60 : ((60000 : ℕ) : ℚ) = 60 * 1000 := by norm_num
      rw [h60]
      nlinarith
    have := jsRound_natAbs_le _ 60000 h0 hb
    omega
  · show D.natAbs < 2 ^ 64
    exact hD

theorem strWFp_if (c : Prop) [Decidable c] (a b : String) (ha : strWFp a) (hb : strWFp b) :
    strWFp (if c then a else b) := by
  split
  · exact ha
  · exact hb

theorem string_if_ne_empty (c : Prop) [Decidable c] (a b : String) (ha : a ≠ "") (hb : b ≠ "") :
    (if c then a else b) ≠ "" := by
  split
  · exact ha
  · exact hb

theorem exifObjWF_gps_only (g : ExifGPSData) (hg : gpsWF g) : exifObjWF { gps := some g } := by
  refine ⟨fun g' hg' => ?_, fun s hs => ?_, fun s hs => ?_, fun s hs => ?_,
    fun s hs => ?_, fun s hs => ?_⟩
  · exact (Option.some.inj hg') ▸ hg
  · exact Option.noConfusion hs
  · exact Option.noConfusion hs
  · exact Option.noConfusion hs
  · exact Option.noConfusion hs
  · exact Option.noConfusion hs

/-! ## The JPEG (EXIF) GPS round trip -/

/-- The GPS IFD record `writeExifMetadata` stores (seconds denominator 100). -/
def jpegGpsData (la lb : ℚ) : ExifGPSData :=
  ⟨(⟨jsRound ((decimalToGPS la).1 * 1), 1⟩, ⟨jsRound ((decimalToGPS la).2.1 * 1), 1⟩,
      ⟨jsRound ((decimalToGPS la).2.2 * 100), 100⟩),
    (if 0 ≤ la then "N" else "S"),
    (⟨jsRound ((decimalToGPS lb).1 * 1), 1⟩, ⟨jsRound ((decimalToGPS lb).2.1 * 1), 1⟩,
      ⟨jsRound ((decimalToGPS lb).2.2 * 100), 100⟩),
    (if 0 ≤ lb then "E" else "W"), [2, 3, 0, 0]⟩

/-- The tag dictionary `writeExifMetadata` dumps for gps-only metadata on a
carrier with no prior EXIF segment. -/
def jpegGpsObj (la lb : ℚ) : ExifObj := { gps := some (jpegGpsData la lb) }

theorem gpsWF_jpegGpsData (la lb : ℚ) (hla : |la| ≤ 180) (hlb : |lb| ≤ 180) :
    gpsWF (jpegGpsData la lb) := by
  unfold jpegGpsData gpsWF
  exact ⟨ratWF_stored_deg la hla, ratWF_stored_min la,
    ratWF_stored_sec la 100 100 (by norm_num) (by norm_num) (by decide),
    strWFp_if (0 ≤ la) "N" "S" (show ("N" : String).data.length < 2 ^ 32 by decide)
      (show ("S" : String).data.length < 2 ^ 32 by decide),
    ratWF_stored_deg lb hlb, ratWF_stored_min lb,
    ratWF_stored_sec lb 100 100 (by norm_num) (by norm_num) (by decide),
    strWFp_if (0 ≤ lb) "E" "W" (show ("E" : String).data.length < 2 ^ 32 by decide)
      (show ("W" : String).data.length < 2 ^ 32 by decide),
    show ([2, 3, 0, 0] : List ℕ).length < 2 ^ 32 by decide,
    show ∀ x ∈ ([2, 3, 0, 0] : List ℕ), x < 2 ^ 32 by decide⟩

theorem encInt_length (i : ℤ) : (encInt i).length = 9 := by
  unfold encInt
  simp [toLEBytes_length]

theorem encRat_length (r : ExifRational) : (encRat r).length = 18 := by
  simp [encRat, encInt_length]

theorem flatten_map_len4 {α : Type} (f : α → List ℕ) (hf : ∀ a, (f a).length = 4)
    (l : List α) : ((l.map f).flatten).length = 4 * l.length := by
  induction l with
  | nil => simp
  | cons x xs ih =>
      simp only [List.map_cons, List.flatten_cons, List.length_append, List.length_cons, ih, hf]
      omega

theorem encStr_length (s : String) : (encStr s).length = 4 + 4 * s.data.length := by
  unfold encStr
  rw [List.length_append, toLEBytes_length,
    flatten_map_len4 (fun c : Char => toLEBytes 4 c.toNat) (fun c => toLEBytes_length 4 c.toNat)]

theorem encNatList_length (l : List ℕ) : (encNatList l).length = 4 + 4 * l.length := by
  unfold encNatList
  rw [List.length_append, toLEBytes_length,
    flatten_map_len4 (toLEBytes 4) (fun n => toLEBytes_length 4 n)]

theorem encGPSData_length (g : ExifGPSData) :
    (encGPSData g).length = 120 + 4 * g.latitudeRef.data.length
      + 4 * g.longitudeRef.data.length + 4 * g.versionID.length := by
  unfold encGPSData
  simp only [List.length_append, encRat_length, encStr_length, encNatList_length]
  omega

theorem encodeExifObj_gps_length (g : ExifGPSData) :
    (encodeExifObj { gps := some g }).length
      = 126 + 4 * g.latitudeRef.data.length + 4 * g.longitudeRef.data.length
        + 4 * g.versionID.length := by
  show (encOpt encGPSData (some g) ++ encOpt encStr none ++ encOpt encStr none
      ++ encOpt encStr none ++ encOpt encStr none ++ encOpt encStr none).length = _
  simp only [encOpt, List.length_append, List.length_cons, List.length_nil, encGPSData_length]
  omega

theorem jpegGpsObj_payload_length (la lb : ℚ) :
    (encodeExifObj (jpegGpsObj la lb)).length = 150 := by
  show (encodeExifObj { gps := some (jpegGpsData la lb) }).length = 150
  rw [encodeExifObj_gps_length]
  have h1 : (jpegGpsData la lb).latitudeRef.data.length = 1 := by
    show ((if 0 ≤ la then "N" else "S") : String).data.length = 1
    split
    · decide
    · decide
  have h2 : (jpegGpsData la lb).longitudeRef.data.length = 1 := by
    show ((if 0 ≤ lb then "E" else "W") : String).data.length = 1
    split
    · decide
    · decide
  have h3 : (jpegGpsData la lb).versionID.length = 4 := rfl
  rw [h1, h2, h3]

/-- `piexif.load` applied to a buffer in the shape `piexif.insert` produces. -/
theorem jpegLoadExif_cons (rest : List ℕ) :
    jpegLoadExif (0xFF :: 0xD8 :: 0xFF :: 0xE1 :: rest)
      = decodeExifObj ((rest.drop 2).take (fromBEBytes (rest.take 2))) := rfl

theorem jpegLoadExif_insert (payload : List ℕ) (hlen : payload.length < 65536)
    (buf : List ℕ) : jpegLoadExif (jpegInsertExif payload buf) = decodeExifObj payload := by
  have hshape : jpegInsertExif payload buf
      = 0xFF :: 0xD8 :: 0xFF :: 0xE1
          :: (toBEBytes 2 payload.length ++ (payload ++ jpegTail buf)) := by
    simp [jpegInsertExif]
  rw [hshape, jpegLoadExif_cons]
  have hbl : (toBEBytes 2 payload.length).length = 2 := toBEBytes_length _ _
  have htake : (toBEBytes 2 payload.length ++ (payload ++ jpegTail buf)).take 2
      = toBEBytes 2 payload.length := by
    rw [show (2 : ℕ) = (toBEBytes 2 payload.length).length from hbl.symm]
    exact take_len_append _ _
  have hdrop : (toBEBytes 2 payload.length ++ (payload ++ jpegTail buf)).drop 2
      = payload ++ jpegTail buf := by
    rw [show (2 : ℕ) = (toBEBytes 2 payload.length).length from hbl.symm]
    exact List.drop_left _ _
  rw [htake, hdrop, fromBEBytes_toBEBytes (show payload.length < 256 ^ 2 by norm_num; omega)]
  congr 1
  rw [show payload.length = payload.length + 0 from rfl]
  exact take_len_append _ _

/-- On a minimal two-byte JPEG carrier, the EXIF writer produces the inserted
segment holding the dumped gps-only tag dictionary. -/
theorem writeExifMetadata_min_jpeg (la lb : ℚ) :
    writeExifMetadata [0xFF, 0xD8] { gps := some ⟨la, lb⟩ }
      = .ok (jpegInsertExif (encodeExifObj (jpegGpsObj la lb)) [0xFF, 0xD8]) := rfl

theorem readExifMetadata_gps (buf : List ℕ) (g : ExifGPSData)
    (hload : jpegLoadExif buf = some { gps := some g })
    (h1 : g.latitudeRef ≠ "") (h2 : g.longitudeRef ≠ "") :
    readExifMetadata buf
      = { gps := jsGpsView (gpsToDecimalPairs (some [g.latitude.1, g.latitude.2.1, g.latitude.2.2])
            g.latitudeRef,
          gpsToDecimalPairs (some [g.longitude.1, g.longitude.2.1, g.longitude.2.2])
            g.longitudeRef) } := by
  unfold readExifMetadata
  rw [hload]
  show (if g.latitudeRef ≠ "" ∧ g.longitudeRef ≠ "" then
      ({ gps := jsGpsView (gpsToDecimalPairs (some [g.latitude.1, g.latitude.2.1, g.latitude.2.2])
            g.latitudeRef,
          gpsToDecimalPairs (some [g.longitude.1, g.longitude.2.1, g.longitude.2.2])
            g.longitudeRef) } : MetadataInfo)
    else {}) = _
  rw [if_pos (show g.latitudeRef ≠ "" ∧ g.longitudeRef ≠ "" from ⟨h1, h2⟩)]

theorem readExifGpsDyn_gps (buf : List ℕ) (g : ExifGPSData)
    (hload : jpegLoadExif buf = some { gps := some g })
    (h1 : g.latitudeRef ≠ "") (h2 : g.longitudeRef ≠ "") :
    readExifGpsDyn buf
      = some (gpsToDecimalPairs (some [g.latitude.1, g.latitude.2.1, g.latitude.2.2])
          g.latitudeRef,
        gpsToDecimalPairs (some [g.longitude.1, g.longitude.2.1, g.longitude.2.2])
          g.longitudeRef) := by
  unfold readExifGpsDyn
  rw [hload]
  show (if g.latitudeRef ≠ "" ∧ g.longitudeRef ≠ "" then
      some (gpsToDecimalPairs (some [g.latitude.1, g.latitude.2.1, g.latitude.2.2])
          g.latitudeRef,
        gpsToDecimalPairs (some [g.longitude.1, g.longitude.2.1, g.longitude.2.2])
          g.longitudeRef)
    else none) = _
  rw [if_pos (show g.latitudeRef ≠ "" ∧ g.longitudeRef ≠ "" from ⟨h1, h2⟩)]

/-- Writing gps-only metadata to the minimal JPEG carrier and reading the
result back: the reader hands the stored pair-triples to `gpsToDecimal`, so
the dynamic read-back values are a concatenated string (for `N`/`E`
references) or `NaN` (for `S`/`W`), never finite numbers, and the
number-typed metadata view holds no coordinates. -/
theorem jpeg_read_write_junk (la lb : ℚ) (hla : |la| ≤ 90) (hlb : |lb| ≤ 180) :
    (readExifMetadata (jpegInsertExif (encodeExifObj (jpegGpsObj la lb)) [0xFF, 0xD8])).gps
      = none
    ∧ readExifGpsDyn (jpegInsertExif (encodeExifObj (jpegGpsObj la lb)) [0xFF, 0xD8])
      = some ((if 0 ≤ la then JSVal.str (ratPairToString
            ⟨jsRound ((decimalToGPS la).1 * 1), 1⟩ ++ "NaN" ++ "NaN") else JSVal.nan),
        (if 0 ≤ lb then JSVal.str (ratPairToString
            ⟨jsRound ((decimalToGPS lb).1 * 1), 1⟩ ++ "NaN" ++ "NaN") else JSVal.nan))
    ∧ (∀ v w, readExifGpsDyn (jpegInsertExif (encodeExifObj (jpegGpsObj la lb)) [0xFF, 0xD8])
        = some (v, w) → (∀ q : ℚ, v ≠ JSVal.num q) ∧ ∀ q : ℚ, w ≠ JSVal.num q) := by
  have hwfg : gpsWF (jpegGpsData la lb) :=
    gpsWF_jpegGpsData la lb (le_trans hla (by norm_num)) hlb
  have hwf : exifObjWF (jpegGpsObj la lb) := exifObjWF_gps_only _ hwfg
  have hload : jpegLoadExif (jpegInsertExif (encodeExifObj (jpegGpsObj la lb)) [0xFF, 0xD8])
      = some (jpegGpsObj la lb) := by
    rw [jpegLoadExif_insert _ (by rw [jpegGpsObj_payload_length]; norm_num) _]
    exact decodeExifObj_encodeExifObj hwf
  have h1 : (jpegGpsData la lb).latitudeRef ≠ "" :=
    string_if_ne_empty (0 ≤ la) "N" "S" (by decide) (by decide)
  have h2 : (jpegGpsData la lb).longitudeRef ≠ "" :=
    string_if_ne_empty (0 ≤ lb) "E" "W" (by decide) (by decide)
  have hdyn : readExifGpsDyn (jpegInsertExif (encodeExifObj (jpegGpsObj la lb)) [0xFF, 0xD8])
      = some ((if 0 ≤ la then JSVal.str (ratPairToString
            ⟨jsRound ((decimalToGPS la).1 * 1), 1⟩ ++ "NaN" ++ "NaN") else JSVal.nan),
        (if 0 ≤ lb then JSVal.str (ratPairToString
            ⟨jsRound ((decimalToGPS lb).1 * 1), 1⟩ ++ "NaN" ++ "NaN") else JSVal.nan)) := by
    rw [readExifGpsDyn_gps _ (jpegGpsData la lb) hload h1 h2]
    show some (gpsToDecimalPairs (some [⟨jsRound ((decimalToGPS la).1 * 1), 1⟩,
          ⟨jsRound ((decimalToGPS la).2.1 * 1), 1⟩,
          ⟨jsRound ((decimalToGPS la).2.2 * 100), 100⟩])
          (if 0 ≤ la then "N" else "S"),
        gpsToDecimalPairs (some [⟨jsRound ((decimalToGPS lb).1 * 1), 1⟩,
          ⟨jsRound ((decimalToGPS lb).2.1 * 1), 1⟩,
          ⟨jsRound ((decimalToGPS lb).2.2 * 100), 100⟩])
          (if 0 ≤ lb then "E" else "W")) = _
    rw [gpsToDecimalPairs_signed _ _ _ la "N" "S" (by decide) (Or.inl rfl),
      gpsToDecimalPairs_signed _ _ _ lb "E" "W" (by decide) (Or.inr rfl)]
  refine ⟨?_, hdyn, ?_⟩
  · rw [readExifMetadata_gps _ (jpegGpsData la lb) hload h1 h2]
    exact jsGpsView_junk _ _
      (fun q => gpsToDecimalPairs_triple_not_num _ _ _ _ _ q)
  · intro v w hvw
    rw [hdyn] at hvw
    injection hvw with hpair
    injection hpair with hv hw
    exact ⟨fun q => hv ▸ ifJunk_not_num (0 ≤ la) _ q,
      fun q => hw ▸ ifJunk_not_num (0 ≤ lb) _ q⟩

/-! ## The WebP (RIFF) GPS round trip -/

/-- The GPS IFD record `createExifChunk` stores (seconds denominator 1000,
absolute values fed to the DMS converter). -/
def webpGpsData (la lb : ℚ) : ExifGPSData :=
  ⟨(⟨jsRound ((decimalToGPS |la|).1 * 1), 1⟩, ⟨jsRound ((decimalToGPS |la|).2.1 * 1), 1⟩,
      ⟨jsRound ((decimalToGPS |la|).2.2 * 1000), 1000⟩),
    (if 0 ≤ la then "N" else "S"),
    (⟨jsRound ((decimalToGPS |lb|).1 * 1), 1⟩, ⟨jsRound ((decimalToGPS |lb|).2.1 * 1), 1⟩,
      ⟨jsRound ((decimalToGPS |lb|).2.2 * 1000), 1000⟩),
    (if 0 ≤ lb then "E" else "W"), [2, 3, 0, 0]⟩

/-- The tag dictionary `createExifChunk` dumps for gps-only metadata. -/
def webpGpsObj (la lb : ℚ) : ExifObj := { gps := some (webpGpsData la lb) }

theorem gpsWF_webpGpsData (la lb : ℚ) (hla : |la| ≤ 180) (hlb : |lb| ≤ 180) :
    gpsWF (webpGpsData la lb) := by
  unfold webpGpsData gpsWF
  exact ⟨ratWF_stored_deg |la| (by rw [abs_abs]; exact hla), ratWF_stored_min |la|,
    ratWF_stored_sec |la| 1000 1000 (by norm_num) (by norm_num) (by decide),
    strWFp_if (0 ≤ la) "N" "S" (show ("N" : String).data.length < 2 ^ 32 by decide)
      (show ("S" : String).data.length < 2 ^ 32 by decide),
    ratWF_stored_deg |lb| (by rw [abs_abs]; exact hlb), ratWF_stored_min |lb|,
    ratWF_stored_sec |lb| 1000 1000 (by norm_num) (by norm_num) (by decide),
    strWFp_if (0 ≤ lb) "E" "W" (show ("E" : String).data.length < 2 ^ 32 by decide)
      (show ("W" : String).data.length < 2 ^ 32 by decide),
    show ([2, 3, 0, 0] : List ℕ).length < 2 ^ 32 by decide,
    show ∀ x ∈ ([2, 3, 0, 0] : List ℕ), x < 2 ^ 32 by decide⟩

theorem createExifChunk_gps_length (la lb : ℚ) :
    (createExifChunk { gps := some ⟨la, lb⟩ }).length = 150 := by
  show (encodeExifObj { gps := some (webpGpsData la lb) }).length = 150
  rw [encodeExifObj_gps_length]
  have h1 : (webpGpsData la lb).latitudeRef.data.length = 1 := by
    show ((if 0 ≤ la then "N" else "S") : String).data.length = 1
    split
    · decide
    · decide
  have h2 : (webpGpsData la lb).longitudeRef.data.length = 1 := by
    show ((if 0 ≤ lb then "E" else "W") : String).data.length = 1
    split
    · decide
    · decide
  have h3 : (webpGpsData la lb).versionID.length = 4 := rfl
  rw [h1, h2, h3]

theorem webpExtractFromExif_gps (g : ExifGPSData)
    (h1 : g.latitudeRef ≠ "") (h2 : g.longitudeRef ≠ "") :
    webpExtractFromExif { gps := some g }
      = { gps := jsGpsView (gpsToDecimalPairs (some [g.latitude.1, g.latitude.2.1, g.latitude.2.2])
            g.latitudeRef,
          gpsToDecimalPairs (some [g.longitude.1, g.longitude.2.1, g.longitude.2.2])
            g.longitudeRef) } := by
  unfold webpExtractFromExif
  show (if g.latitudeRef ≠ "" ∧ g.longitudeRef ≠ "" then
      ({ gps := jsGpsView (gpsToDecimalPairs (some [g.latitude.1, g.latitude.2.1, g.latitude.2.2])
            g.latitudeRef,
          gpsToDecimalPairs (some [g.longitude.1, g.longitude.2.1, g.longitude.2.2])
            g.longitudeRef) } : MetadataInfo)
    else {}) = _
  rw [if_pos (show g.latitudeRef ≠ "" ∧ g.longitudeRef ≠ "" from ⟨h1, h2⟩)]

theorem webpExtractGpsDyn_gps (g : ExifGPSData)
    (h1 : g.latitudeRef ≠ "") (h2 : g.longitudeRef ≠ "") :
    webpExtractGpsDyn { gps := some g }
      = some (gpsToDecimalPairs (some [g.latitude.1, g.latitude.2.1, g.latitude.2.2])
          g.latitudeRef,
        gpsToDecimalPairs (some [g.longitude.1, g.longitude.2.1, g.longitude.2.2])
          g.longitudeRef) := by
  unfold webpExtractGpsDyn
  show (if g.latitudeRef ≠ "" ∧ g.longitudeRef ≠ "" then
      some (gpsToDecimalPairs (some [g.latitude.1, g.latitude.2.1, g.latitude.2.2])
          g.latitudeRef,
        gpsToDecimalPairs (some [g.longitude.1, g.longitude.2.1, g.longitude.2.2])
          g.longitudeRef)
    else none) = _
  rw [if_pos (show g.latitudeRef ≠ "" ∧ g.longitudeRef ≠ "" from ⟨h1, h2⟩)]

/-- The WebP reader's chunk scan skips serialized well-formed non-EXIF chunks
and stops at a serialized EXIF chunk, decoding its payload. -/
theorem readWebPScan_serialized :
    ∀ (cs : List (String × List ℕ)), (∀ x ∈ cs, webpChunkWF x) →
      ∀ (pre : List ℕ) (d : List ℕ) (suf : List ℕ) (fuel : ℕ),
        cs.length < fuel → 0 < d.length → d.length < 2 ^ 32 →
        readWebPScan (pre ++ ((cs.map webpSerializeChunk).flatten
            ++ (webpSerializeChunk ("EXIF", d) ++ suf))) fuel pre.length
          = match decodeExifObj d with
            | none => {}
            | some exifObj => webpExtractFromExif exifObj := by
  intro cs
  induction cs with
  | nil =>
      intro _ pre d suf fuel hfuel hd0 hd32
      cases fuel with
      | zero => exact absurd hfuel (Nat.not_lt_zero _)
      | succ f =>
          simp only [List.map_nil, List.flatten_nil, List.nil_append]
          have hulen : (utf8Bytes "EXIF").length = 4 := by decide
          have htype4 : (utf8Bytes "EXIF" ++ List.replicate 4 0).take 4
              = utf8Bytes "EXIF" := by decide
          have hmod : d.length % 2 ^ 32 = d.length := Nat.mod_eq_of_lt hd32
          set P := (if d.length % 2 = 1 then [0] else ([] : List ℕ)) with hPd
          set B := toLEBytes 4 d.length with hBd
          have hBl : B.length = 4 := by rw [hBd]; exact toLEBytes_length _ _
          have hB : webpSerializeChunk ("EXIF", d) ++ suf
              = utf8Bytes "EXIF" ++ (B ++ (d ++ (P ++ suf))) := by
            simp only [webpSerializeChunk, List.append_assoc]
            rw [htype4, hmod, hBd, hPd]
          set canon := utf8Bytes "EXIF" ++ (B ++ (d ++ (P ++ suf))) with hC
          have hr : ∀ X : List ℕ, (pre ++ X).drop pre.length = X := fun X =>
            List.drop_left pre X
          have hdropk : ∀ (k : ℕ) (X : List ℕ),
              (pre ++ X).drop (pre.length + k) = X.drop k := by
            intro k X
            rw [← List.drop_drop, hr]
          have h1 : ((pre ++ canon).drop pre.length).take 4 = utf8Bytes "EXIF" := by
            rw [hr, hC]
            rw [show (4 : ℕ) = (utf8Bytes "EXIF").length from hulen.symm]
            exact take_len_append _ _
          have h2 : ((pre ++ canon).drop (pre.length + 4)).take 4 = B := by
            rw [hdropk, hC]
            rw [show (4 : ℕ) = (utf8Bytes "EXIF").length from hulen.symm, List.drop_left]
            rw [show (utf8Bytes "EXIF").length = B.length from by rw [hulen, hBl]]
            exact take_len_append _ _
          have h3 : ((pre ++ canon).drop (pre.length + 8)).take d.length = d := by
            rw [hdropk, hC]
            rw [show (8 : ℕ) = (utf8Bytes "EXIF").length + B.length from by rw [hulen, hBl]]
            rw [← List.drop_drop, List.drop_left, List.drop_left]
            exact take_len_append _ _
          have hfle : fromLEBytes B = d.length := by
            rw [hBd]
            apply fromLEBytes_toLEBytes
            calc d.length < 2 ^ 32 := hd32
              _ = 256 ^ 4 := by norm_num
          have hty : bytesToStringLossy (utf8Bytes "EXIF") = "EXIF" := by decide
          have hguard : pre.length + 8 < (pre ++ canon).length := by
            rw [hC]
            simp [hulen, hBl, List.length_append]
            omega
          rw [hB]
          rw [readWebPScan, if_pos hguard]
          simp only [h1, h2, h3, hfle, hty]
          rw [if_pos trivial]
  | cons c rest ih =>
      intro hwf pre d suf fuel hfuel hd0 hd32
      obtain ⟨hascii, hlen4, hexif, hpos, hbound⟩ := hwf c (List.mem_cons_self c rest)
      cases fuel with
      | zero => exact absurd hfuel (Nat.not_lt_zero _)
      | succ f =>
          have hulen : (utf8Bytes c.1).length = 4 := by
            rw [utf8Bytes_ascii hascii, List.length_map, hlen4]
          have htype4 : (utf8Bytes c.1 ++ List.replicate 4 0).take 4 = utf8Bytes c.1 := by
            rw [List.take_append_of_le_length (le_of_eq hulen.symm),
              List.take_of_length_le (le_of_eq hulen)]
          have hmod : c.2.length % 2 ^ 32 = c.2.length := Nat.mod_eq_of_lt hbound
          simp only [List.map_cons, List.flatten_cons]
          rw [List.append_assoc (webpSerializeChunk c)]
          set T := (rest.map webpSerializeChunk).flatten
            ++ (webpSerializeChunk ("EXIF", d) ++ suf) with hT
          set P := (if c.2.length % 2 = 1 then [0] else ([] : List ℕ)) with hPd
          set B := toLEBytes 4 c.2.length with hBd
          have hBl : B.length = 4 := by rw [hBd]; exact toLEBytes_length _ _
          have hB : webpSerializeChunk c ++ T
              = utf8Bytes c.1 ++ (B ++ (c.2 ++ (P ++ T))) := by
            simp only [webpSerializeChunk, List.append_assoc]
            rw [htype4, hmod, hBd, hPd]
          set canon := utf8Bytes c.1 ++ (B ++ (c.2 ++ (P ++ T))) with hC
          have hr : ∀ X : List ℕ, (pre ++ X).drop pre.length = X := fun X =>
            List.drop_left pre X
          have hdropk : ∀ (k : ℕ) (X : List ℕ),
              (pre ++ X).drop (pre.length + k) = X.drop k := by
            intro k X
            rw [← List.drop_drop, hr]
          have h1 : ((pre ++ canon).drop pre.length).take 4 = utf8Bytes c.1 := by
            rw [hr, hC]
            rw [show (4 : ℕ) = (utf8Bytes c.1).length from hulen.symm]
            exact take_len_append _ _
          have h2 : ((pre ++ canon).drop (pre.length + 4)).take 4 = B := by
            rw [hdropk, hC]
            rw [show (4 : ℕ) = (utf8Bytes c.1).length from hulen.symm, List.drop_left]
            rw [show (utf8Bytes c.1).length = B.length from by rw [hulen, hBl]]
            exact take_len_append _ _
          have h3 : ((pre ++ canon).drop (pre.length + 8)).take c.2.length = c.2 := by
            rw [hdropk, hC]
            rw [show (8 : ℕ) = (utf8Bytes c.1).length + B.length from by rw [hulen, hBl]]
            rw [← List.drop_drop, List.drop_left, List.drop_left]
            exact take_len_append _ _
          have hfle : fromLEBytes B = c.2.length := by
            rw [hBd]
            apply fromLEBytes_toLEBytes
            calc c.2.length < 2 ^ 32 := hbound
              _ = 256 ^ 4 := by norm_num
          have hty : bytesToStringLossy (utf8Bytes c.1) = c.1 := by
            rw [utf8Bytes_ascii hascii, bytesToStringLossy_ascii_map hascii]
          have hguard : pre.length + 8 < (pre ++ canon).length := by
            rw [hC]
            simp [hulen, hBl, List.length_append]
            omega
          have hoff : pre.length + 8 + c.2.length + (if c.2.length % 2 = 1 then 1 else 0)
              = (pre ++ webpSerializeChunk c).length := by
            rw [List.length_append, webpSerializeChunk_length]
            set p := (if c.2.length % 2 = 1 then 1 else 0)
            omega
          have hassoc : pre ++ canon = (pre ++ webpSerializeChunk c) ++ T := by
            rw [hC]
            simp only [webpSerializeChunk, List.append_assoc]
            rw [htype4, hmod, hBd, hPd]
          rw [hB]
          rw [readWebPScan, if_pos hguard]
          simp only [h1, h2, h3, hfle, hty]
          rw [if_neg hexif]
          rw [hoff, hassoc, ih (fun x hx => hwf x (List.mem_cons_of_mem c hx))
            (pre ++ webpSerializeChunk c) d suf f (by simp at hfuel; omega) hd0 hd32]

/-- The scan applied to a serialized chunk list with one EXIF chunk inserted. -/
theorem readWebPScan_insert (cs₁ cs₂ : List (String × List ℕ)) (d : List ℕ)
    (pre : List ℕ) (fuel : ℕ) (hwf₁ : ∀ x ∈ cs₁, webpChunkWF x)
    (hfuel : cs₁.length < fuel) (hd0 : 0 < d.length) (hd32 : d.length < 2 ^ 32) :
    readWebPScan (pre ++ ((cs₁ ++ ("EXIF", d) :: cs₂).map webpSerializeChunk).flatten)
        fuel pre.length
      = match decodeExifObj d with
        | none => {}
        | some exifObj => webpExtractFromExif exifObj := by
  have hsh : ((cs₁ ++ ("EXIF", d) :: cs₂).map webpSerializeChunk).flatten
      = (cs₁.map webpSerializeChunk).flatten
        ++ (webpSerializeChunk ("EXIF", d) ++ (cs₂.map webpSerializeChunk).flatten) := by
    rw [List.map_append, List.flatten_append, List.map_cons, List.flatten_cons]
  rw [hsh]
  exact readWebPScan_serialized cs₁ hwf₁ pre d _ fuel hfuel hd0 hd32

/-- The chunk-level insertion decomposes as a well-formed prefix, the EXIF
chunk, and a suffix. -/
theorem webpInsertExifSpec_decomp (cs : List (String × List ℕ)) (d : List ℕ) :
    ∃ cs₁ cs₂, webpInsertExifSpec cs d = cs₁ ++ ("EXIF", d) :: cs₂
      ∧ (∀ x ∈ cs₁, x ∈ cs) ∧ cs₁.length ≤ cs.length := by
  unfold webpInsertExifSpec
  cases h : cs.findIdx? (fun c => c.1 == "VP8 " || c.1 == "VP8L" || c.1 == "VP8X") with
  | none => exact ⟨[], cs, rfl, by simp, by simp⟩
  | some i =>
      refine ⟨cs.take (i + 1), cs.drop (i + 1), by simp,
        fun x hx => List.mem_of_mem_take hx, ?_⟩
      rw [List.length_take]
      omega

theorem webp_out_take4 (B' FL' : List ℕ) (hB : B'.length = 4) :
    (latin1Bytes "RIFF" ++ B' ++ latin1Bytes "WEBP" ++ FL').take 4 = latin1Bytes "RIFF" := by
  have hA : (latin1Bytes "RIFF").length = 4 := by decide
  have hC : (latin1Bytes "WEBP").length = 4 := by decide
  rw [List.take_append_of_le_length (by simp only [List.length_append, hA, hB, hC]; omega)]
  rw [List.take_append_of_le_length (by simp only [List.length_append, hA, hB]; omega)]
  rw [List.take_append_of_le_length (le_of_eq hA.symm)]
  rw [List.take_of_length_le (le_of_eq hA)]

theorem webp_out_drop8take4 (B' FL' : List ℕ) (hB : B'.length = 4) :
    ((latin1Bytes "RIFF" ++ B' ++ latin1Bytes "WEBP" ++ FL').drop 8).take 4
      = latin1Bytes "WEBP" := by
  have hA : (latin1Bytes "RIFF").length = 4 := by decide
  rw [List.append_assoc (latin1Bytes "RIFF" ++ B')]
  rw [show (8 : ℕ) = (latin1Bytes "RIFF" ++ B').length from by
    simp only [List.length_append, hA, hB]]
  rw [List.drop_left]
  rw [show (4 : ℕ) = (latin1Bytes "WEBP").length from by decide]
  exact take_len_append _ _

/-- Writing gps-only metadata into a WebP laid out as a 12-byte header plus
serialized well-formed chunks and reading the result back: the number-typed
metadata view of the junk `{lat, lon}` pair the extractor assigns. -/
theorem webp_read_write_view (hdr : List ℕ) (cs : List (String × List ℕ)) (la lb : ℚ)
    (hhdr : hdr.length = 12) (hwfc : ∀ x ∈ cs, webpChunkWF x)
    (hla : |la| ≤ 180) (hlb : |lb| ≤ 180) :
    readWebPMetadata (writeWebPMetadata (hdr ++ (cs.map webpSerializeChunk).flatten)
        { gps := some ⟨la, lb⟩ })
      = { gps := jsGpsView (gpsToDecimalPairs (some [(webpGpsData la lb).latitude.1,
            (webpGpsData la lb).latitude.2.1, (webpGpsData la lb).latitude.2.2])
            (webpGpsData la lb).latitudeRef,
          gpsToDecimalPairs (some [(webpGpsData la lb).longitude.1,
            (webpGpsData la lb).longitude.2.1, (webpGpsData la lb).longitude.2.2])
            (webpGpsData la lb).longitudeRef) } := by
  rw [writeWebPMetadata_serialized hdr cs _ hhdr hwfc]
  set d := createExifChunk { gps := some ⟨la, lb⟩ } with hd
  obtain ⟨cs₁, cs₂, hdecomp, hmem, hlen₁⟩ := webpInsertExifSpec_decomp cs d
  rw [hdecomp]
  set SZB := toLEBytes 4 ((4 + ((cs₁ ++ ("EXIF", d) :: cs₂).map
      (fun c => 8 + c.2.length + (if c.2.length % 2 = 1 then 1 else 0))).sum) % 2 ^ 32) with hSZB
  have hSZBl : SZB.length = 4 := by rw [hSZB]; exact toLEBytes_length _ _
  have hdlen : d.length = 150 := by rw [hd]; exact createExifChunk_gps_length la lb
  unfold readWebPMetadata
  have htag : bytesToStringLossy ((latin1Bytes "RIFF" ++ SZB ++ latin1Bytes "WEBP"
        ++ ((cs₁ ++ ("EXIF", d) :: cs₂).map webpSerializeChunk).flatten).take 4) = "RIFF"
      ∧ bytesToStringLossy (((latin1Bytes "RIFF" ++ SZB ++ latin1Bytes "WEBP"
        ++ ((cs₁ ++ ("EXIF", d) :: cs₂).map webpSerializeChunk).flatten).drop 8).take 4)
        = "WEBP" := by
    constructor
    · rw [webp_out_take4 SZB _ hSZBl]
      decide
    · rw [webp_out_drop8take4 SZB _ hSZBl]
      decide
  rw [if_pos htag]
  rw [show (12 : ℕ) = (latin1Bytes "RIFF" ++ SZB ++ latin1Bytes "WEBP").length from by
    have hA : (latin1Bytes "RIFF").length = 4 := by decide
    have hC : (latin1Bytes "WEBP").length = 4 := by decide
    simp only [List.length_append, hA, hC, hSZBl]]
  have hfuelb : cs₁.length < (latin1Bytes "RIFF" ++ SZB ++ latin1Bytes "WEBP"
      ++ ((cs₁ ++ ("EXIF", d) :: cs₂).map webpSerializeChunk).flatten).length := by
    have e1 := webpChunks_length_le cs₁
    have e2 : ((cs₁ ++ ("EXIF", d) :: cs₂).map webpSerializeChunk).flatten
        = (cs₁.map webpSerializeChunk).flatten
          ++ ((("EXIF", d) :: cs₂).map webpSerializeChunk).flatten := by
      rw [List.map_append, List.flatten_append]
    rw [e2]
    simp only [List.length_append]
    omega
  rw [readWebPScan_insert cs₁ cs₂ d (latin1Bytes "RIFF" ++ SZB ++ latin1Bytes "WEBP")
    ((latin1Bytes "RIFF" ++ SZB ++ latin1Bytes "WEBP"
      ++ ((cs₁ ++ ("EXIF", d) :: cs₂).map webpSerializeChunk).flatten).length)
    (fun x hx => hwfc x (hmem x hx)) hfuelb (by omega) (by omega)]
  have hwfobj : exifObjWF (webpGpsObj la lb) :=
    exifObjWF_gps_only _ (gpsWF_webpGpsData la lb hla hlb)
  have hdec : decodeExifObj d = some (webpGpsObj la lb) := by
    rw [hd, show createExifChunk { gps := some ⟨la, lb⟩ }
      = encodeExifObj (webpGpsObj la lb) from rfl]
    exact decodeExifObj_encodeExifObj hwfobj
  rw [hdec]
  show webpExtractFromExif (webpGpsObj la lb) = _
  rw [show webpGpsObj la lb = { gps := some (webpGpsData la lb) } from rfl]
  exact webpExtractFromExif_gps (webpGpsData la lb)
    (string_if_ne_empty (0 ≤ la) "N" "S" (by decide) (by decide))
    (string_if_ne_empty (0 ≤ lb) "E" "W" (by decide) (by decide))

/-- Writing gps-only metadata into a WebP and reading the result back: the
extractor hands the stored pair-triples to `gpsToDecimal`, so the dynamic
read-back values are a concatenated string or `NaN`, never finite numbers,
and the number-typed metadata view holds no coordinates. -/
theorem webp_read_write_junk (hdr : List ℕ) (cs : List (String × List ℕ)) (la lb : ℚ)
    (hhdr : hdr.length = 12) (hwfc : ∀ x ∈ cs, webpChunkWF x)
    (hla : |la| ≤ 90) (hlb : |lb| ≤ 180) :
    (readWebPMetadata (writeWebPMetadata (hdr ++ (cs.map webpSerializeChunk).flatten)
        { gps := some ⟨la, lb⟩ })).gps = none
    ∧ decodeExifObj (createExifChunk { gps := some ⟨la, lb⟩ }) = some (webpGpsObj la lb)
    ∧ webpExtractGpsDyn (webpGpsObj la lb)
        = some ((if 0 ≤ la then JSVal.str (ratPairToString
              ⟨jsRound ((decimalToGPS |la|).1 * 1), 1⟩ ++ "NaN" ++ "NaN") else JSVal.nan),
          (if 0 ≤ lb then JSVal.str (ratPairToString
              ⟨jsRound ((decimalToGPS |lb|).1 * 1), 1⟩ ++ "NaN" ++ "NaN") else JSVal.nan))
    ∧ (∀ v w, webpExtractGpsDyn (webpGpsObj la lb) = some (v, w) →
        (∀ q : ℚ, v ≠ JSVal.num q) ∧ ∀ q : ℚ, w ≠ JSVal.num q) := by
  have h1 : (webpGpsData la lb).latitudeRef ≠ "" :=
    string_if_ne_empty (0 ≤ la) "N" "S" (by decide) (by decide)
  have h2 : (webpGpsData la lb).longitudeRef ≠ "" :=
    string_if_ne_empty (0 ≤ lb) "E" "W" (by decide) (by decide)
  have hdyn : webpExtractGpsDyn (webpGpsObj la lb)
      = some ((if 0 ≤ la then JSVal.str (ratPairToString
            ⟨jsRound ((decimalToGPS |la|).1 * 1), 1⟩ ++ "NaN" ++ "NaN") else JSVal.nan),
        (if 0 ≤ lb then JSVal.str (ratPairToString
            ⟨jsRound ((decimalToGPS |lb|).1 * 1), 1⟩ ++ "NaN" ++ "NaN") else JSVal.nan)) := by
    rw [show webpGpsObj la lb = { gps := some (webpGpsData la lb) } from rfl]
    rw [webpExtractGpsDyn_gps (webpGpsData la lb) h1 h2]
    show some (gpsToDecimalPairs (some [⟨jsRound ((decimalToGPS |la|).1 * 1), 1⟩,
          ⟨jsRound ((decimalToGPS |la|).2.1 * 1), 1⟩,
          ⟨jsRound ((decimalToGPS |la|).2.2 * 1000), 1000⟩])
          (if 0 ≤ la then "N" else "S"),
        gpsToDecimalPairs (some [⟨jsRound ((decimalToGPS |lb|).1 * 1), 1⟩,
          ⟨jsRound ((decimalToGPS |lb|).2.1 * 1), 1⟩,
          ⟨jsRound ((decimalToGPS |lb|).2.2 * 1000), 1000⟩])
          (if 0 ≤ lb then "E" else "W")) = _
    rw [gpsToDecimalPairs_signed _ _ _ la "N" "S" (by decide) (Or.inl rfl),
      gpsToDecimalPairs_signed _ _ _ lb "E" "W" (by decide) (Or.inr rfl)]
  refine ⟨?_, ?_, hdyn, ?_⟩
  · rw [webp_read_write_view hdr cs la lb hhdr hwfc (le_trans hla (by norm_num)) hlb]
    exact jsGpsView_junk _ _
      (fun q => gpsToDecimalPairs_triple_not_num _ _ _ _ _ q)
  · rw [show createExifChunk { gps := some ⟨la, lb⟩ }
      = encodeExifObj (webpGpsObj la lb) from rfl]
    exact decodeExifObj_encodeExifObj
      (exifObjWF_gps_only _ (gpsWF_webpGpsData la lb (le_trans hla (by norm_num)) hlb))
  · intro v w hvw
    rw [hdyn] at hvw
    injection hvw with hpair
    injection hpair with hv hw
    exact ⟨fun q => hv ▸ ifJunk_not_num (0 ≤ la) _ q,
      fun q => hw ▸ ifJunk_not_num (0 ≤ lb) _ q⟩

/-- C1, counterexample: at latitude `5`, longitude `-7`, write-then-read does
NOT recover the coordinates for the EXIF path.  The write succeeds and stores
proper `[num, den]` rational pair-triples, but the reader passes those raw
pairs to `gpsToDecimal`, so the dynamic read-back pair is the concatenated
string `"5,1NaNNaN"` for the latitude (reference `N`) and `NaN` for the
longitude (reference `W`) — no numbers at all — and the number-typed metadata
view holds no gps.  The WebP read path fails the same way on a VP8X + `VP8 `
carrier. -/
theorem C1_counterexample :
    writeExifMetadata [0xFF, 0xD8] { gps := some ⟨5, -7⟩ }
      = .ok (jpegInsertExif (encodeExifObj (jpegGpsObj 5 (-7))) [0xFF, 0xD8])
    ∧ (readExifMetadata (jpegInsertExif (encodeExifObj (jpegGpsObj 5 (-7)))
        [0xFF, 0xD8])).gps = none
    ∧ readExifGpsDyn (jpegInsertExif (encodeExifObj (jpegGpsObj 5 (-7))) [0xFF, 0xD8])
      = some (JSVal.str "5,1NaNNaN", JSVal.nan)
    ∧ (readWebPMetadata (writeWebPMetadata
        ((latin1Bytes "RIFF" ++ [32, 0, 0, 0] ++ latin1Bytes "WEBP")
          ++ ([("VP8X", List.replicate 10 0), ("VP8 ", [1, 2])].map webpSerializeChunk).flatten)
        { gps := some ⟨5, -7⟩ })).gps = none := by
  have hj := jpeg_read_write_junk 5 (-7) (by decide) (by decide)
  have hdeg5 : jsRound ((decimalToGPS (5 : ℚ)).1 * 1) = 5 := by
    rw [show (decimalToGPS (5 : ℚ)).1 = ((⌊|(5 : ℚ)|⌋ : ℤ) : ℚ) from rfl]
    norm_num [jsRound]
  have hstr : ratPairToString ⟨(5 : ℤ), 1⟩ = "5,1" := by
    show numToString ((5 : ℤ) : ℚ) ++ "," ++ numToString ((1 : ℤ) : ℚ) = "5,1"
    rw [show ((5 : ℤ) : ℚ) = (5 : ℚ) from by norm_num,
      show ((1 : ℤ) : ℚ) = (1 : ℚ) from by norm_num]
    decide
  have hdyn := hj.2.1
  rw [if_pos (show (0 : ℚ) ≤ 5 by norm_num),
    if_neg (show ¬(0 : ℚ) ≤ -7 by norm_num), hdeg5, hstr,
    show ("5,1" ++ "NaN" ++ "NaN" : String) = "5,1NaNNaN" from by decide] at hdyn
  exact ⟨writeExifMetadata_min_jpeg 5 (-7), hj.1, hdyn,
    (webp_read_write_junk (latin1Bytes "RIFF" ++ [32, 0, 0, 0] ++ latin1Bytes "WEBP")
      [("VP8X", List.replicate 10 0), ("VP8 ", [1, 2])] 5 (-7)
      (by decide) (by decide) (by decide) (by decide)).1⟩

/-- C1, amended: only the PNG path round-trips GPS coordinates.  The EXIF and
WebP writers store faithful `[num, den]` DMS rational pair-triples, but the
EXIF and WebP readers pass those raw pairs straight to `gpsToDecimal`, whose
arithmetic on arrays yields a concatenated string (for `N`/`E` references) or
`NaN` (for `S`/`W`), never a finite number: the dynamic read-back `{lat, lon}`
values are non-numeric junk, so no coordinates within `1e-5` (or any
tolerance) are recovered, and the number-typed metadata view holds no gps.
The PNG text-chunk path recovers finite-decimal coordinates exactly (the
carrier transports and ECMAScript builtins are spec-modelled; the readers'
raw-pair hand-off is repository code). -/
theorem C1_gps_roundtrip_amended :
    (∀ (la lb : ℚ), |la| ≤ 90 → |lb| ≤ 180 →
      ∃ out, writeExifMetadata [0xFF, 0xD8] { gps := some ⟨la, lb⟩ } = .ok out
        ∧ (readExifMetadata out).gps = none
        ∧ readExifGpsDyn out
            = some ((if 0 ≤ la then JSVal.str (ratPairToString
                  ⟨jsRound ((decimalToGPS la).1 * 1), 1⟩ ++ "NaN" ++ "NaN") else JSVal.nan),
              (if 0 ≤ lb then JSVal.str (ratPairToString
                  ⟨jsRound ((decimalToGPS lb).1 * 1), 1⟩ ++ "NaN" ++ "NaN") else JSVal.nan))
        ∧ (∀ v w, readExifGpsDyn out = some (v, w) →
            (∀ q : ℚ, v ≠ JSVal.num q) ∧ ∀ q : ℚ, w ≠ JSVal.num q))
    ∧ (∀ (hdr : List ℕ) (cs : List (String × List ℕ)) (la lb : ℚ),
        hdr.length = 12 → (∀ x ∈ cs, webpChunkWF x) → |la| ≤ 90 → |lb| ≤ 180 →
        (readWebPMetadata (writeWebPMetadata (hdr ++ (cs.map webpSerializeChunk).flatten)
            { gps := some ⟨la, lb⟩ })).gps = none
        ∧ decodeExifObj (createExifChunk { gps := some ⟨la, lb⟩ }) = some (webpGpsObj la lb)
        ∧ webpExtractGpsDyn (webpGpsObj la lb)
            = some ((if 0 ≤ la then JSVal.str (ratPairToString
                  ⟨jsRound ((decimalToGPS |la|).1 * 1), 1⟩ ++ "NaN" ++ "NaN") else JSVal.nan),
              (if 0 ≤ lb then JSVal.str (ratPairToString
                  ⟨jsRound ((decimalToGPS |lb|).1 * 1), 1⟩ ++ "NaN" ++ "NaN") else JSVal.nan))
        ∧ (∀ v w, webpExtractGpsDyn (webpGpsObj la lb) = some (v, w) →
            (∀ q : ℚ, v ≠ JSVal.num q) ∧ ∀ q : ℚ, w ≠ JSVal.num q))
    ∧ (∀ (la lb : ℚ) (now : String), jsDecimal la → jsDecimal lb → asciiOnly now = true →
        (numToString la).data.length < 1000 → (numToString lb).data.length < 1000 →
        now.data.length < 1000 →
        ∃ out, writePNGMetadata (pngSignature ++ [0, 0, 0, 0] ++ [73, 72, 68, 82]
            ++ [0, 0, 0, 0]) { gps := some ⟨la, lb⟩ } now = .ok out
          ∧ (readPNGMetadata out).gps = some (⟨la, lb⟩ : GPSCoordinates)) :=
  ⟨fun la lb hla hlb =>
    ⟨jpegInsertExif (encodeExifObj (jpegGpsObj la lb)) [0xFF, 0xD8],
      writeExifMetadata_min_jpeg la lb, (jpeg_read_write_junk la lb hla hlb).1,
      (jpeg_read_write_junk la lb hla hlb).2.1, (jpeg_read_write_junk la lb hla hlb).2.2⟩,
   fun hdr cs la lb hhdr hwf hla hlb => webp_read_write_junk hdr cs la lb hhdr hwf hla hlb,
   fun la lb now hla hlb hnow hl1 hl2 hl3 => png_gps_roundtrip la lb now hla hlb hnow hl1 hl2 hl3⟩

/-- Witness for the amended C1 at concrete inputs: latitude `5`, longitude
`-7`, the two-byte JPEG carrier, a VP8X + `VP8 ` WebP carrier, and the
minimal PNG carrier with a fixed timestamp. -/
theorem C1_gps_roundtrip_amended_witness :
    (∃ out, writeExifMetadata [0xFF, 0xD8] { gps := some ⟨5, -7⟩ } = .ok out
      ∧ (readExifMetadata out).gps = none
      ∧ readExifGpsDyn out
          = some ((if 0 ≤ (5 : ℚ) then JSVal.str (ratPairToString
                ⟨jsRound ((decimalToGPS (5 : ℚ)).1 * 1), 1⟩ ++ "NaN" ++ "NaN") else JSVal.nan),
            (if 0 ≤ (-7 : ℚ) then JSVal.str (ratPairToString
                ⟨jsRound ((decimalToGPS (-7 : ℚ)).1 * 1), 1⟩ ++ "NaN" ++ "NaN") else JSVal.nan))
      ∧ (∀ v w, readExifGpsDyn out = some (v, w) →
          (∀ q : ℚ, v ≠ JSVal.num q) ∧ ∀ q : ℚ, w ≠ JSVal.num q))
    ∧ ((readWebPMetadata (writeWebPMetadata
          ((latin1Bytes "RIFF" ++ [32, 0, 0, 0] ++ latin1Bytes "WEBP")
            ++ ([("VP8X", List.replicate 10 0), ("VP8 ", [1, 2])].map webpSerializeChunk).flatten)
          { gps := some ⟨5, -7⟩ })).gps = none
      ∧ decodeExifObj (createExifChunk { gps := some ⟨5, -7⟩ }) = some (webpGpsObj 5 (-7))
      ∧ webpExtractGpsDyn (webpGpsObj 5 (-7))
          = some ((if 0 ≤ (5 : ℚ) then JSVal.str (ratPairToString
                ⟨jsRound ((decimalToGPS |(5 : ℚ)|).1 * 1), 1⟩ ++ "NaN" ++ "NaN")
              else JSVal.nan),
            (if 0 ≤ (-7 : ℚ) then JSVal.str (ratPairToString
                ⟨jsRound ((decimalToGPS |(-7 : ℚ)|).1 * 1), 1⟩ ++ "NaN" ++ "NaN")
              else JSVal.nan))
      ∧ (∀ v w, webpExtractGpsDyn (webpGpsObj 5 (-7)) = some (v, w) →
          (∀ q : ℚ, v ≠ JSVal.num q) ∧ ∀ q : ℚ, w ≠ JSVal.num q))
    ∧ (∃ out, writePNGMetadata (pngSignature ++ [0, 0, 0, 0] ++ [73, 72, 68, 82]
          ++ [0, 0, 0, 0]) { gps := some ⟨5, -7⟩ } "2024-01-01T00:00:00.000Z" = .ok out
        ∧ (readPNGMetadata out).gps = some (⟨5, -7⟩ : GPSCoordinates)) :=
  ⟨C1_gps_roundtrip_amended.1 5 (-7) (by decide) (by decide),
   C1_gps_roundtrip_amended.2.1 (latin1Bytes "RIFF" ++ [32, 0, 0, 0] ++ latin1Bytes "WEBP")
     [("VP8X", List.replicate 10 0), ("VP8 ", [1, 2])] 5 (-7) (by decide) (by decide)
     (by decide) (by decide),
   C1_gps_roundtrip_amended.2.2 5 (-7) "2024-01-01T00:00:00.000Z" (by unfold jsDecimal; decide)
     (by unfold jsDecimal; decide) (by decide) (by decide) (by decide) (by decide)⟩
